import Mathlib

/-!
# Link-budget engine of `server.js`

A shallow embedding of `src/server.js`: the topology graph and the chain path finder, the
direct link-budget model with its helpers, the chain aggregator, and the handler of
`POST /api/calculate` with its validation gate.

* JavaScript numbers are modelled by `Num`: exact rationals extended by `NaN`, `+Infinity`
  and `-Infinity`.  Rounding of IEEE doubles and the sign of zero are not modelled.
* JSON objects used as parameter maps are association lists; a lookup takes the first binding.
* A JavaScript `Map` is an association list in insertion order, `Set` a duplicate-free list.
* Exceptions are the `Except.error` results.
-/

namespace RTS

/-! ## Values -/

/-- A JavaScript number: a rational, or one of the three non-finite doubles. -/
inductive Num where
  | fin (q : ℚ)
  | nan
  | posInf
  | negInf
deriving DecidableEq

namespace Num

instance (n : Nat) : OfNat Num n := ⟨Num.fin n⟩

instance : OfScientific Num := ⟨fun m s e => Num.fin (OfScientific.ofScientific m s e)⟩

/-- The sum `a + b` of two numbers. -/
def add : Num → Num → Num
  | fin a, fin b => fin (a + b)
  | nan, _ => nan
  | _, nan => nan
  | posInf, negInf => nan
  | negInf, posInf => nan
  | posInf, _ => posInf
  | _, posInf => posInf
  | negInf, _ => negInf
  | _, negInf => negInf

/-- The negation `-a`. -/
def neg : Num → Num
  | fin a => fin (-a)
  | nan => nan
  | posInf => negInf
  | negInf => posInf

/-- The difference `a - b`. -/
def sub (a b : Num) : Num := add a (neg b)

/-- The sign of a number that is not `NaN`: `1`, `0` or `-1`. -/
def sign : Num → Int
  | fin a => if 0 < a then 1 else if a < 0 then -1 else 0
  | posInf => 1
  | negInf => -1
  | nan => 0

/-- The infinity with the given sign (`NaN` for sign zero). -/
def infOfSign (s : Int) : Num :=
  if 0 < s then posInf else if s < 0 then negInf else nan

/-- The product `a * b`. -/
def mul : Num → Num → Num
  | fin a, fin b => fin (a * b)
  | nan, _ => nan
  | _, nan => nan
  | a, b => infOfSign (sign a * sign b)

/-- The quotient `a / b`; a zero divisor counts as `+0`. -/
def div : Num → Num → Num
  | nan, _ => nan
  | _, nan => nan
  | fin a, fin b => if b = 0 then infOfSign (sign (fin a)) else fin (a / b)
  | fin _, _ => fin 0
  | a, fin b => if b < 0 then neg a else a
  | _, _ => nan

instance : Add Num := ⟨add⟩
instance : Sub Num := ⟨sub⟩
instance : Mul Num := ⟨mul⟩
instance : Div Num := ⟨div⟩
instance : Neg Num := ⟨neg⟩

/-- The comparison `a < b`; false when either side is `NaN`. -/
def lt : Num → Num → Bool
  | fin a, fin b => decide (a < b)
  | nan, _ => false
  | _, nan => false
  | negInf, negInf => false
  | negInf, _ => true
  | _, negInf => false
  | posInf, _ => false
  | _, posInf => true

/-- The comparison `a > b`. -/
def gt (a b : Num) : Bool := lt b a

/-- The comparison `a <= b`; false when either side is `NaN`. -/
def le : Num → Num → Bool
  | nan, _ => false
  | _, nan => false
  | a, b => !lt b a

/-- The comparison `a >= b`. -/
def ge (a b : Num) : Bool := le b a

/-- The strict equality `a === b` of two numbers: `NaN` differs from itself. -/
def strictEq : Num → Num → Bool
  | nan, _ => false
  | _, nan => false
  | a, b => decide (a = b)

/-- The call `Math.min(a, b)`. -/
def min : Num → Num → Num
  | nan, _ => nan
  | _, nan => nan
  | a, b => if lt b a then b else a

/-- The call `Math.floor(a)`. -/
def floor : Num → Num
  | fin a => fin (Int.floor a)
  | a => a

/-- Truthiness of a number: `0` and `NaN` are falsy. -/
def truthy : Num → Bool
  | fin a => decide (a ≠ 0)
  | nan => false
  | _ => true

/-- A number is finite when it is neither `NaN` nor an infinity. -/
def isFinite : Num → Bool
  | fin _ => true
  | _ => false

end Num

/-- The transcendental functions of the host's `Math` object on their regular domain: positive
arguments for the logarithms and the square root, a positive base with a non-integer exponent
for `pow`.  The values at the other arguments are fixed by the language and are supplied by
the wrappers below. -/
structure JsMath where
  log10 : ℚ → ℚ
  log2 : ℚ → ℚ
  pow : ℚ → ℚ → ℚ
  sqrt : ℚ → ℚ
  exp : ℚ → ℚ

/-- The constant `Math.PI`, the double nearest to π. -/
def mathPI : Num := Num.fin (884279719003555 / 281474976710656)

/-- The call `Math.log10(x)`. -/
def JsMath.jsLog10 (m : JsMath) : Num → Num
  | Num.fin a => if a < 0 then Num.nan else if a = 0 then Num.negInf else Num.fin (m.log10 a)
  | Num.posInf => Num.posInf
  | _ => Num.nan

/-- The call `Math.log2(x)`. -/
def JsMath.jsLog2 (m : JsMath) : Num → Num
  | Num.fin a => if a < 0 then Num.nan else if a = 0 then Num.negInf else Num.fin (m.log2 a)
  | Num.posInf => Num.posInf
  | _ => Num.nan

/-- The call `Math.sqrt(x)`. -/
def JsMath.jsSqrt (m : JsMath) : Num → Num
  | Num.fin a => if a < 0 then Num.nan else if a = 0 then Num.fin 0 else Num.fin (m.sqrt a)
  | Num.posInf => Num.posInf
  | _ => Num.nan

/-- The call `Math.exp(x)`. -/
def JsMath.jsExp (m : JsMath) : Num → Num
  | Num.fin a => if a = 0 then Num.fin 1 else Num.fin (m.exp a)
  | Num.posInf => Num.posInf
  | Num.negInf => Num.fin 0
  | Num.nan => Num.nan

/-- The call `Math.pow(base, exponent)` and the operator `base ** exponent`.  An integer
exponent gives the exact power. -/
def JsMath.jsPow (m : JsMath) : Num → Num → Num
  | _, Num.nan => Num.nan
  | b, Num.fin e =>
    if e = 0 then Num.fin 1
    else match b with
      | Num.nan => Num.nan
      | Num.posInf => if 0 < e then Num.posInf else Num.fin 0
      | Num.negInf =>
        if 0 < e then (if e.den = 1 ∧ e.num % 2 = 1 then Num.negInf else Num.posInf)
        else Num.fin 0
      | Num.fin a =>
        if a = 0 then (if 0 < e then Num.fin 0 else Num.posInf)
        else if e.den = 1 then Num.fin (a ^ e.num)
        else if a < 0 then Num.nan
        else Num.fin (m.pow a e)
  | b, Num.posInf =>
    match b with
    | Num.nan => Num.nan
    | Num.fin a =>
      if 1 < |a| then Num.posInf else if |a| = 1 then Num.nan else Num.fin 0
    | _ => Num.posInf
  | b, Num.negInf =>
    match b with
    | Num.nan => Num.nan
    | Num.fin a =>
      if 1 < |a| then Num.fin 0 else if |a| = 1 then Num.nan else Num.posInf
    | _ => Num.fin 0

/-- The JSON values that occur in parameter maps and labels (arrays and nested objects are
left out), with `undefined` for an absent property. -/
inductive JsVal where
  | undefined
  | null
  | bool (b : Bool)
  | num (n : Num)
  | str (s : String)
deriving DecidableEq

/-- A string-keyed parameter object. -/
abbrev Params := List (String × JsVal)

/-- Property read `params[key]`: `undefined` when the key is absent. -/
def Params.get (p : Params) (key : String) : JsVal :=
  match p.lookup key with
  | some v => v
  | none => JsVal.undefined

/-- The `data` object of a node. -/
structure NodeData where
  label : JsVal
  params : Option Params
deriving DecidableEq

/-- A node of the submitted topology. -/
structure Node where
  id : String
  type : JsVal
  data : Option NodeData
deriving DecidableEq

/-- The `data` object of an edge. -/
structure EdgeData where
  params : Option Params
deriving DecidableEq

/-- An edge of the submitted topology. -/
structure Edge where
  id : String
  source : String
  target : String
  data : Option EdgeData
deriving DecidableEq

/-- An adjacency entry `{ target, edge, reverse }`; `reverse` is `false` where the source
leaves the property out. -/
structure Connection where
  target : String
  edge : Edge
  reverse : Bool
deriving DecidableEq

/-- A value `{ node, connections }` of the topology map. -/
structure GraphEntry where
  node : Node
  connections : List Connection
deriving DecidableEq

/-- The topology graph: a `Map` from node id to its entry, in insertion order. -/
abbrev TopologyGraph := List (String × GraphEntry)

/-! ## `Map` and `Set` operations -/

/-- The call `graph.get(key)`. -/
def mapGet (graph : TopologyGraph) (key : String) : Option GraphEntry :=
  graph.lookup key

/-- The call `graph.has(key)`. -/
def mapHas (graph : TopologyGraph) (key : String) : Bool :=
  (mapGet graph key).isSome

/-- The call `graph.set(key, value)`: an existing key keeps its position and takes the new
value, a new key is appended. -/
def mapSet : TopologyGraph → String → GraphEntry → TopologyGraph
  | [], key, value => [(key, value)]
  | (k, v) :: rest, key, value =>
    if k = key then (k, value) :: rest else (k, v) :: mapSet rest key value

/-- The statement `graph.get(key).connections.push(c)`: the entry stored under `key` gets `c`
appended to its connection array. -/
def pushConnection : TopologyGraph → String → Connection → TopologyGraph
  | [], _, _ => []
  | (k, v) :: rest, key, c =>
    if k = key then (k, { v with connections := v.connections ++ [c] }) :: rest
    else (k, v) :: pushConnection rest key c

/-- The call `visited.has(x)`. -/
def setHas (visited : List String) (x : String) : Bool :=
  decide (x ∈ visited)

/-- The call `visited.add(x)`. -/
def setAdd (visited : List String) (x : String) : List String :=
  if x ∈ visited then visited else visited ++ [x]

/-- The call `visited.delete(x)`. -/
def setDelete (visited : List String) (x : String) : List String :=
  visited.filter (fun y => decide (y ≠ x))

/-! ## `buildTopologyGraph` -/

/-- The body of `edges.forEach` in `buildTopologyGraph`. -/
def addEdge (graph : TopologyGraph) (edge : Edge) : TopologyGraph :=
  if mapHas graph edge.source && mapHas graph edge.target then
    let graph1 := pushConnection graph edge.source
      { target := edge.target, edge := edge, reverse := false }
    pushConnection graph1 edge.target
      { target := edge.source, edge := edge, reverse := true }
  else graph

/-- The function `buildTopologyGraph(nodes, edges)`. -/
def buildTopologyGraph (nodes : List Node) (edges : List Edge) : TopologyGraph :=
  let graph := nodes.foldl (fun g node => mapSet g node.id { node := node, connections := [] }) []
  edges.foldl addEdge graph

/-! ## `findChainPath` -/

/-- What a call of the inner `dfs` leaves behind: its return value (`none` is `null`) and the
shared `visited` set after the call. -/
abbrev DfsResult := Option (List Connection) × List String

/-- The `for (const connection of nodeData.connections)` loop of `dfs` followed by the
`visited.delete(nodeId); return null` that ends the function.  `call` is the recursive `dfs`;
its result `none` means that the recursion budget ran out. -/
def dfsLoop (call : String → List Connection → List String → Option DfsResult)
    (nodeId : String) (currentPath : List Connection) :
    List Connection → List String → Option DfsResult
  | [], visited => some (none, setDelete visited nodeId)
  | connection :: rest, visited =>
    if !setHas visited connection.target then
      match call connection.target (currentPath ++ [connection]) visited with
      | none => none
      | some (some result, visited1) => some (some result, visited1)
      | some (none, visited1) => dfsLoop call nodeId currentPath rest visited1
    else dfsLoop call nodeId currentPath rest visited

/-- The inner function `dfs(nodeId, targetId, currentPath)` with the shared `visited` set
passed explicitly.  The first argument bounds the recursion depth; `none` is returned only
when that bound is hit. -/
def dfs (graph : TopologyGraph) (targetId : String) :
    Nat → String → List Connection → List String → Option DfsResult
  | 0, _, _, _ => none
  | depth + 1, nodeId, currentPath, visited =>
    if nodeId = targetId then some (some currentPath, visited)
    else if setHas visited nodeId then some (none, visited)
    else
      let visited1 := setAdd visited nodeId
      match mapGet graph nodeId with
      | none => some (none, visited1)
      | some nodeData =>
        dfsLoop (dfs graph targetId depth) nodeId currentPath nodeData.connections visited1

/-- The function `findChainPath(graph, sourceId, targetId)`; `none` is `null`.  The recursion
of `dfs` never nests deeper than the number of keys of the graph plus one
(`dfs_depth_suffices`), so the depth bound given here is never hit. -/
def findChainPath (graph : TopologyGraph) (sourceId targetId : String) :
    Option (List Connection) :=
  match dfs graph targetId (graph.length + 1) sourceId [] [] with
  | some (result, _) => result
  | none => none

/-! ## Walks in the topology graph -/

/-- The connection list stored for a node id (empty when the id is not a key). -/
def connectionsOf (graph : TopologyGraph) (nodeId : String) : List Connection :=
  match mapGet graph nodeId with
  | some entry => entry.connections
  | none => []

/-- The list `path` is a connected walk from `a` to `b`: its first connection is in the
adjacency list of `a`, each next one in the adjacency list of the previous connection's
target, and the last connection's target is `b`. -/
def IsWalk (graph : TopologyGraph) : String → List Connection → String → Prop
  | a, [], b => a = b
  | a, c :: rest, b => c ∈ connectionsOf graph a ∧ IsWalk graph c.target rest b

/-- The node ids along a walk that starts at `a`. -/
def walkNodes (a : String) (path : List Connection) : List String :=
  a :: path.map Connection.target

/-- The target is reachable from the source when some walk joins them. -/
def Reachable (graph : TopologyGraph) (a b : String) : Prop :=
  ∃ path, IsWalk graph a path b

/-! ## Specification-side definitions for the graph builder -/

def specConnections (nodes : List Node) (edges : List Edge) (n : String) : List Connection :=
  (edges.filter (fun e =>
      decide (e.source ∈ nodes.map Node.id) && decide (e.target ∈ nodes.map Node.id))).flatMap
    (fun e =>
      (if e.source = n then [{ target := e.target, edge := e, reverse := false }] else []) ++
      (if e.target = n then [{ target := e.source, edge := e, reverse := true }] else []))

/-- The entry stored under `n` after one `push`. -/
def pushed (k : String) (c : Connection) (n : String) (e : GraphEntry) : GraphEntry :=
  if n = k then { e with connections := e.connections ++ [c] } else e

/-- The entries one edge contributes to the adjacency list of `n`. -/
def edgeEntries (n : String) (e : Edge) : List Connection :=
  (if e.source = n then [{ target := e.target, edge := e, reverse := false }] else []) ++
  (if e.target = n then [{ target := e.source, edge := e, reverse := true }] else [])

/-- An entry with more connections appended. -/
def extend (cs : List Connection) (en : GraphEntry) : GraphEntry :=
  { en with connections := en.connections ++ cs }

/-! ## Specification-side definitions for the path finder -/

/-- A walk from `a` to `b` that repeats no node and stays away from the nodes in `visited`. -/
def SimpleWalkAvoiding (graph : TopologyGraph) (visited : List String) (a : String)
    (path : List Connection) (b : String) : Prop :=
  IsWalk graph a path b ∧ (walkNodes a path).Nodup ∧ ∀ x ∈ walkNodes a path, x ∉ visited

/-- Every connection of the graph leads to a key of the graph. -/
def Closed (graph : TopologyGraph) : Prop :=
  ∀ a, ∀ c ∈ connectionsOf graph a, mapHas graph c.target = true

/-- The number of keys of the graph that are not in `visited`. -/
def unvisitedCount (graph : TopologyGraph) (visited : List String) : Nat :=
  ((graph.map Prod.fst).toFinset \ visited.toFinset).card

/-- What a call of `dfs` on an unvisited node does. -/
def DfsOk (graph : TopologyGraph) (t node : String) (path : List Connection)
    (visited : List String) (res : Option DfsResult) : Prop :=
  (∃ q v', res = some (some (path ++ q), v') ∧ SimpleWalkAvoiding graph visited node q t) ∨
  (res = some (none, visited) ∧ ¬ ∃ q, SimpleWalkAvoiding graph visited node q t)

/-- A call that returns, and on failure keeps every node that was in `visited`. -/
def Returns (visited : List String) (res : Option DfsResult) : Prop :=
  ∃ r v', res = some (r, v') ∧ (r = none → ∀ x ∈ visited, x ∈ v')

/-! ## JavaScript values: truthiness, `||`, `parseFloat`, exceptions -/

/-- Truthiness of a value: `undefined`, `null`, `false`, `0`, `NaN` and `""` are falsy. -/
def JsVal.truthy : JsVal → Bool
  | JsVal.undefined => false
  | JsVal.null => false
  | JsVal.bool b => b
  | JsVal.num n => n.truthy
  | JsVal.str s => decide (s ≠ "")

/-- The operator `a || b`. -/
def jsOr (a b : JsVal) : JsVal :=
  if a.truthy then a else b

/-- The white space that `parseFloat` skips at the start of a string. -/
def isJsWhiteSpace (c : Char) : Bool :=
  c = ' ' || c = '\t' || c = '\n' || c = '\r' || c.toNat = 11 || c.toNat = 12 ||
    c.toNat = 160 || c.toNat = 5760 || (8192 ≤ c.toNat && c.toNat ≤ 8202) ||
    c.toNat = 8232 || c.toNat = 8233 || c.toNat = 8239 || c.toNat = 8287 ||
    c.toNat = 12288 || c.toNat = 65279

/-- The value of a run of decimal digits. -/
def digitsValue (ds : List Char) : Nat :=
  ds.foldl (fun n c => 10 * n + (c.toNat - 48)) 0

/-- Does the character list start with the given characters? -/
def startsWith : List Char → List Char → Bool
  | _, [] => true
  | [], _ :: _ => false
  | c :: cs, d :: ds => c = d && startsWith cs ds

/-- The exponent part `e[+-]digits` at the start of the rest of a literal; `0` when there is no
complete exponent part. -/
def exponentValue : List Char → Int
  | [] => 0
  | c :: rest =>
    if c = 'e' || c = 'E' then
      match rest with
      | '-' :: r =>
        let ds := r.takeWhile Char.isDigit
        if ds = [] then 0 else -(digitsValue ds : Int)
      | '+' :: r =>
        let ds := r.takeWhile Char.isDigit
        if ds = [] then 0 else (digitsValue ds : Int)
      | r =>
        let ds := r.takeWhile Char.isDigit
        if ds = [] then 0 else (digitsValue ds : Int)
    else 0

/-- The unsigned part of a decimal literal at the start of the characters: `Infinity`, or
digits with an optional fraction and exponent; `NaN` when there is none. -/
def parseUnsigned (cs : List Char) : Num :=
  if startsWith cs "Infinity".toList then Num.posInf
  else
    let intPart := cs.takeWhile Char.isDigit
    let rest1 := cs.dropWhile Char.isDigit
    let fracPart := match rest1 with
      | '.' :: r => r.takeWhile Char.isDigit
      | _ => []
    let rest2 := match rest1 with
      | '.' :: r => r.dropWhile Char.isDigit
      | _ => rest1
    if intPart = [] ∧ fracPart = [] then Num.nan
    else
      let mantissa : ℚ := (digitsValue intPart : ℚ) +
        (digitsValue fracPart : ℚ) / (10 : ℚ) ^ fracPart.length
      Num.fin (mantissa * (10 : ℚ) ^ exponentValue rest2)

/-- The call `parseFloat(s)` on a string: the longest decimal literal at its start, after
leading white space. -/
def parseFloatString (s : String) : Num :=
  match s.toList.dropWhile isJsWhiteSpace with
  | '-' :: r => Num.neg (parseUnsigned r)
  | '+' :: r => parseUnsigned r
  | cs => parseUnsigned cs

/-- The call `parseFloat(v)`: the argument is converted to a string and its leading decimal
literal is read back, which for a number gives the number itself. -/
def parseFloat : JsVal → Num
  | JsVal.num n => n
  | JsVal.str s => parseFloatString s
  | _ => Num.nan

/-- The pattern `parseFloat(v || d)` with a numeric default `d`. -/
def parseFloatOr (v : JsVal) (d : Num) : Num :=
  parseFloat (jsOr v (JsVal.num d))

/-- The exceptions the engine can throw. -/
inductive JsError where
  | typeError (message : String)
  | referenceError (message : String)
deriving DecidableEq

/-- The message of an exception, `error.message`. -/
def JsError.message : JsError → String
  | JsError.typeError m => m
  | JsError.referenceError m => m

/-- The TypeError of a property read on `undefined`. -/
def cannotRead (property : String) : JsError :=
  JsError.typeError ("Cannot read properties of undefined (reading '" ++ property ++ "')")

/-- The read `node.data.label`; it throws when the node has no `data`. -/
def Node.label (node : Node) : Except JsError JsVal :=
  match node.data with
  | none => Except.error (cannotRead "label")
  | some d => Except.ok d.label

/-- The read `node.data.params[key]`; it throws when the node has no `data` or no `params`. -/
def Node.param (node : Node) (key : String) : Except JsError JsVal :=
  match node.data with
  | none => Except.error (cannotRead "params")
  | some d =>
    match d.params with
    | none => Except.error (cannotRead key)
    | some p => Except.ok (p.get key)

/-- The read `node.data?.params?.[key]`. -/
def Node.paramOpt (node : Node) (key : String) : JsVal :=
  match node.data with
  | none => JsVal.undefined
  | some d =>
    match d.params with
    | none => JsVal.undefined
    | some p => p.get key

/-- The read `edge.data?.params?.[key]`. -/
def Edge.param (edge : Edge) (key : String) : JsVal :=
  match edge.data with
  | none => JsVal.undefined
  | some d =>
    match d.params with
    | none => JsVal.undefined
    | some p => p.get key

/-! ## Node classification -/

/-- The record `getEquipmentProperties` returns for an equipment type. -/
structure Equipment where
  isActive : Bool
  isPassive : Bool
  isRegenerative : Bool

/-- What the module takes from outside: the transcendental functions of `Math` and the import
`getEquipmentProperties` of `./config/equipmentsConfig.js`, which is not part of the sources
at hand (`none` is a missing record). -/
structure Host where
  math : JsMath
  getEquipmentProperties : JsVal → Option Equipment

/-- The argument `node.data?.params?.['Type équipement'] || node.type || ''` of the three
classification predicates. -/
def equipmentType (node : Node) : JsVal :=
  jsOr (jsOr (node.paramOpt "Type équipement") node.type) (JsVal.str "")

/-- The function `isActiveNode(node)`. -/
def isActiveNode (host : Host) (node : Node) : Bool :=
  match host.getEquipmentProperties (equipmentType node) with
  | some equipment => equipment.isActive
  | none => false

/-- The function `isPassiveNode(node)`. -/
def isPassiveNode (host : Host) (node : Node) : Bool :=
  match host.getEquipmentProperties (equipmentType node) with
  | some equipment => equipment.isPassive
  | none => false

/-- The function `isRegenerativeNode(node)`. -/
def isRegenerativeNode (host : Host) (node : Node) : Bool :=
  match host.getEquipmentProperties (equipmentType node) with
  | some equipment => equipment.isRegenerative
  | none => false

/-! ## `calculate5GNumerology`, `getSpectralEfficiency` and the interference models -/

/-- The block `numerologyInfo` of a 5G result. -/
structure NumerologyInfo where
  subcarrierSpacing : Num
  numberOfSubcarriers : Num
  slotDuration : Num
  numerology : Num
deriving DecidableEq

/-- The lookup `subcarrierSpacings[numerologyMu] || 30`. -/
def subcarrierSpacing (numerologyMu : Num) : Num :=
  if numerologyMu = 0 then 15
  else if numerologyMu = 1 then 30
  else if numerologyMu = 2 then 60
  else if numerologyMu = 3 then 120
  else if numerologyMu = 4 then 240
  else 30

/-- The function `calculate5GNumerology(frequency, bandwidth, numerologyMu)`. -/
def calculate5GNumerology (host : Host) (_frequency bandwidth numerologyMu : Num) :
    NumerologyInfo :=
  let scs := subcarrierSpacing numerologyMu
  let numberOfSubcarriers := (bandwidth * 1000) / scs
  let slotDuration := 1 / host.math.jsPow 2 numerologyMu
  { subcarrierSpacing := scs
    numberOfSubcarriers := Num.floor numberOfSubcarriers
    slotDuration := slotDuration
    numerology := numerologyMu }

/-- The property names every object inherits from `Object.prototype`; a table lookup under one
of them yields a function or an object, which arithmetic turns into `NaN`. -/
def objectPrototypeKeys : List String :=
  ["constructor", "__proto__", "hasOwnProperty", "isPrototypeOf", "propertyIsEnumerable",
   "toLocaleString", "toString", "valueOf", "__defineGetter__", "__defineSetter__",
   "__lookupGetter__", "__lookupSetter__"]

/-- The lookup `modulationEfficiency[modulation] || 2`, as the number it contributes to the
product that follows. -/
def baseEfficiency (modulation : JsVal) : Num :=
  match modulation with
  | JsVal.str s =>
    if s = "QPSK" then 2
    else if s = "16QAM" then 4
    else if s = "64QAM" then 6
    else if s = "256QAM" then 8
    else if s = "1024QAM" then 10
    else if s ∈ objectPrototypeKeys then Num.nan
    else 2
  | _ => 2

/-- The lookup `technologyFactor[linkType] || 1`. -/
def technologyFactor (linkType : String) : Num :=
  if linkType = "GSM" then 0.5
  else if linkType = "UMTS" then 0.5
  else if linkType = "4G" then 3
  else if linkType = "5G" then 6
  else if linkType ∈ objectPrototypeKeys then Num.nan
  else 1

/-- The function `getSpectralEfficiency(linkType, modulation, codeRate)`. -/
def getSpectralEfficiency (linkType : String) (modulation : JsVal) (codeRate : Num) : Num :=
  baseEfficiency modulation * codeRate * technologyFactor linkType

/-- The function `calculateInterferenceReduction4G(numberOfCells, cellRadius)`. -/
def calculateInterferenceReduction4G (host : Host) (numberOfCells _cellRadius : Num) : Num :=
  if Num.le numberOfCells 1 then 1.0
  else
    let densityFactor := host.math.jsSqrt numberOfCells
    let interferenceReduction := 1 / (1 + 0.3 * host.math.jsLog10 densityFactor)
    let icicGain : Num := 1.2
    Num.min 1.0 (interferenceReduction * icicGain)

/-- The function
`calculate5GInterferenceReduction(numberOfCells, cellRadius, beamformingGain, frequencyBand)`. -/
def calculate5GInterferenceReduction (host : Host) (numberOfCells _cellRadius : Num)
    (beamformingGain : Num) (frequencyBand : JsVal) : Num :=
  if Num.le numberOfCells 1 then 1.0
  else
    let beamformingEfficiency := 1 - host.math.jsExp ((-beamformingGain) / 10)
    let frequencyFactor : Num := if frequencyBand = JsVal.str "mmWave" then 0.8 else 0.5
    let densityFactor := host.math.jsSqrt numberOfCells
    let baseInterferenceReduction := 1 / (1 + frequencyFactor * host.math.jsLog10 densityFactor)
    let advancedCoordinationGain : Num := 1.4
    let totalReduction :=
      baseInterferenceReduction * (1 + beamformingEfficiency) * advancedCoordinationGain
    Num.min 1.0 totalReduction

/-! ## `calculateDirectLinkBudget` -/

/-- The result object of the direct link-budget model; an absent optional field is `none`. -/
structure LinkBudgetResult where
  receivedPower : Num
  loss : Num
  capacity : Num
  coverage : Num
  latency : Num
  snr_dB : Num
  bitrate : Num
  linkType : JsVal
  margin : Option Num
  frequenciesPerCell : Option Num
  reuseDistance : Option Num
  cellularCapacity : Option Num
  numerologyInfo : Option NumerologyInfo
deriving DecidableEq

/-- The locals a technology branch assigns; `none` is a local left `undefined`. -/
structure BranchVars where
  loss : Num
  capacity : Num
  coverage : Num
  latency : Num
  margin : Num
  frequenciesPerCell : Option Num
  reuseDistance : Option Num
  cellularCapacity : Option Num

/-- The branch `linkType === 'Optique'`. -/
def opticalBranch (edge : Edge) (power distance : Num) : BranchVars :=
  let attenuation := parseFloatOr (edge.param "Atténuation (dB/km)") 0.2
  let connectorLoss := parseFloatOr (edge.param "Perte connecteurs (dB)") 0.4
  let spliceLoss := parseFloatOr (edge.param "Perte épissures (dB)") 0.1
  let loss := attenuation * distance + connectorLoss + spliceLoss
  let latency := (distance * 1000) / 2e8 * 1e3
  let coverage := 20 / attenuation
  let sensitivity := parseFloatOr (edge.param "Sensibilité récepteur (dBm)") (-30)
  let margin := (power - loss) - sensitivity
  let opticalBandwidth : Num := 1000
  let capacity := opticalBandwidth * 8
  { loss := loss, capacity := capacity, coverage := coverage, latency := latency,
    margin := margin, frequenciesPerCell := none, reuseDistance := none,
    cellularCapacity := none }

/-- The branch `linkType === 'RJ45'`; the warning it logs above 100 m has no effect. -/
def rj45Branch (edge : Edge) (distance : Num) : BranchVars :=
  let attenuationPer100m := parseFloatOr (edge.param "Atténuation (dB/100m)") 19.8
  let nominalRate := parseFloatOr (edge.param "Débit nominal (Mbps)") 1000
  let distanceM := distance * 1000
  let loss := (attenuationPer100m * distanceM) / 100
  let latency := distanceM * 5e-9 * 1000
  { loss := loss, capacity := nominalRate, coverage := 0.1, latency := latency,
    margin := 0, frequenciesPerCell := none, reuseDistance := none,
    cellularCapacity := none }

/-- The branch for `GSM`, `UMTS`, `4G` and `5G`; `linkType` is one of these four strings. -/
def cellularBranch (host : Host) (txNode rxNode : Node) (edge : Edge) (linkType : String)
    (distance bitrate : Num) : Except JsError BranchVars := do
  let m := host.math
  let defaultFrequency : Num :=
    if linkType = "GSM" then 900 else if linkType = "UMTS" then 2100
    else if linkType = "4G" then 2600 else 3500
  let frequency := parseFloatOr (← txNode.param "Fréquence (MHz)") defaultFrequency
  let antennaGainTx := parseFloatOr (← txNode.param "Gain antenne (dBi)") 15
  let antennaGainRx := parseFloatOr (← rxNode.param "Gain antenne (dBi)") 15
  let cableLoss := parseFloatOr (edge.param "Perte câble (dB)") 2
  let freeSpaceLoss := 32.4 + 20 * m.jsLog10 distance + 20 * m.jsLog10 (frequency / 1000)
  let loss := freeSpaceLoss + cableLoss - antennaGainTx - antennaGainRx
  let coverage := m.jsPow 10 ((100 - 32.4 - 20 * m.jsLog10 (frequency / 1000)) / 20)
  if linkType = "GSM" then
    let totalFrequencies := parseFloatOr (edge.param "Total fréquences") 15
    let cellRadius := parseFloatOr (edge.param "Rayon cellule (km)") 1
    let i := parseFloatOr (edge.param "i") 2
    let j := parseFloatOr (edge.param "j") 1
    let clusterSize := m.jsPow i 2 + m.jsPow j 2 + i * j
    let frequenciesPerCell := totalFrequencies / clusterSize
    let reuseDistance := cellRadius * m.jsSqrt (3 * clusterSize)
    let totalArea := parseFloatOr (edge.param "Surface totale (km²)") 1000
    let cellArea := mathPI * m.jsPow cellRadius 2
    let cellularCapacity := (totalArea / cellArea) * frequenciesPerCell * 0.2
    pure { loss := loss, capacity := 0, coverage := coverage, latency := 300, margin := 0,
           frequenciesPerCell := some frequenciesPerCell, reuseDistance := some reuseDistance,
           cellularCapacity := some cellularCapacity }
  else if linkType = "UMTS" then
    let spreadingFactor := parseFloatOr (edge.param "Facteur d'étalement (SF)") 128
    let cellRadius := parseFloatOr (edge.param "Portée (km)") 2
    let totalArea := parseFloatOr (edge.param "Surface totale (km²)") 1000
    let cellArea := mathPI * m.jsPow cellRadius 2
    let numberOfCells := totalArea / cellArea
    let chipRate : Num := 3.84e6
    let maxUsersPerCell := chipRate / (bitrate * spreadingFactor)
    let loadFactor := Num.min 0.8 (1 / (1 + numberOfCells * 0.05))
    let cellularCapacity := numberOfCells * maxUsersPerCell * (bitrate / 1e6) * loadFactor
    let reuseDistance := cellRadius * m.jsSqrt 3
    pure { loss := loss, capacity := 0, coverage := coverage, latency := 100, margin := 0,
           frequenciesPerCell := none, reuseDistance := some reuseDistance,
           cellularCapacity := some cellularCapacity }
  else if linkType = "4G" then
    let bandwidth := parseFloatOr (edge.param "Bande passante (MHz)") 20
    let mimoLayers := parseFloatOr (edge.param "Couches MIMO") 2
    let modulation :=
      jsOr (edge.param "Modulation (QPSK/16QAM/64QAM/256QAM)") (JsVal.str "64QAM")
    let codeRate := parseFloatOr (edge.param "Code rate") 0.75
    let cellRadius := parseFloatOr (edge.param "Portée (km)") 1
    let totalArea := parseFloatOr (edge.param "Surface totale (km²)") 1000
    let spectralEfficiency := getSpectralEfficiency "4G" modulation codeRate
    let theoreticalCapacityPerCell := bandwidth * mimoLayers * spectralEfficiency
    let cellArea := mathPI * m.jsPow cellRadius 2
    let numberOfCells := totalArea / cellArea
    let interferenceReduction := calculateInterferenceReduction4G host numberOfCells cellRadius
    let effectiveCapacityPerCell := theoreticalCapacityPerCell * interferenceReduction
    let cellularCapacity := numberOfCells * effectiveCapacityPerCell
    pure { loss := loss, capacity := 0, coverage := coverage, latency := 50, margin := 0,
           frequenciesPerCell := none, reuseDistance := none,
           cellularCapacity := some cellularCapacity }
  else
    let frequencyBand := jsOr (edge.param "FrequencyBand") (JsVal.str "sub-6")
    let mmWave : Bool := decide (frequencyBand = JsVal.str "mmWave")
    let bandwidth :=
      parseFloatOr (edge.param "Bande passante (MHz)") (if mmWave then 400 else 100)
    let mimoLayers := parseFloatOr (edge.param "Couches MIMO") (if mmWave then 16 else 8)
    let modulation :=
      jsOr (edge.param "Modulation (QPSK/16QAM/64QAM/256QAM/1024QAM)") (JsVal.str "256QAM")
    let beamformingGain :=
      parseFloatOr (edge.param "Beamforming gain (dB)") (if mmWave then 20 else 10)
    let cellRadius := parseFloatOr (edge.param "Portée (km)") (if mmWave then 0.5 else 2)
    let totalArea := parseFloatOr (edge.param "Surface totale (km²)") 1000
    let loss5G := loss - beamformingGain
    let spectralEfficiency := getSpectralEfficiency "5G" modulation 1
    let theoreticalCapacityPerCell := bandwidth * mimoLayers * spectralEfficiency
    let cellArea := mathPI * m.jsPow cellRadius 2
    let numberOfCells := totalArea / cellArea
    let interferenceReduction :=
      calculate5GInterferenceReduction host numberOfCells cellRadius beamformingGain
        frequencyBand
    let effectiveCapacityPerCell := theoreticalCapacityPerCell * interferenceReduction
    let networkSlicingEfficiency : Num := 0.9
    let cellularCapacity := numberOfCells * effectiveCapacityPerCell * networkSlicingEfficiency
    pure { loss := loss5G, capacity := 0, coverage := coverage, latency := 1, margin := 0,
           frequenciesPerCell := none, reuseDistance := none,
           cellularCapacity := some cellularCapacity }

/-- The final `else` branch, the line-of-sight microwave link (`Hertzien`). -/
def hertzienBranch (host : Host) (txNode rxNode : Node) (edge : Edge)
    (power distance : Num) : Except JsError BranchVars := do
  let m := host.math
  let frequency := parseFloatOr (← txNode.param "Fréquence (GHz)") 6
  let wavelength := 3e8 / (frequency * 1e9)
  let antennaGainTx_dB := parseFloat (jsOr (jsOr (← txNode.param "Gain antenne (dBi)")
    (edge.param "Gain antenne émettrice (dBi)")) (JsVal.num 45.5))
  let antennaGainRx_dB := parseFloat (jsOr (jsOr (← rxNode.param "Gain antenne (dBi)")
    (edge.param "Gain antenne réceptrice (dBi)")) (JsVal.num 45.5))
  let antennaGainTx := m.jsPow 10 (antennaGainTx_dB / 10)
  let antennaGainRx := m.jsPow 10 (antennaGainRx_dB / 10)
  let guideLengthTx := parseFloatOr (edge.param "Longueur guide Tx (m)") 70
  let guideLengthRx := parseFloatOr (edge.param "Longueur guide Rx (m)") 30
  let guideLossPer100m := parseFloatOr (edge.param "Perte guide (dB/100m)") 5
  let branchingLoss := parseFloatOr (edge.param "Perte branchements (dB)") 5.9
  let guideLoss := (guideLengthTx + guideLengthRx) * guideLossPer100m / 100
  let alpha_B := m.jsPow 10 (branchingLoss / 10)
  let alpha_G := m.jsPow 10 (guideLoss / 10)
  let power_mW := m.jsPow 10 (power / 10)
  let pr_mW := power_mW * antennaGainTx * antennaGainRx *
    m.jsPow (wavelength / (4 * mathPI * distance * 1e3)) 2 / (alpha_B * alpha_G)
  let receivedPower := 10 * m.jsLog10 pr_mW
  let loss := power - receivedPower
  let coverage := m.jsPow 10 ((100 - 32.4 - 20 * m.jsLog10 frequency) / 20)
  pure { loss := loss, capacity := 0, coverage := coverage, latency := 10, margin := 0,
         frequenciesPerCell := none, reuseDistance := none, cellularCapacity := none }

/-- The noise floor chosen by the link type, in dBm. -/
def noiseFloor (linkType : JsVal) : Num :=
  if linkType = JsVal.str "Optique" then -100
  else if linkType = JsVal.str "RJ45" then -80
  else if linkType = JsVal.str "GSM" then -90
  else if linkType = JsVal.str "UMTS" then -92
  else if linkType = JsVal.str "4G" then -94
  else -95

/-- The test `['GSM', 'UMTS', '4G', '5G'].includes(linkType)`. -/
def isCellular (linkType : JsVal) : Bool :=
  decide (linkType ∈ [JsVal.str "GSM", JsVal.str "UMTS", JsVal.str "4G", JsVal.str "5G"])

/-- The test `if (x)` on a local that may be `undefined`: the value when it is truthy. -/
def whenTruthy : Option Num → Option Num
  | some x => if x.truthy then some x else none
  | none => none

/-- The function `calculateDirectLinkBudget(sourceNode, targetNode, edge)`.  Its `catch` block
logs and rethrows, so an exception passes through unchanged. -/
def calculateDirectLinkBudget (host : Host) (sourceNode targetNode : Node) (edge : Edge) :
    Except JsError LinkBudgetResult := do
  let m := host.math
  let txNode := sourceNode
  let rxNode := targetNode
  -- the `console.log` line reads both labels
  let _ ← txNode.label
  let _ ← rxNode.label
  let power := parseFloatOr (← txNode.param "Puissance (dBm)") 20
  let distance := parseFloatOr (edge.param "Portée (km)") 0.1
  let linkType := jsOr (edge.param "Type liaison") (JsVal.str "Hertzien")
  let modulationRate := parseFloatOr (edge.param "Rapidité modulation (bauds)") 1200
  let valence := parseFloatOr (edge.param "Valence") 16
  let bitrate := modulationRate * m.jsLog2 valence
  let vars ←
    if linkType = JsVal.str "Optique" then pure (opticalBranch edge power distance)
    else if linkType = JsVal.str "RJ45" then pure (rj45Branch edge distance)
    else
      match linkType with
      | JsVal.str s =>
        if isCellular linkType then cellularBranch host txNode rxNode edge s distance bitrate
        else hertzienBranch host txNode rxNode edge power distance
      | _ => hertzienBranch host txNode rxNode edge power distance
  let loss := vars.loss
  let receivedPower := power - loss
  let snrLinear := m.jsPow 10 ((receivedPower - noiseFloor linkType) / 10)
  let snr_dB := 10 * m.jsLog10 snrLinear
  let bandwidth0 := parseFloat (jsOr (jsOr (edge.param "Bande passante (MHz)")
    (← txNode.param "Bande passante (kHz)")) (JsVal.num 20000)) / 1000
  let bandwidth1 := if linkType = JsVal.str "GSM" then 0.2 else bandwidth0
  let bandwidth2 := if linkType = JsVal.str "UMTS" then 5 else bandwidth1
  let bandwidth3 := if linkType = JsVal.str "4G" then 20 else bandwidth2
  let bandwidth4 :=
    if linkType = JsVal.str "5G" then
      (if edge.param "FrequencyBand" = JsVal.str "mmWave" then 400 else 100)
    else bandwidth3
  let bandwidth := if linkType = JsVal.str "Optique" then 1000 else bandwidth4
  let capacity :=
    if Num.strictEq vars.capacity 0 then bandwidth * m.jsLog2 (1 + snrLinear)
    else vars.capacity
  let margin :=
    if linkType = JsVal.str "Optique" ∧ Num.strictEq vars.margin 0 = false
    then some vars.margin else none
  let cellular := isCellular linkType
  let numerologyInfo :=
    if linkType = JsVal.str "5G" then
      let numerologyMu := parseFloatOr (edge.param "Numerology (μ)") 1
      some (calculate5GNumerology host
        (parseFloatOr (txNode.paramOpt "Fréquence (GHz)") 3500)
        (parseFloatOr (edge.param "Bande passante (MHz)") 100)
        numerologyMu)
    else none
  pure {
    receivedPower := receivedPower
    loss := loss
    capacity := capacity
    coverage := vars.coverage
    latency := vars.latency
    snr_dB := snr_dB
    bitrate := bitrate / 1e6
    linkType := linkType
    margin := margin
    frequenciesPerCell := if cellular then whenTruthy vars.frequenciesPerCell else none
    reuseDistance := if cellular then whenTruthy vars.reuseDistance else none
    cellularCapacity := if cellular then whenTruthy vars.cellularCapacity else none
    numerologyInfo := numerologyInfo }

/-! ## `calculateChainLinkBudget` -/

/-- An entry of `segmentResults`. -/
structure SegmentResult where
  fromLabel : JsVal
  toLabel : JsVal
  loss : Num
  isRegenerated : Bool
  powerAfter : Num
deriving DecidableEq

/-- The aggregated result object of a chain of two or more segments. -/
structure ChainResult where
  receivedPower : Num
  loss : Num
  capacity : Num
  latency : Num
  snr_dB : Num
  segmentCount : Nat
  segmentResults : List SegmentResult
  isChainLink : Bool
  note : String
deriving DecidableEq

/-- What `calculateChainLinkBudget` returns: the unwrapped result of the direct model, or the
aggregated chain result. -/
inductive BudgetResult where
  | direct (result : LinkBudgetResult)
  | chain (result : ChainResult)
deriving DecidableEq

/-- The locals the segment loop updates. -/
structure ChainState where
  totalLoss : Num
  totalLatency : Num
  minCapacity : Num
  currentPower : Num
  segmentResults : List SegmentResult
deriving DecidableEq

/-- The value of the identifier `nodes` in the body of `calculateChainLinkBudget`.  The function
is declared at module level; the only declaration of `nodes` in the file is the
`const { nodes, edges } = req.body` local to the request handler, and the one import binds
`equipmentConfig` and `getEquipmentProperties`.  The identifier is therefore unbound where the
function reads it (`none`), and reading it throws a ReferenceError. -/
def nodesInScope : Option (List Node) := none

/-- The lines `const fromNodeId = connection.reverse ? connection.target : sourceNode.id` and
`const toNodeId = connection.target`. -/
def segmentEndpoints (sourceNode : Node) (connection : Connection) : String × String :=
  ((if connection.reverse then connection.target else sourceNode.id), connection.target)

/-- The call `nodes.find(n => n.id === id)`; reading the unbound `nodes` throws. -/
def findNode (scope : Option (List Node)) (id : String) : Except JsError (Option Node) :=
  match scope with
  | none => Except.error (JsError.referenceError "nodes is not defined")
  | some nodes => Except.ok (nodes.find? (fun n => decide (n.id = id)))

/-- The second half of the loop body: the regenerated and the cumulative update of the running
totals and the `segmentResults.push`, for segment `i` of `length` with its two nodes and
its direct result at hand. -/
def accumulate (host : Host) (length : Nat) (state : ChainState) (i : Nat)
    (fromNode toNode : Node) (segmentResult : LinkBudgetResult) :
    Except JsError ChainState := do
  let isRegenerated := isRegenerativeNode host toNode
  let fromLabel ← fromNode.label
  let toLabel ← toNode.label
  if isRegenerated ∧ i + 1 < length then
    let totalLatency := state.totalLatency + segmentResult.latency
    let minCapacity := Num.min state.minCapacity segmentResult.capacity
    let currentPower :=
      parseFloat (jsOr (← toNode.param "Puissance (dBm)") (JsVal.num state.currentPower))
    pure { totalLoss := state.totalLoss, totalLatency := totalLatency,
           minCapacity := minCapacity, currentPower := currentPower,
           segmentResults := state.segmentResults ++
             [{ fromLabel := fromLabel, toLabel := toLabel, loss := segmentResult.loss,
                isRegenerated := isRegenerated, powerAfter := currentPower }] }
  else
    let totalLoss := state.totalLoss + segmentResult.loss
    let totalLatency := state.totalLatency + segmentResult.latency
    let minCapacity := Num.min state.minCapacity segmentResult.capacity
    let currentPower := state.currentPower - segmentResult.loss
    pure { totalLoss := totalLoss, totalLatency := totalLatency,
           minCapacity := minCapacity, currentPower := currentPower,
           segmentResults := state.segmentResults ++
             [{ fromLabel := fromLabel, toLabel := toLabel, loss := segmentResult.loss,
                isRegenerated := isRegenerated, powerAfter := currentPower }] }

/-- The body of the `for` loop for segment `i`, with `scope` the binding of `nodes`. -/
def chainStep (scope : Option (List Node)) (host : Host) (sourceNode : Node) (length : Nat)
    (state : ChainState) (i : Nat) (connection : Connection) : Except JsError ChainState := do
  let segmentEdge := connection.edge
  let (fromNodeId, toNodeId) := segmentEndpoints sourceNode connection
  let fromNode ← findNode scope fromNodeId
  let toNode ← findNode scope toNodeId
  match fromNode, toNode with
  | some fromNode, some toNode =>
    let segmentResult ← calculateDirectLinkBudget host fromNode toNode segmentEdge
    accumulate host length state i fromNode toNode segmentResult
  | _, _ => pure state

/-- The `for (let i = 0; i < chainPath.length; i++)` loop from index `i` on, over the
connections that remain. -/
def chainLoop (scope : Option (List Node)) (host : Host) (sourceNode : Node) (length : Nat) :
    Nat → List Connection → ChainState → Except JsError ChainState
  | _, [], state => pure state
  | i, connection :: rest, state => do
    let state1 ← chainStep scope host sourceNode length state i connection
    chainLoop scope host sourceNode length (i + 1) rest state1

/-- The part of `calculateChainLinkBudget` that handles a path of two or more segments. -/
def aggregateChain (scope : Option (List Node)) (host : Host) (sourceNode : Node) (edge : Edge)
    (chainPath : List Connection) : Except JsError ChainResult := do
  let currentPower := parseFloatOr (← sourceNode.param "Puissance (dBm)") 20
  let state ← chainLoop scope host sourceNode chainPath.length 0 chainPath
    { totalLoss := 0, totalLatency := 0, minCapacity := Num.posInf,
      currentPower := currentPower, segmentResults := [] }
  let startPower := parseFloatOr (← sourceNode.param "Puissance (dBm)") 20
  let finalPower := state.currentPower
  let linkType := jsOr (edge.param "Type liaison") (JsVal.str "Hertzien")
  let snrLinear := host.math.jsPow 10 ((finalPower - noiseFloor linkType) / 10)
  let snr_dB := 10 * host.math.jsLog10 snrLinear
  pure { receivedPower := finalPower
         loss := startPower - finalPower
         capacity := state.minCapacity
         latency := state.totalLatency
         snr_dB := snr_dB
         segmentCount := chainPath.length
         segmentResults := state.segmentResults
         isChainLink := true
         note := "Liaison en chaîne de " ++ toString chainPath.length ++ " segments" }

/-- The function `calculateChainLinkBudget(sourceNode, targetNode, edge, topologyGraph)` with
the binding of `nodes` as a parameter.  Its `catch` block logs and rethrows. -/
def chainLinkBudgetIn (scope : Option (List Node)) (host : Host) (sourceNode targetNode : Node)
    (edge : Edge) (topologyGraph : TopologyGraph) : Except JsError BudgetResult := do
  -- the `console.log` line reads both labels
  let _ ← sourceNode.label
  let _ ← targetNode.label
  match findChainPath topologyGraph sourceNode.id targetNode.id with
  | none => BudgetResult.direct <$> calculateDirectLinkBudget host sourceNode targetNode edge
  | some [] => BudgetResult.direct <$> calculateDirectLinkBudget host sourceNode targetNode edge
  | some [connection] =>
    BudgetResult.direct <$> calculateDirectLinkBudget host sourceNode targetNode connection.edge
  | some chainPath => BudgetResult.chain <$> aggregateChain scope host sourceNode edge chainPath

/-- The function `calculateChainLinkBudget(sourceNode, targetNode, edge, topologyGraph)` as the
module defines it, with `nodes` unbound. -/
def calculateChainLinkBudget (host : Host) (sourceNode targetNode : Node) (edge : Edge)
    (topologyGraph : TopologyGraph) : Except JsError BudgetResult :=
  chainLinkBudgetIn nodesInScope host sourceNode targetNode edge topologyGraph

/-! ## Worked examples -/

/-- A stand-in for the host's transcendental functions in the worked examples.  The general
theorems of this file hold for all `JsMath`; the examples need one value to run on, and none
of them states a number computed by these functions. -/
def sampleMath : JsMath :=
  { log10 := fun _ => 0, log2 := fun _ => 0, pow := fun _ _ => 1, sqrt := fun _ => 1,
    exp := fun _ => 1 }

/-- A host for the worked examples: the equipment type `Répéteur` is active and regenerative,
`Coupleur` is passive, every other type has no record. -/
def sampleHost : Host :=
  { math := sampleMath
    getEquipmentProperties := fun t =>
      if t = JsVal.str "Répéteur" then
        some { isActive := true, isPassive := false, isRegenerative := true }
      else if t = JsVal.str "Coupleur" then
        some { isActive := false, isPassive := true, isRegenerative := false }
      else none }

/-- A node with a label equal to its id, an equipment type and a transmit power in dBm. -/
def sampleNode (id type : String) (power : ℚ) : Node :=
  { id := id, type := JsVal.str type,
    data := some { label := JsVal.str id,
                   params := some [("Puissance (dBm)", JsVal.num (Num.fin power))] } }

/-- An optical edge of the given length in km; with the default attenuation, connector and
splice losses its loss is `0.2 * distance + 0.5` dB. -/
def opticalEdge (id source target : String) (distance : ℚ) : Edge :=
  { id := id, source := source, target := target,
    data := some { params := some [("Type liaison", JsVal.str "Optique"),
                                   ("Portée (km)", JsVal.num (Num.fin distance))] } }

/-- The nodes `A`, `B`, `C`, all passive, `A` transmitting 20 dBm. -/
def passiveNodes : List Node :=
  [sampleNode "A" "Coupleur" 20, sampleNode "B" "Coupleur" 10, sampleNode "C" "Coupleur" 10]

/-- The nodes `A`, `B`, `C` with the intermediate node `B` a repeater transmitting 23 dBm. -/
def repeaterNodes : List Node :=
  [sampleNode "A" "Coupleur" 20, sampleNode "B" "Répéteur" 23, sampleNode "C" "Coupleur" 10]

/-- The nodes `A`, `B`, `C` of example scenario 3: `B` passive, the last node `C` a repeater
transmitting 23 dBm. -/
def scenario3Nodes : List Node :=
  [sampleNode "A" "Coupleur" 20, sampleNode "B" "Coupleur" 10, sampleNode "C" "Répéteur" 23]

/-- The edges `A–B` and `B–C` (22.5 km each, loss 5 dB) followed by the edge `A–C`. -/
def triangleEdges : List Edge :=
  [opticalEdge "e1" "A" "B" (45 / 2), opticalEdge "e2" "B" "C" (45 / 2),
   opticalEdge "e3" "A" "C" 50]

/-- The nodes `A`, `B`, `C`, `D`, all passive. -/
def squareNodes : List Node :=
  [sampleNode "A" "Coupleur" 20, sampleNode "B" "Coupleur" 10, sampleNode "C" "Coupleur" 10,
   sampleNode "D" "Coupleur" 10]

/-- A twisted-pair edge of the given length in km and nominal rate in Mbps. -/
def rj45Edge (id source target : String) (distance nominalRate : ℚ) : Edge :=
  { id := id, source := source, target := target,
    data := some { params := some [("Type liaison", JsVal.str "RJ45"),
                                   ("Portée (km)", JsVal.num (Num.fin distance)),
                                   ("Débit nominal (Mbps)", JsVal.num (Num.fin nominalRate))] } }

/-- The edges `A–B` (optical), `B–C` (twisted pair, 1000 Mbps), `C–D` (optical) followed by the
edge `A–D`. -/
def mixedEdges : List Edge :=
  [opticalEdge "e1" "A" "B" 10, rj45Edge "e2" "B" "C" (1 / 20) 1000,
   opticalEdge "e3" "C" "D" 10, opticalEdge "e4" "A" "D" 40]

/-- The received power and the loss of a chain result. -/
def chainPowerAndLoss : Except JsError BudgetResult → Option (Num × Num)
  | Except.ok (BudgetResult.chain r) => some (r.receivedPower, r.loss)
  | _ => none

/-- The capacity of a chain result. -/
def chainCapacity : Except JsError BudgetResult → Option Num
  | Except.ok (BudgetResult.chain r) => some r.capacity
  | _ => none

/-- The running power after each segment of a chain result. -/
def chainPowers : Except JsError BudgetResult → Option (List Num)
  | Except.ok (BudgetResult.chain r) => some (r.segmentResults.map SegmentResult.powerAfter)
  | _ => none

/-- The labels of the two nodes each segment of a chain result was evaluated between. -/
def chainSegmentLabels : Except JsError BudgetResult → Option (List (JsVal × JsVal))
  | Except.ok (BudgetResult.chain r) =>
    some (r.segmentResults.map (fun s => (s.fromLabel, s.toLabel)))
  | _ => none

/-- The direct result of a 22.5 km optical segment fed with 20 dBm, as far as the chain loop
reads it: loss 5 dB, capacity 8000, latency 0.1125 ms. -/
def sampleSegment : LinkBudgetResult :=
  { receivedPower := 15, loss := 5, capacity := 8000, coverage := 100,
    latency := Num.fin (9 / 80), snr_dB := 115, bitrate := Num.fin (3 / 625),
    linkType := JsVal.str "Optique", margin := some 45, frequenciesPerCell := none,
    reuseDistance := none, cellularCapacity := none, numerologyInfo := none }

/-- The loop state before the first segment of a chain that starts with 20 dBm. -/
def initialState : ChainState :=
  { totalLoss := 0, totalLatency := 0, minCapacity := Num.posInf, currentPower := 20,
    segmentResults := [] }

/-! ## `parseInt` -/

/-- The value of a hexadecimal digit, `none` for any other character. -/
def hexDigit (c : Char) : Option Nat :=
  if c.isDigit then some (c.toNat - 48)
  else if 'a'.toNat ≤ c.toNat ∧ c.toNat ≤ 'f'.toNat then some (c.toNat - 87)
  else if 'A'.toNat ≤ c.toNat ∧ c.toNat ≤ 'F'.toNat then some (c.toNat - 55)
  else none

/-- The hexadecimal digits at the start of the characters, as values. -/
def hexDigits : List Char → List Nat
  | [] => []
  | c :: rest =>
    match hexDigit c with
    | some d => d :: hexDigits rest
    | none => []

/-- The unsigned part of `parseInt` without a radix: hexadecimal after `0x` or `0X`, decimal
otherwise; `NaN` when no digit is found. -/
def parseIntUnsigned (cs : List Char) : Num :=
  if startsWith cs ['0', 'x'] || startsWith cs ['0', 'X'] then
    let ds := hexDigits (cs.drop 2)
    if ds = [] then Num.nan else Num.fin ((ds.foldl (fun n d => 16 * n + d) 0 : Nat) : ℚ)
  else
    let ds := cs.takeWhile Char.isDigit
    if ds = [] then Num.nan else Num.fin ((digitsValue ds : Nat) : ℚ)

/-- The call `parseInt(s)` on a string. -/
def parseIntString (s : String) : Num :=
  match s.toList.dropWhile isJsWhiteSpace with
  | '-' :: r => Num.neg (parseIntUnsigned r)
  | '+' :: r => parseIntUnsigned r
  | cs => parseIntUnsigned cs

/-- The first significant decimal digit of a positive rational; the first argument bounds the
number of scaling steps. -/
def leadingDigit : Nat → ℚ → Nat
  | 0, _ => 0
  | steps + 1, q =>
    if 10 ≤ q then leadingDigit steps (q / 10)
    else if q < 1 then leadingDigit steps (q * 10)
    else (Int.floor q).toNat

/-- The call `parseInt(x)` on a number: the number is converted to a string first, in decimal
notation between `1e-6` and `1e21` and in exponent notation outside, so that the result is
the integer part in the first case and the first significant digit in the second. -/
def parseIntNum : Num → Num
  | Num.fin q =>
    if q = 0 then Num.fin 0
    else if (1 : ℚ) / 1000000 ≤ |q| ∧ |q| < (10 : ℚ) ^ 21 then
      Num.fin (if 0 ≤ q then (Int.floor q : ℚ) else (Int.ceil q : ℚ))
    else
      let d := leadingDigit (q.num.natAbs + q.den) |q|
      Num.fin (if 0 ≤ q then (d : ℚ) else -(d : ℚ))
  | _ => Num.nan

/-- The call `parseInt(v)`. -/
def parseInt : JsVal → Num
  | JsVal.num n => parseIntNum n
  | JsVal.str s => parseIntString s
  | _ => Num.nan

/-! ## The request handler `POST /api/calculate` -/

/-- The test `['sub-6', 'mmWave'].includes(frequencyBand)`. -/
def isKnownBand (frequencyBand : JsVal) : Bool :=
  decide (frequencyBand ∈ [JsVal.str "sub-6", JsVal.str "mmWave"])

/-- The test `[0,1,2,3,4].includes(x)`. -/
def isNumerologyValue (x : Num) : Bool :=
  decide (x ∈ [(0 : Num), 1, 2, 3, 4])

/-- The validation errors one edge adds: the body of the first `edges.forEach`. -/
def validateEdge (nodes : List Node) (edge : Edge) : List String :=
  let errors5G :=
    if edge.param "Type liaison" = JsVal.str "5G" then
      let frequencyBand := edge.param "FrequencyBand"
      let e1 :=
        if !isKnownBand frequencyBand then
          ["Edge " ++ edge.id ++ ": FrequencyBand must be 'sub-6' or 'mmWave'"]
        else []
      let numerology := edge.param "Numerology (μ)"
      let e2 :=
        if numerology ≠ JsVal.undefined ∧ isNumerologyValue (parseInt numerology) = false then
          ["Edge " ++ edge.id ++ ": Numerology (μ) must be 0, 1, 2, 3, or 4"]
        else []
      let sourceNode := nodes.find? (fun n => decide (n.id = edge.source))
      let frequency := parseFloatOr
        (match sourceNode with
          | some n => n.paramOpt "Fréquence (MHz)"
          | none => JsVal.undefined) 3500
      let e3 :=
        if frequencyBand = JsVal.str "mmWave" ∧ Num.lt frequency 24000 = true then
          ["Edge " ++ edge.id ++ ": mmWave requires frequency >= 24 GHz"]
        else []
      let e4 :=
        if frequencyBand = JsVal.str "sub-6" ∧ Num.ge frequency 6000 = true then
          ["Edge " ++ edge.id ++ ": sub-6 requires frequency < 6 GHz"]
        else []
      e1 ++ e2 ++ e3 ++ e4
    else []
  let errorsRJ45 :=
    if edge.param "Type liaison" = JsVal.str "RJ45" then
      let distance := parseFloatOr (edge.param "Portée (km)") 0.1
      if Num.gt distance 0.1 = true then
        ["Edge " ++ edge.id ++ ": RJ45 maximum distance is 100m (0.1 km)"]
      else []
    else []
  errors5G ++ errorsRJ45

/-- The list `validationErrors` after the first `edges.forEach`. -/
def validationErrors (nodes : List Node) (edges : List Edge) : List String :=
  edges.flatMap (validateEdge nodes)

/-- One step of the cost loop: `parseFloat(node.data.params['Coût unitaire (CFA)'] || 0)` is
added unless it is `NaN`; the read throws when the node has no `data` or no `params`. -/
def addCost (totalCost : Num) (node : Node) : Except JsError Num := do
  let cost := parseFloatOr (← node.param "Coût unitaire (CFA)") 0
  if cost = Num.nan then pure totalCost else pure (totalCost + cost)

/-- The loop `nodes.forEach` that sums the node costs, from the running total on. -/
def sumCosts : Num → List Node → Except JsError Num
  | totalCost, [] => pure totalCost
  | totalCost, node :: rest => do
    let totalCost1 ← addCost totalCost node
    sumCosts totalCost1 rest

/-- An entry of `results`: the edge id with the spread result, or the edge id with an error
message. -/
inductive EdgeEntry where
  | result (edgeId : String) (result : BudgetResult)
  | error (edgeId : String) (error : String)
deriving DecidableEq

/-- The field `edgeId` of an entry. -/
def EdgeEntry.edgeId : EdgeEntry → String
  | EdgeEntry.result id _ => id
  | EdgeEntry.error id _ => id

/-- The callback of `edges.map`: the result entry of one edge. -/
def edgeEntry (host : Host) (nodes : List Node) (topologyGraph : TopologyGraph)
    (edge : Edge) : EdgeEntry :=
  let sourceNode := nodes.find? (fun n => decide (n.id = edge.source))
  let targetNode := nodes.find? (fun n => decide (n.id = edge.target))
  match sourceNode, targetNode with
  | some sourceNode, some targetNode =>
    match calculateChainLinkBudget host sourceNode targetNode edge topologyGraph with
    | Except.ok result => EdgeEntry.result edge.id result
    | Except.error error => EdgeEntry.error edge.id ("Erreur de calcul: " ++ error.message)
  | _, _ => EdgeEntry.error edge.id "Source or target node not found"

/-- The HTTP answers of the handler: status 400 with an error and, for validation errors, the
list `details`; status 500 with an error; or success with `results` and `totalCost`. -/
inductive Response where
  | badRequest (error : String) (details : Option (List String))
  | serverError (error : String)
  | success (results : List EdgeEntry) (totalCost : Num)
deriving DecidableEq

/-- The handler of `POST /api/calculate` on a body with the fields `nodes` and `edges`
(`none` for a missing field). -/
def handleCalculate (host : Host) (nodes : Option (List Node)) (edges : Option (List Edge)) :
    Response :=
  match nodes, edges with
  | some nodes, some edges =>
    let errors := validationErrors nodes edges
    if errors.length > 0 then Response.badRequest "Validation errors" (some errors)
    else
      match sumCosts 0 nodes with
      | Except.error error => Response.serverError ("Server error: " ++ error.message)
      | Except.ok totalCost =>
        let topologyGraph := buildTopologyGraph nodes edges
        Response.success (edges.map (edgeEntry host nodes topologyGraph)) totalCost
  | _, _ => Response.badRequest "Nodes and edges are required" none

/-! ## Specification-side definitions for the request handler -/

/-- The contribution of a node to the total cost as the specification words it: the node's
cost parameter read as a number, and 0 when the parameter is absent or not numeric. -/
def nodeCost (node : Node) : Num :=
  let cost := parseFloat (node.paramOpt "Coût unitaire (CFA)")
  if cost = Num.nan then 0 else cost

/-- The sum of the node costs over all nodes. -/
def specTotalCost (nodes : List Node) : Num :=
  (nodes.map nodeCost).foldr Num.add 0

/-- A node that carries a `data` object with a parameter map, as the data model requires. -/
def Node.WellFormed (node : Node) : Prop :=
  ∃ d p, node.data = some d ∧ d.params = some p

/-- An edge is dangling when its source or its target id is not the id of a node. -/
def Dangling (nodes : List Node) (edge : Edge) : Prop :=
  edge.source ∉ nodes.map Node.id ∨ edge.target ∉ nodes.map Node.id

/-! ## Worked examples for the request handler -/

/-- A node with a label equal to its id and the given parameter map. -/
def paramNode (id : String) (params : Params) : Node :=
  { id := id, type := JsVal.undefined,
    data := some { label := JsVal.str id, params := some params } }

/-- An edge with the given parameter map. -/
def paramEdge (id source target : String) (params : Params) : Edge :=
  { id := id, source := source, target := target, data := some { params := some params } }

/-- The loss of a direct result. -/
def directLoss : Except JsError LinkBudgetResult → Option Num
  | Except.ok r => some r.loss
  | Except.error _ => none

/-- The loss and the coverage of a direct result. -/
def directLossAndCoverage : Except JsError LinkBudgetResult → Option (Num × Num)
  | Except.ok r => some (r.loss, r.coverage)
  | Except.error _ => none

/-- The capacity of a direct result. -/
def directCapacity : Except JsError LinkBudgetResult → Option Num
  | Except.ok r => some r.capacity
  | Except.error _ => none

/-- The block `numerologyInfo` of a direct result. -/
def directNumerology : Except JsError LinkBudgetResult → Option NumerologyInfo
  | Except.ok r => r.numerologyInfo
  | Except.error _ => none

/-- The optical edge of example scenario 1 with the given splice loss: 10 km, 0.2 dB/km,
connector loss 0.4 dB. -/
def scenario1Edge (spliceLoss : Num) : Edge :=
  paramEdge "e1" "A" "B"
    [("Type liaison", JsVal.str "Optique"), ("Portée (km)", JsVal.num 10),
     ("Atténuation (dB/km)", JsVal.num 0.2), ("Perte connecteurs (dB)", JsVal.num 0.4),
     ("Perte épissures (dB)", JsVal.num spliceLoss)]

/-- The twisted-pair edge of example scenario 2 with the given attenuation per 100 m: 0.05 km. -/
def scenario2Edge (attenuation : Num) : Edge :=
  paramEdge "e1" "A" "B"
    [("Type liaison", JsVal.str "RJ45"), ("Portée (km)", JsVal.num 0.05),
     ("Atténuation (dB/100m)", JsVal.num attenuation)]

/-- A twisted-pair edge of 0.05 km with the given declared nominal rate. -/
def ratedEdge (nominalRate : JsVal) : Edge :=
  paramEdge "e1" "A" "B"
    [("Type liaison", JsVal.str "RJ45"), ("Portée (km)", JsVal.num 0.05),
     ("Débit nominal (Mbps)", nominalRate)]

/-- A 5G edge with the given frequency band and further parameters. -/
def fiveGEdge (band : String) (more : Params) : Edge :=
  paramEdge "e1" "A" "B"
    ([("Type liaison", JsVal.str "5G"), ("FrequencyBand", JsVal.str band)] ++ more)

/-- Two nodes `A` and `B` with empty parameter maps. -/
def plainNodes : List Node :=
  [paramNode "A" [], paramNode "B" []]

/-- Two nodes `A` and `B`, `A` declaring the carrier frequency 28000 MHz. -/
def mmWaveNodes : List Node :=
  [paramNode "A" [("Fréquence (MHz)", JsVal.num 28000)], paramNode "B" []]

/-- Three nodes with the unit costs 100, `"250.5"` and `"n/a"`, and a fourth without a cost. -/
def costNodes : List Node :=
  [paramNode "A" [("Coût unitaire (CFA)", JsVal.num 100)],
   paramNode "B" [("Coût unitaire (CFA)", JsVal.str "250.5")],
   paramNode "C" [("Coût unitaire (CFA)", JsVal.str "n/a")],
   paramNode "D" []]

/-! ## A host whose powers and logarithms invert each other -/

/-- The power `a ^ e` by linear interpolation between the exact powers at the two integers
around `e`. -/
def interpolatedPow (a e : ℚ) : ℚ :=
  a ^ Int.floor e * (1 + (a - 1) * Int.fract e)

/-- The logarithm of `q` to the base `b`, the inverse of the interpolated power. -/
def interpolatedLog (b : ℕ) (q : ℚ) : ℚ :=
  if 0 < q then (Int.log b q : ℚ) + (q / (b : ℚ) ^ Int.log b q - 1) / ((b : ℚ) - 1) else 0

/-- Rational stand-ins for the transcendental functions that are exact at the integers and
interpolate linearly in between, so that the logarithms invert the powers. -/
def interpolatingMath : JsMath :=
  { log10 := interpolatedLog 10
    log2 := interpolatedLog 2
    pow := interpolatedPow
    sqrt := fun q => interpolatedPow q (1 / 2)
    exp := interpolatedPow (2721 / 1001) }

/-- A host with the interpolating functions and the equipment table of the sample host. -/
def interpolatingHost : Host :=
  { math := interpolatingMath, getEquipmentProperties := sampleHost.getEquipmentProperties }

/-- The properties of exact arithmetic that the statements on the signal-to-noise ratio and
the Shannon capacity rest on: powers of 10 are positive, `log10` inverts them, and `log2` is
positive above 1. -/
structure ExactMath (m : JsMath) : Prop where
  pow_pos : ∀ e : ℚ, 0 < m.pow 10 e
  log10_zpow : ∀ n : ℤ, m.log10 ((10 : ℚ) ^ n) = n
  log10_pow : ∀ e : ℚ, m.log10 (m.pow 10 e) = e
  log2_pos : ∀ a : ℚ, 1 < a → 0 < m.log2 a

/-! ## The stages of `calculateDirectLinkBudget`, named for the statements about it -/

/-- The transmit power `parseFloat(txNode.data.params['Puissance (dBm)'] || 20)`, from the
parameter map of the transmitting node. -/
def transmitPower (txParams : Params) : Num :=
  parseFloatOr (txParams.get "Puissance (dBm)") 20

/-- The distance `parseFloat(edge.data?.params?.['Portée (km)'] || 0.1)`. -/
def linkDistance (edge : Edge) : Num :=
  parseFloatOr (edge.param "Portée (km)") 0.1

/-- The link type `edge.data?.params?.['Type liaison'] || 'Hertzien'`. -/
def linkTypeOf (edge : Edge) : JsVal :=
  jsOr (edge.param "Type liaison") (JsVal.str "Hertzien")

/-- The bit rate `modulationRate * Math.log2(valence)`, before the conversion to Mbps. -/
def rawBitrate (host : Host) (edge : Edge) : Num :=
  parseFloatOr (edge.param "Rapidité modulation (bauds)") 1200 *
    host.math.jsLog2 (parseFloatOr (edge.param "Valence") 16)

/-- The dispatch on the link type: the `if` / `else if` chain over the technology
branches. -/
def selectBranch (host : Host) (txNode rxNode : Node) (edge : Edge) (linkType : JsVal)
    (power distance bitrate : Num) : Except JsError BranchVars :=
  if linkType = JsVal.str "Optique" then pure (opticalBranch edge power distance)
  else if linkType = JsVal.str "RJ45" then pure (rj45Branch edge distance)
  else
    match linkType with
    | JsVal.str s =>
      if isCellular linkType then cellularBranch host txNode rxNode edge s distance bitrate
      else hertzienBranch host txNode rxNode edge power distance
    | _ => hertzienBranch host txNode rxNode edge power distance

/-- The variable `bandwidth` of the Shannon fallback: the edge's `Bande passante (MHz)`, else
the transmitter's `Bande passante (kHz)`, else 20000, divided by 1000, and then overridden per
link type. -/
def shannonBandwidth (edge : Edge) (linkType txBandwidth : JsVal) : Num :=
  let bandwidth0 := parseFloat (jsOr (jsOr (edge.param "Bande passante (MHz)") txBandwidth)
    (JsVal.num 20000)) / 1000
  let bandwidth1 := if linkType = JsVal.str "GSM" then 0.2 else bandwidth0
  let bandwidth2 := if linkType = JsVal.str "UMTS" then 5 else bandwidth1
  let bandwidth3 := if linkType = JsVal.str "4G" then 20 else bandwidth2
  let bandwidth4 :=
    if linkType = JsVal.str "5G" then
      (if edge.param "FrequencyBand" = JsVal.str "mmWave" then 400 else 100)
    else bandwidth3
  if linkType = JsVal.str "Optique" then 1000 else bandwidth4

/-- The linear signal-to-noise ratio `Math.pow(10, (receivedPower - noiseFloor) / 10)`. -/
def snrLinearOf (host : Host) (linkType : JsVal) (receivedPower : Num) : Num :=
  host.math.jsPow 10 ((receivedPower - noiseFloor linkType) / 10)

/-- The part of the function after the technology branches: signal-to-noise ratio, Shannon
fallback and the result object. -/
def finishResult (host : Host) (txNode : Node) (edge : Edge) (linkType : JsVal)
    (power bitrate : Num) (txBandwidth : JsVal) (vars : BranchVars) : LinkBudgetResult :=
  let receivedPower := power - vars.loss
  let snrLinear := snrLinearOf host linkType receivedPower
  let bandwidth := shannonBandwidth edge linkType txBandwidth
  { receivedPower := receivedPower
    loss := vars.loss
    capacity :=
      if Num.strictEq vars.capacity 0 then bandwidth * host.math.jsLog2 (1 + snrLinear)
      else vars.capacity
    coverage := vars.coverage
    latency := vars.latency
    snr_dB := 10 * host.math.jsLog10 snrLinear
    bitrate := bitrate / 1e6
    linkType := linkType
    margin :=
      if linkType = JsVal.str "Optique" ∧ Num.strictEq vars.margin 0 = false
      then some vars.margin else none
    frequenciesPerCell :=
      if isCellular linkType then whenTruthy vars.frequenciesPerCell else none
    reuseDistance := if isCellular linkType then whenTruthy vars.reuseDistance else none
    cellularCapacity :=
      if isCellular linkType then whenTruthy vars.cellularCapacity else none
    numerologyInfo :=
      if linkType = JsVal.str "5G" then
        some (calculate5GNumerology host
          (parseFloatOr (txNode.paramOpt "Fréquence (GHz)") 3500)
          (parseFloatOr (edge.param "Bande passante (MHz)") 100)
          (parseFloatOr (edge.param "Numerology (μ)") 1))
      else none }

/-- The nominal rate `parseFloat(edge.data?.params?.['Débit nominal (Mbps)'] || 1000)` of a
twisted-pair edge. -/
def nominalRateOf (edge : Edge) : Num :=
  parseFloatOr (edge.param "Débit nominal (Mbps)") 1000

/-- The optical edge of example scenario 1 with the given declared attenuation: 10 km, connector
loss 0.4 dB, splice loss 0.1 dB. -/
def attenuationEdge (attenuation : Num) : Edge :=
  paramEdge "e1" "A" "B"
    [("Type liaison", JsVal.str "Optique"), ("Portée (km)", JsVal.num 10),
     ("Atténuation (dB/km)", JsVal.num attenuation), ("Perte connecteurs (dB)", JsVal.num 0.4),
     ("Perte épissures (dB)", JsVal.num 0.1)]

/-- The reuse distance of a direct result. -/
def directReuseDistance : Except JsError LinkBudgetResult → Option Num
  | Except.ok r => r.reuseDistance
  | Except.error _ => none

/-- The cellular capacity of a direct result. -/
def directCellularCapacity : Except JsError LinkBudgetResult → Option Num
  | Except.ok r => r.cellularCapacity
  | Except.error _ => none

/-- A UMTS edge with the given further parameters. -/
def umtsEdge (more : Params) : Edge :=
  paramEdge "e1" "A" "B" ([("Type liaison", JsVal.str "UMTS")] ++ more)

/-- An optical edge of 10 km with the given further parameters. -/
def fibreEdge (more : Params) : Edge :=
  paramEdge "e1" "A" "B"
    ([("Type liaison", JsVal.str "Optique"), ("Portée (km)", JsVal.num 10)] ++ more)

/-- The three valid edges of the triangle followed by an edge to the id `Z`, which no node
carries. -/
def danglingRequestEdges : List Edge :=
  triangleEdges ++ [opticalEdge "e4" "A" "Z" 10]

/-- One optical edge declared from `B` to `A`. -/
def reverseEdge : Edge :=
  opticalEdge "e1" "B" "A" 10

/-- The nodes `A` and `B`, both passive, `A` transmitting 20 dBm. -/
def pairNodes : List Node :=
  [sampleNode "A" "Coupleur" 20, sampleNode "B" "Coupleur" 10]

/-- The received power and the capacity of a direct result. -/
def directPowerAndCapacity : Except JsError LinkBudgetResult → Option (Num × Num)
  | Except.ok r => some (r.receivedPower, r.capacity)
  | Except.error _ => none

/-- The received power of a direct result. -/
def directReceivedPower : Except JsError LinkBudgetResult → Option Num
  | Except.ok r => some r.receivedPower
  | Except.error _ => none

/-- The carrier frequency of a cellular link in MHz: the value the transmitting node declares
under `Fréquence (MHz)`, else 900, 2100, 2600 or 3500 for GSM, UMTS, 4G and 5G. -/
def carrierFrequency (declared : JsVal) (linkType : String) : Num :=
  parseFloatOr declared
    (if linkType = "GSM" then 900 else if linkType = "UMTS" then 2100
     else if linkType = "4G" then 2600 else 3500)

/-- The coverage of a cellular link,
`Math.pow(10, (100 - 32.4 - 20 * Math.log10(frequency / 1000)) / 20)`. -/
def cellularCoverage (host : Host) (frequency : Num) : Num :=
  host.math.jsPow 10 ((100 - 32.4 - 20 * host.math.jsLog10 (frequency / 1000)) / 20)

/-- The free-space path loss
`32.4 + 20 * Math.log10(distance) + 20 * Math.log10(frequency / 1000)`. -/
def freeSpaceLoss (host : Host) (distance frequency : Num) : Num :=
  32.4 + 20 * host.math.jsLog10 distance + 20 * host.math.jsLog10 (frequency / 1000)

/-- A GSM edge without further parameters. -/
def gsmEdge : Edge :=
  paramEdge "e1" "A" "B" [("Type liaison", JsVal.str "GSM")]

/-- The properties of the square root and the decimal logarithm that the statement on the 4G
interference factor rests on: above 1 the square root is at least 1, from 1 on the logarithm
is not negative, and both are monotone there. -/
structure MonotoneMath (m : JsMath) : Prop where
  sqrt_ge_one : ∀ a : ℚ, 1 < a → 1 ≤ m.sqrt a
  sqrt_mono : ∀ a b : ℚ, 1 < a → a ≤ b → m.sqrt a ≤ m.sqrt b
  log10_nonneg : ∀ a : ℚ, 1 ≤ a → 0 ≤ m.log10 a
  log10_mono : ∀ a b : ℚ, 1 ≤ a → a ≤ b → m.log10 a ≤ m.log10 b

/-! ## Specification-side definitions for the order of the search -/

/-- The walk that starts at `a` and takes, at each node, the connection with the given index in
the adjacency list of that node; `none` when an index is out of range. -/
def walkOfIndices (graph : TopologyGraph) : String → List Nat → Option (List Connection)
  | _, [] => some []
  | a, i :: rest =>
    match (connectionsOf graph a)[i]? with
    | none => none
    | some c => (walkOfIndices graph c.target rest).map (fun q => c :: q)

/-- The lexicographic order on index lists: `is` comes before `js` or equals it. -/
def lexLe : List Nat → List Nat → Bool
  | [], _ => true
  | _ :: _, [] => false
  | i :: is, j :: js => decide (i < j) || (decide (i = j) && lexLe is js)

/-- The index list `is` names the walk `q`, a simple walk from `node` to `t` that avoids
`visited`, and no index list of such a walk comes before `is`. -/
def LeastWalk (graph : TopologyGraph) (visited : List String) (t node : String)
    (is : List Nat) (q : List Connection) : Prop :=
  walkOfIndices graph node is = some q ∧ SimpleWalkAvoiding graph visited node q t ∧
    ∀ js q1, walkOfIndices graph node js = some q1 →
      SimpleWalkAvoiding graph visited node q1 t → lexLe is js = true

/-- What a call of `dfs` on an unvisited node does, with the order of the search: a path it
returns is the least one. -/
def DfsLeast (graph : TopologyGraph) (t node : String) (path : List Connection)
    (visited : List String) (res : Option DfsResult) : Prop :=
  (∃ is q v1, res = some (some (path ++ q), v1) ∧ LeastWalk graph visited t node is q) ∨
  (res = some (none, visited) ∧ ¬ ∃ q, SimpleWalkAvoiding graph visited node q t)

/-- The carrier frequency the validation gate reads for an edge,
`parseFloat(sourceNode?.data?.params?.['Fréquence (MHz)'] || 3500)`. -/
def gateFrequency (nodes : List Node) (edge : Edge) : Num :=
  parseFloatOr
    (match nodes.find? (fun n => decide (n.id = edge.source)) with
      | some n => n.paramOpt "Fréquence (MHz)"
      | none => JsVal.undefined) 3500

/-- An edge breaks a rule of the validation gate as the specification words them: a 5G edge
whose band is neither `sub-6` nor `mmWave`, or that declares a numerology other than the
numbers 0 to 4, or that is mmWave below 24000 MHz or sub-6 at 6000 MHz or above; or a
twisted-pair edge that declares more than 0.1 km. -/
def BreaksRule (nodes : List Node) (edge : Edge) : Prop :=
  (edge.param "Type liaison" = JsVal.str "5G" ∧
    (isKnownBand (edge.param "FrequencyBand") = false ∨
     (edge.param "Numerology (μ)" ≠ JsVal.undefined ∧
       edge.param "Numerology (μ)" ∉
         [JsVal.num 0, JsVal.num 1, JsVal.num 2, JsVal.num 3, JsVal.num 4]) ∨
     (edge.param "FrequencyBand" = JsVal.str "mmWave" ∧
       Num.lt (gateFrequency nodes edge) 24000 = true) ∨
     (edge.param "FrequencyBand" = JsVal.str "sub-6" ∧
       Num.ge (gateFrequency nodes edge) 6000 = true))) ∨
  (edge.param "Type liaison" = JsVal.str "RJ45" ∧
    Num.gt (parseFloatOr (edge.param "Portée (km)") 0.1) 0.1 = true)

/-- The part of `BreaksRule` without the numerology rule. -/
def BreaksOtherRule (nodes : List Node) (edge : Edge) : Prop :=
  (edge.param "Type liaison" = JsVal.str "5G" ∧
    (isKnownBand (edge.param "FrequencyBand") = false ∨
     (edge.param "FrequencyBand" = JsVal.str "mmWave" ∧
       Num.lt (gateFrequency nodes edge) 24000 = true) ∨
     (edge.param "FrequencyBand" = JsVal.str "sub-6" ∧
       Num.ge (gateFrequency nodes edge) 6000 = true))) ∨
  (edge.param "Type liaison" = JsVal.str "RJ45" ∧
    Num.gt (parseFloatOr (edge.param "Portée (km)") 0.1) 0.1 = true)

/-- The interpolating functions with a power that underflows as a double does: a result below
half the smallest positive double, `2 ^ (-1075)`, is 0. -/
def underflowingMath : JsMath :=
  { interpolatingMath with
    pow := fun a e =>
      if interpolatedPow a e < (2 : ℚ) ^ (-1075 : ℤ) then 0 else interpolatedPow a e }

/-- A host with the underflowing power and the equipment table of the sample host. -/
def underflowHost : Host :=
  { math := underflowingMath, getEquipmentProperties := sampleHost.getEquipmentProperties }

/-- The field `snr_dB` of a direct result. -/
def directSnr : Except JsError LinkBudgetResult → Option Num
  | Except.ok r => some r.snr_dB
  | Except.error _ => none

/-- The coverage of a direct result. -/
def directCoverage : Except JsError LinkBudgetResult → Option Num
  | Except.ok r => some r.coverage
  | Except.error _ => none

/-! # Theorems -/

/-! ## `buildTopologyGraph` -/

theorem mapGet_cons (k : String) (v : GraphEntry) (g : TopologyGraph) (key : String) :
    mapGet ((k, v) :: g) key = if key = k then some v else mapGet g key := by
  unfold mapGet
  rw [List.lookup_cons]
  by_cases h : key = k
  · simp [h]
  · have hb : (key == k) = false := by simpa using h
    simp [h, hb]

theorem mapSet_keys_of_not_mem (g : TopologyGraph) (k : String) (v : GraphEntry)
    (h : k ∉ g.map Prod.fst) : mapSet g k v = g ++ [(k, v)] := by
  induction g with
  | nil => rfl
  | cons p rest ih =>
    obtain ⟨k1, v1⟩ := p
    simp only [List.map_cons, List.mem_cons, not_or] at h
    have hne : ¬ k1 = k := fun e => h.1 e.symm
    simp [mapSet, hne, ih h.2]

theorem foldl_mapSet (nodes : List Node) (g : TopologyGraph)
    (hd : (g.map Prod.fst ++ nodes.map Node.id).Nodup) :
    nodes.foldl (fun g node => mapSet g node.id { node := node, connections := [] }) g
      = g ++ nodes.map (fun n => (n.id, { node := n, connections := [] })) := by
  induction nodes generalizing g with
  | nil => simp
  | cons n rest ih =>
    have hn : n.id ∉ g.map Prod.fst := by
      intro hmem
      have := List.nodup_append.mp hd
      exact this.2.2 hmem (by simp)
    simp only [List.foldl_cons]
    rw [mapSet_keys_of_not_mem g _ _ hn, ih]
    · simp
    · simpa [List.append_assoc] using hd

theorem pushConnection_keys (g : TopologyGraph) (k : String) (c : Connection) :
    (pushConnection g k c).map Prod.fst = g.map Prod.fst := by
  induction g with
  | nil => rfl
  | cons p rest ih =>
    obtain ⟨k1, v1⟩ := p
    by_cases h : k1 = k
    · simp [pushConnection, h]
    · simp [pushConnection, h, ih]

theorem mapGet_pushConnection (g : TopologyGraph) (k : String) (c : Connection) (n : String) :
    mapGet (pushConnection g k c) n = (mapGet g n).map (pushed k c n) := by
  induction g with
  | nil => rfl
  | cons p rest ih =>
    obtain ⟨k1, v1⟩ := p
    by_cases h : k1 = k
    · subst h
      simp only [pushConnection, if_true, mapGet_cons]
      by_cases hn : n = k1
      · simp [hn, pushed]
      · have hid : pushed k1 c n = id := by
          funext e
          simp [pushed, hn]
        simp [hn, hid]
    · simp only [pushConnection, h, if_false, mapGet_cons]
      by_cases hn : n = k1
      · have : ¬ n = k := fun e => h (hn ▸ e)
        simp [hn, pushed, h]
      · simp [hn, ih]

theorem mapHas_iff (g : TopologyGraph) (k : String) :
    mapHas g k = true ↔ k ∈ g.map Prod.fst := by
  induction g with
  | nil => simp [mapHas, mapGet]
  | cons p rest ih =>
    obtain ⟨k1, v1⟩ := p
    unfold mapHas at ih ⊢
    rw [mapGet_cons]
    by_cases h : k = k1
    · simp [h]
    · simp [h, ih]

theorem extend_nil : extend [] = id := by
  funext en
  simp [extend]

theorem extend_extend (cs ds : List Connection) (en : GraphEntry) :
    extend ds (extend cs en) = extend (cs ++ ds) en := by
  simp [extend, List.append_assoc]

theorem addEdge_keys (g : TopologyGraph) (e : Edge) :
    (addEdge g e).map Prod.fst = g.map Prod.fst := by
  unfold addEdge
  split
  · simp [pushConnection_keys]
  · rfl

theorem mapHas_addEdge (g : TopologyGraph) (e : Edge) (k : String) :
    mapHas (addEdge g e) k = mapHas g k := by
  rw [Bool.eq_iff_iff, mapHas_iff, mapHas_iff, addEdge_keys]

theorem mapGet_addEdge (g : TopologyGraph) (e : Edge) (n : String) :
    mapGet (addEdge g e) n =
      (mapGet g n).map (extend
        (if mapHas g e.source && mapHas g e.target then edgeEntries n e else [])) := by
  unfold addEdge
  split
  · rename_i hv
    simp only [hv, if_true, mapGet_pushConnection, Option.map_map]
    congr 1
    funext en
    by_cases h1 : e.source = n
    · by_cases h2 : e.target = n
      · simp [pushed, extend, edgeEntries, h1, h2]
      · have h2s : ¬ n = e.target := fun h => h2 h.symm
        simp [pushed, extend, edgeEntries, h1, h2, h2s]
    · have h1s : ¬ n = e.source := fun h => h1 h.symm
      by_cases h2 : e.target = n
      · simp [pushed, extend, edgeEntries, h1, h2, h1s]
      · have h2s : ¬ n = e.target := fun h => h2 h.symm
        simp [pushed, extend, edgeEntries, h1, h2, h1s, h2s]
  · rename_i hv
    simp [hv, extend_nil]

theorem mapGet_foldl_addEdge (edges : List Edge) (g : TopologyGraph) (n : String) :
    mapGet (edges.foldl addEdge g) n =
      (mapGet g n).map (extend
        ((edges.filter (fun e => mapHas g e.source && mapHas g e.target)).flatMap
          (edgeEntries n))) := by
  induction edges generalizing g with
  | nil => simp [extend_nil]
  | cons e rest ih =>
    simp only [List.foldl_cons]
    rw [ih, mapGet_addEdge, Option.map_map]
    simp only [mapHas_addEdge]
    congr 1
    funext en
    simp only [Function.comp, extend_extend]
    by_cases hv : (mapHas g e.source && mapHas g e.target) = true
    · simp [hv, List.filter_cons]
    · simp [hv, List.filter_cons]

theorem foldl_addEdge_keys (edges : List Edge) (g : TopologyGraph) :
    (edges.foldl addEdge g).map Prod.fst = g.map Prod.fst := by
  induction edges generalizing g with
  | nil => rfl
  | cons e rest ih => simp only [List.foldl_cons]; rw [ih, addEdge_keys]

theorem initial_graph (nodes : List Node) (hd : (nodes.map Node.id).Nodup) :
    nodes.foldl (fun g node => mapSet g node.id { node := node, connections := [] }) []
      = nodes.map (fun n => (n.id, { node := n, connections := [] })) := by
  have := foldl_mapSet nodes [] (by simpa using hd)
  simpa using this

theorem mapGet_initial (nodes : List Node) (hd : (nodes.map Node.id).Nodup) (n : Node)
    (hn : n ∈ nodes) :
    mapGet (nodes.map (fun n => (n.id, ({ node := n, connections := [] } : GraphEntry)))) n.id
      = some { node := n, connections := [] } := by
  induction nodes with
  | nil => simp at hn
  | cons m rest ih =>
    simp only [List.map_cons, mapGet_cons]
    simp only [List.map_cons, List.nodup_cons] at hd
    by_cases h : n.id = m.id
    · rcases List.mem_cons.mp hn with h1 | h1
      · simp [h1]
      · exact absurd (h ▸ List.mem_map_of_mem Node.id h1) hd.1
    · rcases List.mem_cons.mp hn with h1 | h1
      · exact absurd (congrArg Node.id h1) h
      · simp [h, ih hd.2 h1]

theorem buildTopologyGraph_keys (nodes : List Node) (edges : List Edge)
    (hd : (nodes.map Node.id).Nodup) :
    (buildTopologyGraph nodes edges).map Prod.fst = nodes.map Node.id := by
  unfold buildTopologyGraph
  simp only
  rw [foldl_addEdge_keys, initial_graph nodes hd]
  simp [Function.comp]

/-- Claim C10: for a node list with distinct ids and any edge list, the keys of the map that
`buildTopologyGraph` returns are exactly the node ids, in input order, and the entry of each
node `n` holds `n` and the connection list the specification describes: over the edges
whose two endpoints are node ids, in edge input order, a forward entry for each edge that
starts at `n` and a reverse-tagged entry for each edge that ends at `n`.  An edge with a
missing endpoint contributes nothing; the function is total, so no error is raised. -/
theorem buildTopologyGraph_spec (nodes : List Node) (edges : List Edge)
    (hd : (nodes.map Node.id).Nodup) :
    (buildTopologyGraph nodes edges).map Prod.fst = nodes.map Node.id ∧
    ∀ n ∈ nodes, mapGet (buildTopologyGraph nodes edges) n.id =
      some { node := n, connections := specConnections nodes edges n.id } := by
  refine ⟨buildTopologyGraph_keys nodes edges hd, ?_⟩
  intro n hn
  unfold buildTopologyGraph
  simp only
  rw [mapGet_foldl_addEdge, initial_graph nodes hd, mapGet_initial nodes hd n hn]
  simp only [Option.map_some', extend, List.nil_append, specConnections]
  have hk : ∀ k, mapHas (nodes.map (fun n => (n.id, ({ node := n, connections := [] } : GraphEntry)))) k
      = decide (k ∈ nodes.map Node.id) := by
    intro k
    rw [Bool.eq_iff_iff, mapHas_iff]
    simp [Function.comp]
  simp only [hk]
  rfl

/-! ## `findChainPath` -/

theorem setHas_iff (visited : List String) (x : String) :
    setHas visited x = true ↔ x ∈ visited := by
  simp [setHas]

theorem setAdd_of_not_mem (visited : List String) (x : String) (h : x ∉ visited) :
    setAdd visited x = visited ++ [x] := by
  simp [setAdd, h]

theorem mem_setAdd (visited : List String) (x y : String) :
    y ∈ setAdd visited x ↔ y ∈ visited ∨ y = x := by
  unfold setAdd
  split
  · rename_i h
    constructor
    · exact Or.inl
    · rintro (h1 | h1)
      · exact h1
      · exact h1 ▸ h
  · simp

theorem setDelete_setAdd (visited : List String) (x : String) (h : x ∉ visited) :
    setDelete (setAdd visited x) x = visited := by
  rw [setAdd_of_not_mem visited x h]
  unfold setDelete
  rw [List.filter_append]
  have h1 : visited.filter (fun y => decide (y ≠ x)) = visited := by
    apply List.filter_eq_self.mpr
    intro y hy
    have : y ≠ x := fun e => h (e ▸ hy)
    simpa using this
  rw [h1]
  simp

theorem unvisitedCount_le (graph : TopologyGraph) (visited : List String) :
    unvisitedCount graph visited ≤ graph.length := by
  unfold unvisitedCount
  calc ((graph.map Prod.fst).toFinset \ visited.toFinset).card
      ≤ (graph.map Prod.fst).toFinset.card := Finset.card_le_card Finset.sdiff_subset
    _ ≤ (graph.map Prod.fst).length := List.toFinset_card_le _
    _ = graph.length := by simp

theorem unvisitedCount_setAdd (graph : TopologyGraph) (visited : List String) (x : String)
    (hk : mapHas graph x = true) (hv : x ∉ visited) :
    unvisitedCount graph (setAdd visited x) < unvisitedCount graph visited := by
  unfold unvisitedCount
  apply Finset.card_lt_card
  rw [Finset.ssubset_iff_of_subset]
  · refine ⟨x, ?_, ?_⟩
    · simp only [Finset.mem_sdiff, List.mem_toFinset]
      exact ⟨(mapHas_iff graph x).mp hk, hv⟩
    · simp [mem_setAdd]
  · intro y
    simp only [Finset.mem_sdiff, List.mem_toFinset, mem_setAdd, not_or]
    exact fun h => ⟨h.1, h.2.1⟩

theorem connectionsOf_of_mapGet (graph : TopologyGraph) (a : String) (entry : GraphEntry)
    (h : mapGet graph a = some entry) : connectionsOf graph a = entry.connections := by
  simp [connectionsOf, h]

theorem dfsLoop_ok (graph : TopologyGraph) (t node : String) (path : List Connection)
    (v : List String)
    (call : String → List Connection → List String → Option DfsResult)
    (cs : List Connection)
    (hcall : ∀ c ∈ cs, c.target ∉ v →
      DfsOk graph t c.target (path ++ [c]) v (call c.target (path ++ [c]) v)) :
    (∃ c q v', c ∈ cs ∧ c.target ∉ v ∧
        dfsLoop call node path cs v = some (some (path ++ c :: q), v') ∧
        SimpleWalkAvoiding graph v c.target q t) ∨
    (dfsLoop call node path cs v = some (none, setDelete v node) ∧
      ∀ c ∈ cs, c.target ∉ v → ¬ ∃ q, SimpleWalkAvoiding graph v c.target q t) := by
  induction cs with
  | nil =>
    right
    exact ⟨rfl, by simp⟩
  | cons c rest ih =>
    have ih1 := ih (fun c1 h1 h2 => hcall c1 (List.mem_cons_of_mem _ h1) h2)
    by_cases hc : c.target ∈ v
    · have hs : setHas v c.target = true := (setHas_iff _ _).mpr hc
      have hstep : dfsLoop call node path (c :: rest) v = dfsLoop call node path rest v := by
        simp [dfsLoop, hs]
      rw [hstep]
      rcases ih1 with ⟨c1, q, v', h1, h2, h3, h4⟩ | ⟨h1, h2⟩
      · exact Or.inl ⟨c1, q, v', List.mem_cons_of_mem _ h1, h2, h3, h4⟩
      · right
        refine ⟨h1, ?_⟩
        intro c1 hc1 hn
        rcases List.mem_cons.mp hc1 with e | e
        · exact absurd (e ▸ hc) hn
        · exact h2 c1 e hn
    · have hs : setHas v c.target = false := by
        rw [← Bool.not_eq_true, setHas_iff]
        exact hc
      rcases hcall c (List.mem_cons_self _ _) hc with ⟨q, v', h1, h2⟩ | ⟨h1, h2⟩
      · left
        refine ⟨c, q, v', List.mem_cons_self _ _, hc, ?_, h2⟩
        simp [dfsLoop, hs, h1]
      · have hstep : dfsLoop call node path (c :: rest) v = dfsLoop call node path rest v := by
          simp [dfsLoop, hs, h1]
        rw [hstep]
        rcases ih1 with ⟨c1, q, v', h3, h4, h5, h6⟩ | ⟨h3, h4⟩
        · exact Or.inl ⟨c1, q, v', List.mem_cons_of_mem _ h3, h4, h5, h6⟩
        · right
          refine ⟨h3, ?_⟩
          intro c1 hc1 hn
          rcases List.mem_cons.mp hc1 with e | e
          · rw [e]; exact h2
          · exact h4 c1 e hn

theorem mapGet_isSome_of_mapHas (graph : TopologyGraph) (k : String)
    (h : mapHas graph k = true) : ∃ entry, mapGet graph k = some entry := by
  unfold mapHas at h
  exact Option.isSome_iff_exists.mp h

theorem dfs_ok (graph : TopologyGraph) (hclosed : Closed graph) (t : String) :
    ∀ (depth : Nat) (node : String) (path : List Connection) (visited : List String),
      mapHas graph node = true → node ∉ visited → unvisitedCount graph visited < depth →
      DfsOk graph t node path visited (dfs graph t depth node path visited) := by
  intro depth
  induction depth with
  | zero => intro node path visited _ _ h; exact absurd h (Nat.not_lt_zero _)
  | succ d ih =>
    intro node path visited hkey hnv hcount
    by_cases hnt : node = t
    · left
      refine ⟨[], visited, ?_, ?_⟩
      · simp [dfs, hnt]
      · refine ⟨hnt, ?_, ?_⟩
        · simp [walkNodes]
        · intro x hx
          simp only [walkNodes, List.map_nil, List.mem_singleton] at hx
          rw [hx]; exact hnv
    · obtain ⟨entry, hentry⟩ := mapGet_isSome_of_mapHas graph node hkey
      have hs : setHas visited node = false := by
        rw [← Bool.not_eq_true, setHas_iff]
        exact hnv
      have hdfs : dfs graph t (d + 1) node path visited =
          dfsLoop (dfs graph t d) node path entry.connections (setAdd visited node) := by
        simp [dfs, hnt, hs, hentry]
      rw [hdfs]
      have hconn := connectionsOf_of_mapGet graph node entry hentry
      have hlt : unvisitedCount graph (setAdd visited node) < d := by
        have := unvisitedCount_setAdd graph visited node hkey hnv
        omega
      have hloop := dfsLoop_ok graph t node path (setAdd visited node) (dfs graph t d)
        entry.connections (fun c hc hcv =>
          ih c.target (path ++ [c]) (setAdd visited node)
            (hclosed node c (hconn ▸ hc)) hcv hlt)
      rcases hloop with ⟨c, q, v', hc, hcv, hres, hwalk, hnodup, havoid⟩ | ⟨hres, hnone⟩
      · left
        refine ⟨c :: q, v', hres, ?_, ?_, ?_⟩
        · exact ⟨hconn ▸ hc, hwalk⟩
        · have : node ∉ walkNodes c.target q := by
            intro hmem
            exact havoid node hmem ((mem_setAdd _ _ _).mpr (Or.inr rfl))
          simpa [walkNodes] using ⟨by simpa [walkNodes] using this, by simpa [walkNodes] using hnodup⟩
        · intro x hx
          have hx1 : x = node ∨ x ∈ walkNodes c.target q := by
            simpa [walkNodes] using hx
          rcases hx1 with e | e
          · rw [e]; exact hnv
          · intro hxv
            exact havoid x e ((mem_setAdd _ _ _).mpr (Or.inl hxv))
      · right
        refine ⟨by rw [hres, setDelete_setAdd visited node hnv], ?_⟩
        rintro ⟨q, hwalk, hnodup, havoid⟩
        cases q with
        | nil => exact hnt hwalk
        | cons c q1 =>
          obtain ⟨hc, hw1⟩ := hwalk
          have hnd : node ∉ walkNodes c.target q1 ∧ (walkNodes c.target q1).Nodup := by
            simpa [walkNodes] using hnodup
          have hav1 : ∀ x ∈ walkNodes c.target q1, x ∉ setAdd visited node := by
            intro x hx hxv
            rcases (mem_setAdd _ _ _).mp hxv with e | e
            · exact havoid x (by simp only [walkNodes, List.map_cons, List.mem_cons] at hx ⊢; exact Or.inr hx) e
            · exact hnd.1 (e ▸ hx)
          have hct : c.target ∉ setAdd visited node :=
            hav1 c.target (by simp [walkNodes])
          exact hnone c (hconn ▸ hc) hct ⟨q1, hw1, hnd.2, hav1⟩

theorem mapGet_mapSet (g : TopologyGraph) (k : String) (v : GraphEntry) (n : String) :
    mapGet (mapSet g k v) n = if n = k then some v else mapGet g n := by
  induction g with
  | nil =>
    show mapGet [(k, v)] n = _
    rw [mapGet_cons]
  | cons p rest ih =>
    obtain ⟨k1, v1⟩ := p
    by_cases h : k1 = k
    · subst h
      simp only [mapSet, if_true, mapGet_cons]
      by_cases hn : n = k1 <;> simp [hn]
    · simp only [mapSet, h, if_false, mapGet_cons, ih]
      by_cases hn : n = k1
      · have : ¬ n = k := fun e => h (hn ▸ e)
        simp [hn, h]
      · simp [hn]

theorem initial_graph_no_connections (nodes : List Node) (g : TopologyGraph)
    (hg : ∀ n en, mapGet g n = some en → en.connections = []) :
    ∀ n en,
      mapGet (nodes.foldl (fun g node => mapSet g node.id { node := node, connections := [] }) g) n
        = some en → en.connections = [] := by
  induction nodes generalizing g with
  | nil => simpa using hg
  | cons m rest ih =>
    simp only [List.foldl_cons]
    apply ih
    intro n en h
    rw [mapGet_mapSet] at h
    by_cases hn : n = m.id
    · simp only [hn, if_true, Option.some.injEq] at h
      rw [← h]
    · simp only [hn, if_false] at h
      exact hg n en h

theorem closed_of_no_connections (g : TopologyGraph)
    (hg : ∀ n en, mapGet g n = some en → en.connections = []) : Closed g := by
  intro a c hc
  unfold connectionsOf at hc
  cases h : mapGet g a with
  | none => simp [h] at hc
  | some en => simp [h, hg a en h] at hc

theorem closed_addEdge (g : TopologyGraph) (e : Edge) (hg : Closed g) : Closed (addEdge g e) := by
  intro a c hc
  rw [mapHas_addEdge]
  unfold connectionsOf at hc
  rw [mapGet_addEdge] at hc
  cases h : mapGet g a with
  | none => simp [h] at hc
  | some en =>
    simp only [h, Option.map_some', extend, List.mem_append] at hc
    rcases hc with hc | hc
    · exact hg a c (by simp [connectionsOf, h, hc])
    · by_cases hv : (mapHas g e.source && mapHas g e.target) = true
      · simp only [hv, if_true, edgeEntries, List.mem_append] at hc
        simp only [Bool.and_eq_true] at hv
        rcases hc with hc | hc
        · by_cases h1 : e.source = a
          · simp only [h1, if_true, List.mem_singleton] at hc
            rw [hc]; exact hv.2
          · simp [h1] at hc
        · by_cases h1 : e.target = a
          · simp only [h1, if_true, List.mem_singleton] at hc
            rw [hc]; exact hv.1
          · simp [h1] at hc
      · simp [hv] at hc

theorem closed_foldl_addEdge (edges : List Edge) (g : TopologyGraph) (hg : Closed g) :
    Closed (edges.foldl addEdge g) := by
  induction edges generalizing g with
  | nil => exact hg
  | cons e rest ih => exact ih _ (closed_addEdge g e hg)

theorem closed_buildTopologyGraph (nodes : List Node) (edges : List Edge) :
    Closed (buildTopologyGraph nodes edges) := by
  unfold buildTopologyGraph
  apply closed_foldl_addEdge
  apply closed_of_no_connections
  apply initial_graph_no_connections
  intro n en h
  simp [mapGet] at h

theorem walk_suffix (graph : TopologyGraph) (b x : String) :
    ∀ (q : List Connection) (a : String), IsWalk graph a q b → x ∈ walkNodes a q →
      (walkNodes a q).Nodup → ∃ q2, IsWalk graph x q2 b ∧ (walkNodes x q2).Nodup := by
  intro q
  induction q with
  | nil =>
    intro a hw hx hn
    simp only [walkNodes, List.map_nil, List.mem_singleton] at hx
    exact ⟨[], by rw [hx]; exact hw, by simp [walkNodes]⟩
  | cons c rest ih =>
    intro a hw hx hn
    have hx1 : x = a ∨ x ∈ walkNodes c.target rest := by simpa [walkNodes] using hx
    rcases hx1 with e | e
    · exact ⟨c :: rest, by rw [e]; exact hw, by rw [e]; exact hn⟩
    · have hn1 : (walkNodes c.target rest).Nodup := by
        have : a ∉ walkNodes c.target rest ∧ (walkNodes c.target rest).Nodup := by
          simpa [walkNodes] using hn
        exact this.2
      exact ih c.target hw.2 e hn1

theorem simple_of_walk (graph : TopologyGraph) (b : String) :
    ∀ (p : List Connection) (a : String), IsWalk graph a p b →
      ∃ q, IsWalk graph a q b ∧ (walkNodes a q).Nodup := by
  intro p
  induction p with
  | nil =>
    intro a hw
    exact ⟨[], hw, by simp [walkNodes]⟩
  | cons c rest ih =>
    intro a hw
    obtain ⟨q1, hw1, hn1⟩ := ih c.target hw.2
    by_cases ha : a ∈ walkNodes c.target q1
    · exact walk_suffix graph b a q1 c.target hw1 ha hn1
    · refine ⟨c :: q1, ⟨hw.1, hw1⟩, ?_⟩
      have : (a :: walkNodes c.target q1).Nodup := List.nodup_cons.mpr ⟨ha, hn1⟩
      simpa [walkNodes] using this

theorem findChainPath_closed (graph : TopologyGraph) (hclosed : Closed graph) (s t : String) :
    (∃ q, findChainPath graph s t = some q ∧ IsWalk graph s q t ∧ (walkNodes s q).Nodup) ∨
    (findChainPath graph s t = none ∧ ¬ Reachable graph s t) := by
  by_cases hst : s = t
  · left
    refine ⟨[], ?_, hst, by simp [walkNodes]⟩
    simp [findChainPath, dfs, hst]
  · by_cases hkey : mapHas graph s = true
    · have hcount : unvisitedCount graph [] < graph.length + 1 :=
        Nat.lt_succ_of_le (unvisitedCount_le graph [])
      rcases dfs_ok graph hclosed t (graph.length + 1) s [] [] hkey (by simp) hcount with
        ⟨q, v', hres, hw, hn, _⟩ | ⟨hres, hnone⟩
      · left
        exact ⟨q, by simp [findChainPath, hres], hw, hn⟩
      · right
        refine ⟨by simp [findChainPath, hres], ?_⟩
        rintro ⟨p, hp⟩
        obtain ⟨q, hw, hn⟩ := simple_of_walk graph t p s hp
        exact hnone ⟨q, hw, hn, by simp⟩
    · right
      have hget : mapGet graph s = none := by
        unfold mapHas at hkey
        simpa using hkey
      refine ⟨by simp [findChainPath, dfs, hst, setHas, hget], ?_⟩
      rintro ⟨p, hp⟩
      cases p with
      | nil => exact hst hp
      | cons c rest =>
        have := hp.1
        simp [connectionsOf, hget] at this

/-- Claim C8: on a graph built by `buildTopologyGraph`, a path returned by `findChainPath` is a
connected walk from the source to the target, and the nodes along it (the source, then the
target of each connection) are pairwise distinct. -/
theorem findChainPath_walk (nodes : List Node) (edges : List Edge) (source target : String)
    (path : List Connection)
    (h : findChainPath (buildTopologyGraph nodes edges) source target = some path) :
    IsWalk (buildTopologyGraph nodes edges) source path target ∧
      (walkNodes source path).Nodup := by
  rcases findChainPath_closed _ (closed_buildTopologyGraph nodes edges) source target with
    ⟨q, hq, hw, hn⟩ | ⟨hnone, _⟩
  · rw [hq] at h
    cases h
    exact ⟨hw, hn⟩
  · rw [hnone] at h
    cases h

/-- Claim C9: on a graph built by `buildTopologyGraph`, for distinct source and target
`findChainPath` returns `null` exactly when no walk joins the source to the target, and a path
it returns is never empty; for equal source and target it returns the empty path. -/
theorem findChainPath_reachable (nodes : List Node) (edges : List Edge) (source target : String) :
    (source ≠ target →
      ((findChainPath (buildTopologyGraph nodes edges) source target = none ↔
          ¬ Reachable (buildTopologyGraph nodes edges) source target) ∧
        ∀ path, findChainPath (buildTopologyGraph nodes edges) source target = some path →
          path ≠ [])) ∧
    findChainPath (buildTopologyGraph nodes edges) source source = some [] := by
  constructor
  · intro hne
    rcases findChainPath_closed _ (closed_buildTopologyGraph nodes edges) source target with
      ⟨q, hq, hw, hn⟩ | ⟨hnone, hunreach⟩
    · have hsome : findChainPath (buildTopologyGraph nodes edges) source target ≠ none := by
        rw [hq]; exact Option.some_ne_none q
      refine ⟨⟨fun h => absurd h hsome, fun h => absurd ⟨q, hw⟩ h⟩, ?_⟩
      intro path hp hnil
      rw [hq] at hp
      cases hp
      rw [hnil] at hw
      exact hne hw
    · refine ⟨⟨fun _ => hunreach, fun _ => hnone⟩, ?_⟩
      intro path hp
      rw [hnone] at hp
      cases hp
  · simp [findChainPath, dfs]

theorem unvisitedCount_mono (graph : TopologyGraph) (v w : List String)
    (h : ∀ x ∈ v, x ∈ w) : unvisitedCount graph w ≤ unvisitedCount graph v := by
  unfold unvisitedCount
  apply Finset.card_le_card
  intro y
  simp only [Finset.mem_sdiff, List.mem_toFinset]
  exact fun hy => ⟨hy.1, fun hv => hy.2 (h y hv)⟩

theorem mem_setDelete (visited : List String) (x y : String) :
    y ∈ setDelete visited x ↔ y ∈ visited ∧ y ≠ x := by
  simp [setDelete]

theorem dfsLoop_returns (graph : TopologyGraph) (node : String) (path : List Connection)
    (depth : Nat)
    (call : String → List Connection → List String → Option DfsResult)
    (hcall : ∀ n p v, unvisitedCount graph v < depth → Returns v (call n p v)) :
    ∀ (cs : List Connection) (v : List String), unvisitedCount graph v < depth →
      ∃ r v', dfsLoop call node path cs v = some (r, v') ∧
        (r = none → ∀ x ∈ v, x ≠ node → x ∈ v') := by
  intro cs
  induction cs with
  | nil =>
    intro v _
    exact ⟨none, setDelete v node, rfl, fun _ x hx hne => (mem_setDelete _ _ _).mpr ⟨hx, hne⟩⟩
  | cons c rest ih =>
    intro v hv
    by_cases hc : setHas v c.target = true
    · have hstep : dfsLoop call node path (c :: rest) v = dfsLoop call node path rest v := by
        simp [dfsLoop, hc]
      rw [hstep]
      exact ih v hv
    · have hc1 : setHas v c.target = false := by simpa using hc
      obtain ⟨r, v1, hres, hkeep⟩ := hcall c.target (path ++ [c]) v hv
      cases r with
      | some q =>
        refine ⟨some q, v1, by simp [dfsLoop, hc1, hres], fun h => by cases h⟩
      | none =>
        have hstep : dfsLoop call node path (c :: rest) v = dfsLoop call node path rest v1 := by
          simp [dfsLoop, hc1, hres]
        rw [hstep]
        have hv1 : unvisitedCount graph v1 < depth :=
          Nat.lt_of_le_of_lt (unvisitedCount_mono graph v v1 (hkeep rfl)) hv
        obtain ⟨r2, v2, hres2, hkeep2⟩ := ih v1 hv1
        exact ⟨r2, v2, hres2, fun h x hx hne => hkeep2 h x (hkeep rfl x hx) hne⟩

theorem dfs_returns (graph : TopologyGraph) (t : String) :
    ∀ (depth : Nat) (node : String) (path : List Connection) (visited : List String),
      unvisitedCount graph visited < depth →
      Returns visited (dfs graph t depth node path visited) := by
  intro depth
  induction depth with
  | zero => intro node path visited h; exact absurd h (Nat.not_lt_zero _)
  | succ d ih =>
    intro node path visited hcount
    by_cases hnt : node = t
    · exact ⟨some path, visited, by simp [dfs, hnt], fun h => by cases h⟩
    · by_cases hs : setHas visited node = true
      · exact ⟨none, visited, by simp [dfs, hnt, hs], fun _ x hx => hx⟩
      · have hs1 : setHas visited node = false := by simpa using hs
        have hnv : node ∉ visited := fun h => hs ((setHas_iff _ _).mpr h)
        cases hentry : mapGet graph node with
        | none =>
          exact ⟨none, setAdd visited node, by simp [dfs, hnt, hs1, hentry],
            fun _ x hx => (mem_setAdd _ _ _).mpr (Or.inl hx)⟩
        | some entry =>
          have hkey : mapHas graph node = true := by simp [mapHas, hentry]
          have hlt : unvisitedCount graph (setAdd visited node) < d := by
            have := unvisitedCount_setAdd graph visited node hkey hnv
            omega
          have hdfs : dfs graph t (d + 1) node path visited =
              dfsLoop (dfs graph t d) node path entry.connections (setAdd visited node) := by
            simp [dfs, hnt, hs1, hentry]
          rw [hdfs]
          obtain ⟨r, v', hres, hkeep⟩ := dfsLoop_returns graph node path d (dfs graph t d)
            (fun n p v hv => ih n p v hv) entry.connections (setAdd visited node) hlt
          refine ⟨r, v', hres, fun h x hx => ?_⟩
          exact hkeep h x ((mem_setAdd _ _ _).mpr (Or.inl hx)) (fun e => hnv (e ▸ hx))

/-- The depth bound of `findChainPath` is never hit: the search returns on every graph. -/
theorem dfs_depth_suffices (graph : TopologyGraph) (source target : String) :
    ∃ r, dfs graph target (graph.length + 1) source [] [] = some r := by
  obtain ⟨r, v', hres, _⟩ := dfs_returns graph target (graph.length + 1) source [] []
    (Nat.lt_succ_of_le (unvisitedCount_le graph []))
  exact ⟨(r, v'), hres⟩

/-! ## `calculateChainLinkBudget` -/

theorem findNode_unbound (id : String) :
    findNode none id = Except.error (JsError.referenceError "nodes is not defined") := rfl

theorem chainStep_unbound (host : Host) (sourceNode : Node) (length : Nat) (state : ChainState)
    (i : Nat) (connection : Connection) :
    chainStep none host sourceNode length state i connection =
      Except.error (JsError.referenceError "nodes is not defined") := rfl

theorem chainLoop_unbound (host : Host) (sourceNode : Node) (length : Nat) (i : Nat)
    (connection : Connection) (rest : List Connection) (state : ChainState) :
    chainLoop none host sourceNode length i (connection :: rest) state =
      Except.error (JsError.referenceError "nodes is not defined") := rfl

theorem aggregateChain_unbound (host : Host) (sourceNode : Node) (edge : Edge)
    (connection : Connection) (rest : List Connection) :
    ∃ err, aggregateChain none host sourceNode edge (connection :: rest) = Except.error err := by
  unfold aggregateChain
  cases h : sourceNode.param "Puissance (dBm)" with
  | error e => exact ⟨e, rfl⟩
  | ok v => exact ⟨JsError.referenceError "nodes is not defined", rfl⟩

/-- Claim C4 (the code departs from it): whenever the path found between the source and the
target has two or more segments, `calculateChainLinkBudget` throws instead of returning an
aggregated result: a TypeError when the source node has no `data` or parameter map,
otherwise the ReferenceError of the unbound identifier `nodes` in the first loop iteration. -/
theorem calculateChainLinkBudget_chain_throws (host : Host) (sourceNode targetNode : Node)
    (edge : Edge) (topologyGraph : TopologyGraph) (chainPath : List Connection)
    (hpath : findChainPath topologyGraph sourceNode.id targetNode.id = some chainPath)
    (hlen : 2 ≤ chainPath.length) :
    ∃ err, calculateChainLinkBudget host sourceNode targetNode edge topologyGraph
      = Except.error err := by
  unfold calculateChainLinkBudget chainLinkBudgetIn nodesInScope
  cases hs : sourceNode.label with
  | error e => exact ⟨e, rfl⟩
  | ok ls =>
    cases ht : targetNode.label with
    | error e => exact ⟨e, rfl⟩
    | ok lt =>
      match chainPath, hlen, hpath with
      | c1 :: c2 :: rest, _, hpath =>
        obtain ⟨err, herr⟩ := aggregateChain_unbound host sourceNode edge c1 (c2 :: rest)
        refine ⟨err, ?_⟩
        simp only [bind, Except.bind, hpath]
        rw [herr]
        rfl

/-- Claim C7: when `findChainPath` returns `null` or the empty path, `calculateChainLinkBudget`
returns exactly what `calculateDirectLinkBudget(sourceNode, targetNode, edge)` returns on the
edge it was given, an exception of the direct model included. -/
theorem calculateChainLinkBudget_no_path (host : Host) (sourceNode targetNode : Node)
    (edge : Edge) (topologyGraph : TopologyGraph)
    (hpath : findChainPath topologyGraph sourceNode.id targetNode.id = none ∨
      findChainPath topologyGraph sourceNode.id targetNode.id = some []) :
    calculateChainLinkBudget host sourceNode targetNode edge topologyGraph =
      BudgetResult.direct <$> calculateDirectLinkBudget host sourceNode targetNode edge := by
  unfold calculateChainLinkBudget chainLinkBudgetIn
  cases hs : sourceNode.label with
  | error e => simp [calculateDirectLinkBudget, hs, bind, Except.bind, Functor.map, Except.map]
  | ok ls =>
    cases ht : targetNode.label with
    | error e => simp [calculateDirectLinkBudget, hs, ht, bind, Except.bind, Functor.map, Except.map]
    | ok lt =>
      rcases hpath with h | h <;> simp [h, bind, Except.bind]

theorem accumulate_of_regenerated (host : Host) (length : Nat) (state : ChainState) (i : Nat)
    (fromNode toNode : Node) (segmentResult : LinkBudgetResult) (fromLabel toLabel v : JsVal)
    (hfrom : fromNode.label = Except.ok fromLabel) (hto : toNode.label = Except.ok toLabel)
    (hv : toNode.param "Puissance (dBm)" = Except.ok v)
    (hreg : isRegenerativeNode host toNode = true) (hi : i + 1 < length) :
    accumulate host length state i fromNode toNode segmentResult = Except.ok
      { totalLoss := state.totalLoss
        totalLatency := state.totalLatency + segmentResult.latency
        minCapacity := Num.min state.minCapacity segmentResult.capacity
        currentPower := parseFloat (jsOr v (JsVal.num state.currentPower))
        segmentResults := state.segmentResults ++
          [{ fromLabel := fromLabel, toLabel := toLabel, loss := segmentResult.loss,
             isRegenerated := true,
             powerAfter := parseFloat (jsOr v (JsVal.num state.currentPower)) }] } := by
  simp [accumulate, hfrom, hto, hv, hreg, hi, bind, Except.bind, pure, Except.pure]

theorem accumulate_of_cumulative (host : Host) (length : Nat) (state : ChainState) (i : Nat)
    (fromNode toNode : Node) (segmentResult : LinkBudgetResult) (fromLabel toLabel : JsVal)
    (hfrom : fromNode.label = Except.ok fromLabel) (hto : toNode.label = Except.ok toLabel)
    (hcum : ¬ (isRegenerativeNode host toNode = true ∧ i + 1 < length)) :
    accumulate host length state i fromNode toNode segmentResult = Except.ok
      { totalLoss := state.totalLoss + segmentResult.loss
        totalLatency := state.totalLatency + segmentResult.latency
        minCapacity := Num.min state.minCapacity segmentResult.capacity
        currentPower := state.currentPower - segmentResult.loss
        segmentResults := state.segmentResults ++
          [{ fromLabel := fromLabel, toLabel := toLabel, loss := segmentResult.loss,
             isRegenerated := isRegenerativeNode host toNode,
             powerAfter := state.currentPower - segmentResult.loss }] } := by
  simp only [accumulate, hfrom, hto, bind, Except.bind, pure, Except.pure]
  rw [if_neg hcum]

theorem label_of_data (node : Node) (d : NodeData) (h : node.data = some d) :
    node.label = Except.ok d.label := by
  simp [Node.label, h]

theorem param_of_params (node : Node) (d : NodeData) (p : Params) (key : String)
    (h : node.data = some d) (hp : d.params = some p) :
    node.param key = Except.ok (p.get key) := by
  simp [Node.param, h, hp]

/-- In the loop body of `calculateChainLinkBudget`, once the two nodes of
segment `i` are at hand with their `data`, the update returns a state.  If the arrival node
is regenerative and the segment is not the last one (`i + 1 < length`) and the node carries a
parameter map, the running power becomes `parseFloat(declared power || running power)` and the
total loss is left as it was.  In every other case, the last segment with a regenerative
arrival node included, the segment's loss is added to the total loss and subtracted from the
running power. -/
theorem accumulate_power (host : Host) (length : Nat) (state : ChainState) (i : Nat)
    (fromNode toNode : Node) (segmentResult : LinkBudgetResult) (fromData toData : NodeData)
    (hfrom : fromNode.data = some fromData) (hto : toNode.data = some toData) :
    (∀ p, toData.params = some p → isRegenerativeNode host toNode = true → i + 1 < length →
      ∃ state1, accumulate host length state i fromNode toNode segmentResult = Except.ok state1 ∧
        state1.currentPower =
          parseFloat (jsOr (p.get "Puissance (dBm)") (JsVal.num state.currentPower)) ∧
        state1.totalLoss = state.totalLoss) ∧
    (¬ (isRegenerativeNode host toNode = true ∧ i + 1 < length) →
      ∃ state1, accumulate host length state i fromNode toNode segmentResult = Except.ok state1 ∧
        state1.currentPower = state.currentPower - segmentResult.loss ∧
        state1.totalLoss = state.totalLoss + segmentResult.loss) := by
  have h1 := label_of_data fromNode fromData hfrom
  have h2 := label_of_data toNode toData hto
  constructor
  · intro p hp hreg hi
    have h3 := param_of_params toNode toData p "Puissance (dBm)" hto hp
    exact ⟨_, accumulate_of_regenerated host length state i fromNode toNode segmentResult
      _ _ _ h1 h2 h3 hreg hi, rfl, rfl⟩
  · intro hcum
    exact ⟨_, accumulate_of_cumulative host length state i fromNode toNode segmentResult
      _ _ h1 h2 hcum, rfl, rfl⟩

/-! ## Claims settled on worked examples -/

/-- Claim C1 (the code departs from it): in the triangle `A–B`, `B–C`, `A–C` with passive
nodes, the chain found for the edge `A–C` has the two segments `A–B` and `B–C` of loss 5 dB
each.  `calculateChainLinkBudget` throws the ReferenceError of the unbound `nodes` instead of
returning a result; were `nodes` bound to the node list, it would return received power
20 − 10 = 10 dBm and loss 10 dB, the sum of the segment losses. -/
theorem passive_chain_budget_throws :
    calculateChainLinkBudget sampleHost (sampleNode "A" "Coupleur" 20)
        (sampleNode "C" "Coupleur" 10) (opticalEdge "e3" "A" "C" 50)
        (buildTopologyGraph passiveNodes triangleEdges)
      = Except.error (JsError.referenceError "nodes is not defined") ∧
    chainPowerAndLoss (chainLinkBudgetIn (some passiveNodes) sampleHost
        (sampleNode "A" "Coupleur" 20) (sampleNode "C" "Coupleur" 10)
        (opticalEdge "e3" "A" "C" 50) (buildTopologyGraph passiveNodes triangleEdges))
      = some (Num.fin 10, Num.fin 10) :=
  ⟨rfl, by decide!⟩

/-- Claim C2 (the code departs from it): in the triangle with the intermediate node `B` a
repeater declaring 23 dBm, `calculateChainLinkBudget` throws the ReferenceError of the unbound
`nodes`; were `nodes` bound to the node list, the running power would be 23 dBm after the
first segment and 23 − 5 = 18 dBm after the second. -/
theorem repeater_chain_budget_throws :
    calculateChainLinkBudget sampleHost (sampleNode "A" "Coupleur" 20)
        (sampleNode "C" "Coupleur" 10) (opticalEdge "e3" "A" "C" 50)
        (buildTopologyGraph repeaterNodes triangleEdges)
      = Except.error (JsError.referenceError "nodes is not defined") ∧
    chainPowers (chainLinkBudgetIn (some repeaterNodes) sampleHost
        (sampleNode "A" "Coupleur" 20) (sampleNode "C" "Coupleur" 10)
        (opticalEdge "e3" "A" "C" 50) (buildTopologyGraph repeaterNodes triangleEdges))
      = some [Num.fin 23, Num.fin 18] :=
  ⟨rfl, by decide!⟩

/-- Claim C3 (the code departs from it): in the square `A–B` (optical, capacity 8000), `B–C`
(twisted pair, capacity 1000), `C–D` (optical), `A–D`, the chain found for the edge `A–D` has
three segments.  `calculateChainLinkBudget` throws the ReferenceError of the unbound `nodes`;
were `nodes` bound to the node list, the capacity returned would be the minimum 1000. -/
theorem mixed_chain_budget_throws :
    calculateChainLinkBudget sampleHost (sampleNode "A" "Coupleur" 20)
        (sampleNode "D" "Coupleur" 10) (opticalEdge "e4" "A" "D" 40)
        (buildTopologyGraph squareNodes mixedEdges)
      = Except.error (JsError.referenceError "nodes is not defined") ∧
    chainCapacity (chainLinkBudgetIn (some squareNodes) sampleHost
        (sampleNode "A" "Coupleur" 20) (sampleNode "D" "Coupleur" 10)
        (opticalEdge "e4" "A" "D" 40) (buildTopologyGraph squareNodes mixedEdges))
      = some (Num.fin 1000) :=
  ⟨rfl, by decide!⟩

/-- Witness for claim C4: the chain found for the edge `A–C` of the triangle has two segments,
and the call throws. -/
theorem calculateChainLinkBudget_chain_throws_witness :
    ∃ err, calculateChainLinkBudget sampleHost (sampleNode "A" "Coupleur" 20)
        (sampleNode "C" "Coupleur" 10) (opticalEdge "e3" "A" "C" 50)
        (buildTopologyGraph passiveNodes triangleEdges) = Except.error err :=
  calculateChainLinkBudget_chain_throws sampleHost (sampleNode "A" "Coupleur" 20)
    (sampleNode "C" "Coupleur" 10) (opticalEdge "e3" "A" "C" 50)
    (buildTopologyGraph passiveNodes triangleEdges)
    [{ target := "B", edge := opticalEdge "e1" "A" "B" (45 / 2), reverse := false },
     { target := "C", edge := opticalEdge "e2" "B" "C" (45 / 2), reverse := false }]
    rfl (by decide)

/-- Claim C5 (the code departs from it): for the chain `A–B`, `B–C` found for the edge `A–C`
of the triangle, the loop computes the endpoint ids `(A, B)` and `(A, C)`: the second segment
is given the chain's source `A` as its from-node, not the node `B` where it starts.  With
`nodes` bound to the node list the per-segment breakdown carries the same labels. -/
theorem chain_segment_endpoints :
    (findChainPath (buildTopologyGraph passiveNodes triangleEdges) "A" "C").map
        (List.map (segmentEndpoints (sampleNode "A" "Coupleur" 20)))
      = some [("A", "B"), ("A", "C")] ∧
    chainSegmentLabels (chainLinkBudgetIn (some passiveNodes) sampleHost
        (sampleNode "A" "Coupleur" 20) (sampleNode "C" "Coupleur" 10)
        (opticalEdge "e3" "A" "C" 50) (buildTopologyGraph passiveNodes triangleEdges))
      = some [(JsVal.str "A", JsVal.str "B"), (JsVal.str "A", JsVal.str "C")] :=
  ⟨rfl, by decide!⟩

/-- Claim C6 (the code departs from it): in example scenario 3 (start power 20 dBm, two segments
of loss 5 dB, the last node `C` a repeater declaring 23 dBm) `calculateChainLinkBudget` throws
the ReferenceError of the unbound `nodes` instead of returning received power 23 dBm and loss
−3 dB.  Were `nodes` bound to the node list, the last segment would be accumulated, not
regenerated, because the loop resets the power only before the last segment: received power
20 − 5 − 5 = 10 dBm and loss 10 dB. -/
theorem scenario3_last_node_not_regenerated :
    calculateChainLinkBudget sampleHost (sampleNode "A" "Coupleur" 20)
        (sampleNode "C" "Répéteur" 23) (opticalEdge "e3" "A" "C" 50)
        (buildTopologyGraph scenario3Nodes triangleEdges)
      = Except.error (JsError.referenceError "nodes is not defined") ∧
    chainPowerAndLoss (chainLinkBudgetIn (some scenario3Nodes) sampleHost
        (sampleNode "A" "Coupleur" 20) (sampleNode "C" "Répéteur" 23)
        (opticalEdge "e3" "A" "C" 50) (buildTopologyGraph scenario3Nodes triangleEdges))
      = some (Num.fin 10, Num.fin 10) ∧
    chainPowerAndLoss (chainLinkBudgetIn (some scenario3Nodes) sampleHost
        (sampleNode "A" "Coupleur" 20) (sampleNode "C" "Répéteur" 23)
        (opticalEdge "e3" "A" "C" 50) (buildTopologyGraph scenario3Nodes triangleEdges))
      ≠ some (Num.fin 23, Num.fin (-3)) ∧
    isRegenerativeNode sampleHost (sampleNode "C" "Répéteur" 23) = true :=
  ⟨rfl, by decide!, by decide!, rfl⟩

/-- At the first of two segments, arriving at the repeater `B` that declares 23 dBm, the
running power 20 is replaced by 23 and the total loss stays 0. -/
theorem accumulate_power_witness :
    ∃ state1, accumulate sampleHost 2 initialState 0 (sampleNode "A" "Coupleur" 20)
        (sampleNode "B" "Répéteur" 23) sampleSegment = Except.ok state1 ∧
      state1.currentPower = Num.fin 23 ∧ state1.totalLoss = 0 :=
  (accumulate_power sampleHost 2 initialState 0 (sampleNode "A" "Coupleur" 20)
    (sampleNode "B" "Répéteur" 23) sampleSegment _ _ rfl rfl).1 _ rfl rfl (by decide)

/-- Witness for claim C7: without any edge in the graph no path joins `A` to `C`, and the call
returns the direct result on the edge it was given. -/
theorem calculateChainLinkBudget_no_path_witness :
    (findChainPath (buildTopologyGraph passiveNodes []) "A" "C" = none ∨
      findChainPath (buildTopologyGraph passiveNodes []) "A" "C" = some []) ∧
    calculateChainLinkBudget sampleHost (sampleNode "A" "Coupleur" 20)
        (sampleNode "C" "Coupleur" 10) (opticalEdge "e3" "A" "C" 50)
        (buildTopologyGraph passiveNodes []) =
      BudgetResult.direct <$> calculateDirectLinkBudget sampleHost
        (sampleNode "A" "Coupleur" 20) (sampleNode "C" "Coupleur" 10)
        (opticalEdge "e3" "A" "C" 50) :=
  ⟨Or.inl rfl, calculateChainLinkBudget_no_path sampleHost (sampleNode "A" "Coupleur" 20)
    (sampleNode "C" "Coupleur" 10) (opticalEdge "e3" "A" "C" 50)
    (buildTopologyGraph passiveNodes []) (Or.inl rfl)⟩

/-- Witness for claim C8: the path found from `A` to `C` in the triangle. -/
theorem findChainPath_walk_witness :
    IsWalk (buildTopologyGraph passiveNodes triangleEdges) "A"
        [{ target := "B", edge := opticalEdge "e1" "A" "B" (45 / 2), reverse := false },
         { target := "C", edge := opticalEdge "e2" "B" "C" (45 / 2), reverse := false }] "C" ∧
      (walkNodes "A"
        [{ target := "B", edge := opticalEdge "e1" "A" "B" (45 / 2), reverse := false },
         { target := "C", edge := opticalEdge "e2" "B" "C" (45 / 2), reverse := false }]).Nodup :=
  findChainPath_walk passiveNodes triangleEdges "A" "C" _ rfl

/-- Witness for claim C9: the distinct nodes `A` and `C` of the triangle. -/
theorem findChainPath_reachable_witness :
    (findChainPath (buildTopologyGraph passiveNodes triangleEdges) "A" "C" = none ↔
        ¬ Reachable (buildTopologyGraph passiveNodes triangleEdges) "A" "C") ∧
      ∀ path, findChainPath (buildTopologyGraph passiveNodes triangleEdges) "A" "C" = some path →
        path ≠ [] :=
  (findChainPath_reachable passiveNodes triangleEdges "A" "C").1 (by decide)

/-- Witness for claim C10: the triangle, whose node ids `A`, `B`, `C` are distinct. -/
theorem buildTopologyGraph_spec_witness :
    (passiveNodes.map Node.id).Nodup ∧
    (buildTopologyGraph passiveNodes triangleEdges).map Prod.fst = passiveNodes.map Node.id ∧
    ∀ n ∈ passiveNodes, mapGet (buildTopologyGraph passiveNodes triangleEdges) n.id =
      some { node := n, connections := specConnections passiveNodes triangleEdges n.id } :=
  ⟨by decide, buildTopologyGraph_spec passiveNodes triangleEdges (by decide)⟩

/-! ## The request handler -/

theorem num_add_zero (a : Num) : a + (0 : Num) = a := by
  cases a <;> first | rfl | (show Num.fin _ = Num.fin _; simp)

theorem num_add_assoc (a b c : Num) : a + b + c = a + (b + c) := by
  cases a <;> cases b <;> cases c <;>
    first | rfl | (show Num.fin _ = Num.fin _; rw [add_assoc])

theorem parseFloat_of_falsy (v : JsVal) (h : v.truthy = false) :
    parseFloat v = Num.nan ∨ parseFloat v = 0 := by
  cases v with
  | undefined => exact Or.inl rfl
  | null => exact Or.inl rfl
  | bool b => exact Or.inl rfl
  | num n =>
    cases n with
    | fin q =>
      right
      have : q = 0 := by simpa [JsVal.truthy, Num.truthy] using h
      subst this
      rfl
    | nan => exact Or.inl rfl
    | posInf => simp [JsVal.truthy, Num.truthy] at h
    | negInf => simp [JsVal.truthy, Num.truthy] at h
  | str s =>
    left
    have : s = "" := by simpa [JsVal.truthy] using h
    subst this
    rfl

theorem cost_step (t : Num) (v : JsVal) :
    (if parseFloatOr v 0 = Num.nan then t else t + parseFloatOr v 0) =
      t + (if parseFloat v = Num.nan then (0 : Num) else parseFloat v) := by
  unfold parseFloatOr jsOr
  cases h : v.truthy with
  | true =>
    simp only [if_true]
    by_cases hn : parseFloat v = Num.nan
    · simp [hn, num_add_zero]
    · simp [hn]
  | false =>
    have h0 : parseFloat (JsVal.num 0) = (0 : Num) := rfl
    have hne : (0 : Num) ≠ Num.nan := by decide
    simp only [Bool.false_eq_true, if_false, h0, if_neg hne]
    rcases parseFloat_of_falsy v h with e | e
    · simp [e]
    · simp [e, hne]

theorem addCost_of_wellFormed (t : Num) (node : Node) (h : node.WellFormed) :
    addCost t node = Except.ok (t + nodeCost node) := by
  obtain ⟨d, p, hd, hp⟩ := h
  have h1 : node.param "Coût unitaire (CFA)" = Except.ok (p.get "Coût unitaire (CFA)") := by
    simp [Node.param, hd, hp]
  have h2 : node.paramOpt "Coût unitaire (CFA)" = p.get "Coût unitaire (CFA)" := by
    simp [Node.paramOpt, hd, hp]
  have h3 := cost_step t (p.get "Coût unitaire (CFA)")
  unfold addCost nodeCost
  simp only [h1, h2, bind, Except.bind, pure, Except.pure]
  rw [← h3]
  split <;> rfl

theorem wellFormed_of_addCost (t t1 : Num) (node : Node) (h : addCost t node = Except.ok t1) :
    node.WellFormed := by
  unfold addCost Node.param at h
  cases hd : node.data with
  | none => simp [hd, bind, Except.bind] at h
  | some d =>
    cases hp : d.params with
    | none => simp [hd, hp, bind, Except.bind] at h
    | some p => exact ⟨d, p, hd, hp⟩

theorem sumCosts_of_wellFormed (nodes : List Node) (t : Num)
    (h : ∀ n ∈ nodes, n.WellFormed) :
    sumCosts t nodes = Except.ok (t + specTotalCost nodes) := by
  induction nodes generalizing t with
  | nil => simp [sumCosts, specTotalCost, pure, Except.pure, num_add_zero]
  | cons n rest ih =>
    have hn := addCost_of_wellFormed t n (h n (List.mem_cons_self _ _))
    have hrest := ih (t + nodeCost n) (fun m hm => h m (List.mem_cons_of_mem _ hm))
    simp only [sumCosts, hn, bind, Except.bind, hrest]
    rw [num_add_assoc]
    rfl

theorem wellFormed_of_sumCosts (nodes : List Node) (t c : Num)
    (h : sumCosts t nodes = Except.ok c) : ∀ n ∈ nodes, n.WellFormed := by
  induction nodes generalizing t with
  | nil => intro n hn; simp at hn
  | cons n rest ih =>
    simp only [sumCosts, bind, Except.bind] at h
    cases h1 : addCost t n with
    | error e => simp [h1] at h
    | ok t1 =>
      simp only [h1] at h
      intro m hm
      rcases List.mem_cons.mp hm with e | e
      · rw [e]; exact wellFormed_of_addCost t t1 n h1
      · exact ih t1 h m e

theorem handleCalculate_of_valid (host : Host) (nodes : List Node) (edges : List Edge)
    (hvalid : validationErrors nodes edges = []) (hnodes : ∀ n ∈ nodes, n.WellFormed) :
    handleCalculate host (some nodes) (some edges) =
      Response.success (edges.map (edgeEntry host nodes (buildTopologyGraph nodes edges)))
        (specTotalCost nodes) := by
  have hs := sumCosts_of_wellFormed nodes 0 hnodes
  have hz : (0 : Num) + specTotalCost nodes = specTotalCost nodes := by
    cases specTotalCost nodes <;> first | rfl | (show Num.fin _ = Num.fin _; simp)
  rw [hz] at hs
  simp [handleCalculate, hvalid, hs]

/-- Claim C19: when the request passes validation and every node carries a parameter map, the
handler answers with a total cost equal to the sum over all nodes of the node's
`Coût unitaire (CFA)` read as a number, a node whose parameter is absent or not numeric
counting for 0; and whenever the handler answers with a total cost, it is that sum. -/
theorem totalCost_spec (host : Host) (nodes : List Node) (edges : List Edge) :
    (validationErrors nodes edges = [] → (∀ n ∈ nodes, n.WellFormed) →
      ∃ results, handleCalculate host (some nodes) (some edges) =
        Response.success results (specTotalCost nodes)) ∧
    (∀ results totalCost, handleCalculate host (some nodes) (some edges) =
        Response.success results totalCost → totalCost = specTotalCost nodes) := by
  constructor
  · intro hvalid hnodes
    exact ⟨_, handleCalculate_of_valid host nodes edges hvalid hnodes⟩
  · intro results totalCost h
    unfold handleCalculate at h
    simp only at h
    split at h
    · cases h
    · cases hs : sumCosts 0 nodes with
      | error e => simp [hs] at h
      | ok c =>
        simp only [hs, Response.success.injEq] at h
        have hw := wellFormed_of_sumCosts nodes 0 c hs
        have hs2 := sumCosts_of_wellFormed nodes 0 hw
        rw [hs] at hs2
        have hz : (0 : Num) + specTotalCost nodes = specTotalCost nodes := by
          cases specTotalCost nodes <;> first | rfl | (show Num.fin _ = Num.fin _; simp)
        rw [hz] at hs2
        cases hs2
        exact h.2.symm

theorem find_none_iff (nodes : List Node) (k : String) :
    nodes.find? (fun n => decide (n.id = k)) = none ↔ k ∉ nodes.map Node.id := by
  rw [List.find?_eq_none]
  simp only [decide_eq_true_eq, List.mem_map, not_exists, not_and]

theorem edgeEntry_edgeId (host : Host) (nodes : List Node) (g : TopologyGraph) (edge : Edge) :
    (edgeEntry host nodes g edge).edgeId = edge.id := by
  unfold edgeEntry
  simp only
  split
  · split <;> rfl
  · rfl

theorem edgeEntry_of_dangling (host : Host) (nodes : List Node) (g : TopologyGraph)
    (edge : Edge) (h : Dangling nodes edge) :
    edgeEntry host nodes g edge = EdgeEntry.error edge.id "Source or target node not found" := by
  unfold edgeEntry
  simp only
  rcases h with h | h
  · rw [(find_none_iff nodes edge.source).mpr h]
  · rw [(find_none_iff nodes edge.target).mpr h]
    cases nodes.find? (fun n => decide (n.id = edge.source)) <;> rfl

theorem mapHas_mapSet (g : TopologyGraph) (k : String) (v : GraphEntry) (n : String) :
    mapHas (mapSet g k v) n = true ↔ n = k ∨ mapHas g n = true := by
  unfold mapHas
  rw [mapGet_mapSet]
  by_cases h : n = k
  · simp [h]
  · simp [h]

theorem mapHas_initial (nodes : List Node) (g : TopologyGraph) (k : String) :
    mapHas (nodes.foldl (fun g node => mapSet g node.id { node := node, connections := [] }) g) k
      = true ↔ mapHas g k = true ∨ k ∈ nodes.map Node.id := by
  induction nodes generalizing g with
  | nil => simp
  | cons n rest ih =>
    simp only [List.foldl_cons, List.map_cons, List.mem_cons]
    rw [ih, mapHas_mapSet]
    constructor
    · rintro ((h | h) | h)
      · exact Or.inr (Or.inl h)
      · exact Or.inl h
      · exact Or.inr (Or.inr h)
    · rintro (h | h | h)
      · exact Or.inl (Or.inr h)
      · exact Or.inl (Or.inl h)
      · exact Or.inr h

theorem mapHas_foldl_addEdge (edges : List Edge) (g : TopologyGraph) (k : String) :
    mapHas (edges.foldl addEdge g) k = mapHas g k := by
  rw [Bool.eq_iff_iff, mapHas_iff, mapHas_iff, foldl_addEdge_keys]

theorem addEdge_of_not (g : TopologyGraph) (e : Edge)
    (h : ¬ ((mapHas g e.source && mapHas g e.target) = true)) : addEdge g e = g := by
  unfold addEdge
  rw [if_neg h]

theorem buildTopologyGraph_skip_dangling (nodes : List Node) (pre post : List Edge) (bad : Edge)
    (h : Dangling nodes bad) :
    buildTopologyGraph nodes (pre ++ bad :: post) = buildTopologyGraph nodes (pre ++ post) := by
  unfold buildTopologyGraph
  simp only [List.foldl_append, List.foldl_cons]
  congr 1
  have hkey : ∀ k, mapHas (pre.foldl addEdge (nodes.foldl
      (fun g node => mapSet g node.id { node := node, connections := [] }) [])) k = true ↔
      k ∈ nodes.map Node.id := by
    intro k
    rw [mapHas_foldl_addEdge, mapHas_initial]
    simp [mapHas, mapGet]
  have hcond : ¬ ((mapHas (pre.foldl addEdge (nodes.foldl
      (fun g node => mapSet g node.id { node := node, connections := [] }) [])) bad.source &&
      mapHas (pre.foldl addEdge (nodes.foldl
      (fun g node => mapSet g node.id { node := node, connections := [] }) [])) bad.target)
      = true) := by
    rw [Bool.and_eq_true, hkey, hkey]
    rintro ⟨h1, h2⟩
    rcases h with h | h
    · exact h h1
    · exact h h2
  exact addEdge_of_not _ bad hcond

theorem validationErrors_append (nodes : List Node) (pre post : List Edge) :
    validationErrors nodes (pre ++ post) =
      validationErrors nodes pre ++ validationErrors nodes post := by
  simp [validationErrors, List.flatMap_append]

theorem validationErrors_remove (nodes : List Node) (pre post : List Edge) (bad : Edge)
    (h : validationErrors nodes (pre ++ bad :: post) = []) :
    validationErrors nodes (pre ++ post) = [] := by
  rw [validationErrors_append] at h ⊢
  rw [List.append_eq_nil] at h ⊢
  refine ⟨h.1, ?_⟩
  have h2 := h.2
  have : validationErrors nodes (bad :: post) =
      validateEdge nodes bad ++ validationErrors nodes post := by
    simp [validationErrors]
  rw [this, List.append_eq_nil] at h2
  exact h2.2

/-- Claim C16: for a request that passes validation and whose nodes all carry a parameter map,
the handler answers with a results list that has one entry per input edge, in input order,
each carrying its edge's id; whatever the computation of an edge throws, the request as a
whole succeeds.  An edge whose source or target id is not a node id has the entry
`{edgeId, error: 'Source or target node not found'}` at its position, and the entries before
and after it, and the total cost, are those of the request without that edge. -/
theorem results_per_edge (host : Host) (nodes : List Node) (edges : List Edge)
    (hvalid : validationErrors nodes edges = []) (hnodes : ∀ n ∈ nodes, n.WellFormed) :
    ∃ results totalCost,
      handleCalculate host (some nodes) (some edges) = Response.success results totalCost ∧
      results.map EdgeEntry.edgeId = edges.map Edge.id ∧
      ∀ pre bad post, edges = pre ++ bad :: post → Dangling nodes bad →
        ∃ before after,
          results = before ++
            EdgeEntry.error bad.id "Source or target node not found" :: after ∧
          before.length = pre.length ∧
          handleCalculate host (some nodes) (some (pre ++ post)) =
            Response.success (before ++ after) totalCost := by
  refine ⟨_, _, handleCalculate_of_valid host nodes edges hvalid hnodes, ?_, ?_⟩
  · rw [List.map_map]
    apply List.map_congr_left
    intro e _
    exact edgeEntry_edgeId host nodes _ e
  · intro pre bad post hedges hbad
    subst hedges
    have hvalid2 := validationErrors_remove nodes pre post bad hvalid
    refine ⟨pre.map (edgeEntry host nodes (buildTopologyGraph nodes (pre ++ post))),
      post.map (edgeEntry host nodes (buildTopologyGraph nodes (pre ++ post))), ?_, ?_, ?_⟩
    · rw [buildTopologyGraph_skip_dangling nodes pre post bad hbad]
      simp only [List.map_append, List.map_cons]
      rw [edgeEntry_of_dangling host nodes _ bad hbad]
    · simp
    · rw [handleCalculate_of_valid host nodes (pre ++ post) hvalid2 hnodes]
      simp

/-! ## The interpolating host is exact -/

theorem interpolatedPow_pos (a e : ℚ) (ha : 0 < a) : 0 < interpolatedPow a e := by
  unfold interpolatedPow
  apply mul_pos (zpow_pos ha _)
  have h0 : 0 ≤ Int.fract e := Int.fract_nonneg e
  have h1 : Int.fract e < 1 := Int.fract_lt_one e
  nlinarith

theorem intLog_of_bounds (b : ℕ) (hb : 1 < b) (q : ℚ) (n : ℤ) (hq : 0 < q)
    (hlo : (b : ℚ) ^ n ≤ q) (hhi : q < (b : ℚ) ^ (n + 1)) : Int.log b q = n := by
  apply le_antisymm
  · have := (Int.lt_zpow_iff_log_lt hb hq).mp hhi
    omega
  · exact (Int.zpow_le_iff_le_log hb hq).mp hlo

theorem interpolatedLog_pow (e : ℚ) : interpolatedLog 10 (interpolatedPow 10 e) = e := by
  have hpos : 0 < interpolatedPow 10 e := interpolatedPow_pos 10 e (by norm_num)
  have h0 : 0 ≤ Int.fract e := Int.fract_nonneg e
  have h1 : Int.fract e < 1 := Int.fract_lt_one e
  have hz : (0 : ℚ) < (10 : ℚ) ^ Int.floor e := zpow_pos (by norm_num) _
  have hlog : Int.log 10 (interpolatedPow 10 e) = Int.floor e := by
    apply intLog_of_bounds 10 (by norm_num) _ _ hpos
    · unfold interpolatedPow
      push_cast
      nlinarith
    · unfold interpolatedPow
      push_cast
      rw [zpow_add_one₀ (by norm_num : (10 : ℚ) ≠ 0)]
      nlinarith
  unfold interpolatedLog
  rw [if_pos hpos, hlog]
  unfold interpolatedPow
  push_cast
  rw [mul_div_cancel_left₀ _ (ne_of_gt hz)]
  have := Int.floor_add_fract e
  linarith

theorem interpolatedLog_zpow (b : ℕ) (hb : 1 < b) (n : ℤ) :
    interpolatedLog b ((b : ℚ) ^ n) = n := by
  have hb0 : (0 : ℚ) < (b : ℚ) := by exact_mod_cast (by omega : 0 < b)
  have hpos : (0 : ℚ) < (b : ℚ) ^ n := zpow_pos hb0 _
  unfold interpolatedLog
  rw [if_pos hpos, Int.log_zpow hb, div_self (ne_of_gt hpos)]
  simp

theorem interpolatedLog_two_pos (a : ℚ) (ha : 1 < a) : 0 < interpolatedLog 2 a := by
  have hpos : 0 < a := by linarith
  have hn : 0 ≤ Int.log 2 a := by
    apply (Int.zpow_le_iff_le_log (by norm_num) hpos).mp
    simpa using le_of_lt ha
  have hle : ((2 : ℕ) : ℚ) ^ Int.log 2 a ≤ a := Int.zpow_log_le_self (by norm_num) hpos
  have hz : (0 : ℚ) < ((2 : ℕ) : ℚ) ^ Int.log 2 a := zpow_pos (by norm_num) _
  unfold interpolatedLog
  rw [if_pos hpos]
  have hdiv : 1 ≤ a / ((2 : ℕ) : ℚ) ^ Int.log 2 a := by
    rw [le_div_iff₀ hz]
    simpa using hle
  rcases eq_or_lt_of_le hn with h0 | h0
  · rw [← h0]
    simp
    linarith
  · have h1 : (1 : ℚ) ≤ (Int.log 2 a : ℚ) := by exact_mod_cast h0
    have : (0 : ℚ) ≤ (a / ((2 : ℕ) : ℚ) ^ Int.log 2 a - 1) / (((2 : ℕ) : ℚ) - 1) := by
      apply div_nonneg
      · linarith
      · norm_num
    linarith

theorem exactMath_interpolating : ExactMath interpolatingMath where
  pow_pos := fun e => interpolatedPow_pos 10 e (by norm_num)
  log10_zpow := fun n => by
    have := interpolatedLog_zpow 10 (by norm_num) n
    simpa [interpolatingMath] using this
  log10_pow := fun e => interpolatedLog_pow e
  log2_pos := fun a ha => interpolatedLog_two_pos a ha

/-! ## `calculateDirectLinkBudget`: stages and totality -/

theorem except_ok_bind {ε α β : Type} (a : α) (f : α → Except ε β) :
    (Except.ok a >>= f) = f a := rfl

theorem except_bind_pure_eq_map {ε α β : Type} (x : Except ε α) (f : α → β) :
    (x >>= fun a => pure (f a)) = x.map f := by
  cases x <;> rfl

theorem calculateDirectLinkBudget_stages (host : Host) (sourceNode targetNode : Node)
    (edge : Edge) (sd td : NodeData) (sp : Params)
    (hs : sourceNode.data = some sd) (hsp : sd.params = some sp)
    (ht : targetNode.data = some td) :
    calculateDirectLinkBudget host sourceNode targetNode edge =
      (selectBranch host sourceNode targetNode edge (linkTypeOf edge) (transmitPower sp)
          (linkDistance edge) (rawBitrate host edge)).map
        (finishResult host sourceNode edge (linkTypeOf edge) (transmitPower sp)
          (rawBitrate host edge) (sp.get "Bande passante (kHz)")) := by
  have h1 : sourceNode.label = Except.ok sd.label := by simp [Node.label, hs]
  have h2 : targetNode.label = Except.ok td.label := by simp [Node.label, ht]
  have h3 : ∀ key, sourceNode.param key = Except.ok (sp.get key) := by
    intro key; simp [Node.param, hs, hsp]
  unfold calculateDirectLinkBudget
  simp only [h1, h2, h3, except_ok_bind]
  rw [← except_bind_pure_eq_map]
  unfold selectBranch linkTypeOf transmitPower linkDistance rawBitrate finishResult
    shannonBandwidth snrLinearOf
  split
  · rfl
  · split
    · rfl
    · split
      · split
        · rfl
        · rfl
      · rfl

theorem param_of_wellFormed (node : Node) (d : NodeData) (p : Params)
    (hd : node.data = some d) (hp : d.params = some p) (key : String) :
    node.param key = Except.ok (p.get key) := by
  simp [Node.param, hd, hp]

theorem cellularBranch_ok (host : Host) (txNode rxNode : Node) (edge : Edge) (s : String)
    (distance bitrate : Num) (sd td : NodeData) (sp tp : Params)
    (hs : txNode.data = some sd) (hsp : sd.params = some sp)
    (ht : rxNode.data = some td) (htp : td.params = some tp) :
    ∃ vars, cellularBranch host txNode rxNode edge s distance bitrate = Except.ok vars ∧
      vars.capacity = 0 := by
  have h1 := param_of_wellFormed txNode sd sp hs hsp
  have h2 := param_of_wellFormed rxNode td tp ht htp
  unfold cellularBranch
  simp only [h1, h2, except_ok_bind]
  split
  · exact ⟨_, rfl, rfl⟩
  · split
    · exact ⟨_, rfl, rfl⟩
    · split
      · exact ⟨_, rfl, rfl⟩
      · exact ⟨_, rfl, rfl⟩

theorem hertzienBranch_ok (host : Host) (txNode rxNode : Node) (edge : Edge)
    (power distance : Num) (sd td : NodeData) (sp tp : Params)
    (hs : txNode.data = some sd) (hsp : sd.params = some sp)
    (ht : rxNode.data = some td) (htp : td.params = some tp) :
    ∃ vars, hertzienBranch host txNode rxNode edge power distance = Except.ok vars ∧
      vars.capacity = 0 := by
  have h1 := param_of_wellFormed txNode sd sp hs hsp
  have h2 := param_of_wellFormed rxNode td tp ht htp
  unfold hertzienBranch
  simp only [h1, h2, except_ok_bind]
  exact ⟨_, rfl, rfl⟩

theorem selectBranch_ok (host : Host) (txNode rxNode : Node) (edge : Edge) (linkType : JsVal)
    (power distance bitrate : Num) (sd td : NodeData) (sp tp : Params)
    (hs : txNode.data = some sd) (hsp : sd.params = some sp)
    (ht : rxNode.data = some td) (htp : td.params = some tp) :
    ∃ vars, selectBranch host txNode rxNode edge linkType power distance bitrate
        = Except.ok vars ∧
      (linkType = JsVal.str "Optique" → vars = opticalBranch edge power distance) ∧
      (linkType = JsVal.str "RJ45" → vars = rj45Branch edge distance) ∧
      (linkType ≠ JsVal.str "Optique" → linkType ≠ JsVal.str "RJ45" → vars.capacity = 0) := by
  unfold selectBranch
  by_cases c1 : linkType = JsVal.str "Optique"
  · rw [if_pos c1]
    refine ⟨_, rfl, fun _ => rfl, ?_, fun h => absurd c1 h⟩
    intro h
    rw [c1] at h
    exact absurd h (by decide)
  · rw [if_neg c1]
    by_cases c2 : linkType = JsVal.str "RJ45"
    · rw [if_pos c2]
      exact ⟨_, rfl, fun h => absurd h c1, fun _ => rfl, fun _ h => absurd c2 h⟩
    · rw [if_neg c2]
      have hcases : ∃ vars, (match linkType with
          | JsVal.str s =>
            if isCellular linkType then
              cellularBranch host txNode rxNode edge s distance bitrate
            else hertzienBranch host txNode rxNode edge power distance
          | _ => hertzienBranch host txNode rxNode edge power distance) = Except.ok vars ∧
          vars.capacity = 0 := by
        split
        · split
          · exact cellularBranch_ok host txNode rxNode edge _ distance bitrate sd td sp tp
              hs hsp ht htp
          · exact hertzienBranch_ok host txNode rxNode edge power distance sd td sp tp
              hs hsp ht htp
        · exact hertzienBranch_ok host txNode rxNode edge power distance sd td sp tp
            hs hsp ht htp
      obtain ⟨vars, hv, hc⟩ := hcases
      exact ⟨vars, hv, fun h => absurd h c1, fun h => absurd h c2, fun _ _ => hc⟩

/-- With a `data` object and a parameter map on both nodes the direct model returns a result,
whatever the edge declares or leaves out. -/
theorem calculateDirectLinkBudget_total (host : Host) (sourceNode targetNode : Node)
    (edge : Edge) (hs : sourceNode.WellFormed) (ht : targetNode.WellFormed) :
    ∃ r, calculateDirectLinkBudget host sourceNode targetNode edge = Except.ok r := by
  obtain ⟨sd, sp, hsd, hsp⟩ := hs
  obtain ⟨td, tp, htd, htp⟩ := ht
  rw [calculateDirectLinkBudget_stages host sourceNode targetNode edge sd td sp hsd hsp htd]
  obtain ⟨vars, hv, _⟩ := selectBranch_ok host sourceNode targetNode edge (linkTypeOf edge)
    (transmitPower sp) (linkDistance edge) (rawBitrate host edge) sd td sp tp hsd hsp htd htp
  rw [hv]
  exact ⟨_, rfl⟩

theorem parseFloatOr_num (a : ℚ) (h : a ≠ 0) (d : Num) :
    parseFloatOr (JsVal.num (Num.fin a)) d = Num.fin a := by
  simp [parseFloatOr, jsOr, JsVal.truthy, Num.truthy, h, parseFloat]

theorem parseFloatOr_undefined (d : Num) : parseFloatOr JsVal.undefined d = d := rfl

theorem parseFloatOr_zero (d : Num) : parseFloatOr (JsVal.num 0) d = d := by
  simp only [parseFloatOr, jsOr]
  rfl

theorem linkTypeOf_of_str (edge : Edge) (s : String) (h : edge.param "Type liaison" = JsVal.str s)
    (hs : s ≠ "") : linkTypeOf edge = JsVal.str s := by
  simp [linkTypeOf, jsOr, h, JsVal.truthy, hs]

theorem calculateDirectLinkBudget_result (host : Host) (sourceNode targetNode : Node)
    (edge : Edge) (sd td : NodeData) (sp tp : Params)
    (hs : sourceNode.data = some sd) (hsp : sd.params = some sp)
    (ht : targetNode.data = some td) (htp : td.params = some tp) :
    ∃ vars,
      calculateDirectLinkBudget host sourceNode targetNode edge =
        Except.ok (finishResult host sourceNode edge (linkTypeOf edge) (transmitPower sp)
          (rawBitrate host edge) (sp.get "Bande passante (kHz)") vars) ∧
      selectBranch host sourceNode targetNode edge (linkTypeOf edge) (transmitPower sp)
        (linkDistance edge) (rawBitrate host edge) = Except.ok vars ∧
      (linkTypeOf edge = JsVal.str "Optique" →
        vars = opticalBranch edge (transmitPower sp) (linkDistance edge)) ∧
      (linkTypeOf edge = JsVal.str "RJ45" → vars = rj45Branch edge (linkDistance edge)) ∧
      (linkTypeOf edge ≠ JsVal.str "Optique" → linkTypeOf edge ≠ JsVal.str "RJ45" →
        vars.capacity = 0) := by
  obtain ⟨vars, hv, h1, h2, h3⟩ := selectBranch_ok host sourceNode targetNode edge
    (linkTypeOf edge) (transmitPower sp) (linkDistance edge) (rawBitrate host edge)
    sd td sp tp hs hsp ht htp
  refine ⟨vars, ?_, hv, h1, h2, h3⟩
  rw [calculateDirectLinkBudget_stages host sourceNode targetNode edge sd td sp hs hsp ht, hv]
  rfl

/-! ## Optical and twisted-pair links -/

/-- Claim C11 (counterexample): on the optical edge of example scenario 1 with the splice loss
declared as 0 (10 km, 0.2 dB/km, connector loss 0.4 dB) the returned loss is 2.5 dB, the value
for the default splice loss 0.1 dB, and not `0.2 * 10 + 0.4 + 0 = 2.4` dB. -/
theorem optical_zero_splice_loss :
    directLoss (calculateDirectLinkBudget sampleHost (paramNode "A" []) (paramNode "B" [])
      (scenario1Edge 0)) = some 2.5 ∧
    (2.5 : Num) ≠ Num.fin (0.2 * 10 + 0.4 + 0) := by
  constructor
  · decide!
  · decide!

/-- Claim C11 (amended): for an optical edge that declares non-zero numbers for the distance `d`,
the attenuation `a`, the connector loss `c` and the splice loss `s`, between two nodes that carry
a parameter map, `calculateDirectLinkBudget` returns a result with loss `a * d + c + s`. -/
theorem optical_loss_formula (host : Host) (sourceNode targetNode : Node) (edge : Edge)
    (d a c s : ℚ) (hsource : sourceNode.WellFormed) (htarget : targetNode.WellFormed)
    (htype : edge.param "Type liaison" = JsVal.str "Optique")
    (hd : edge.param "Portée (km)" = JsVal.num (Num.fin d)) (hd0 : d ≠ 0)
    (ha : edge.param "Atténuation (dB/km)" = JsVal.num (Num.fin a)) (ha0 : a ≠ 0)
    (hc : edge.param "Perte connecteurs (dB)" = JsVal.num (Num.fin c)) (hc0 : c ≠ 0)
    (hsl : edge.param "Perte épissures (dB)" = JsVal.num (Num.fin s)) (hs0 : s ≠ 0) :
    ∃ r, calculateDirectLinkBudget host sourceNode targetNode edge = Except.ok r ∧
      r.loss = Num.fin (a * d + c + s) := by
  obtain ⟨sd, sp, hsd, hsp⟩ := hsource
  obtain ⟨td, tp, htd, htp⟩ := htarget
  obtain ⟨vars, hres, _, hopt, _, _⟩ := calculateDirectLinkBudget_result host sourceNode
    targetNode edge sd td sp tp hsd hsp htd htp
  refine ⟨_, hres, ?_⟩
  have hv := hopt (linkTypeOf_of_str edge "Optique" htype (by decide))
  show vars.loss = _
  rw [hv]
  simp only [opticalBranch, linkDistance, hd, ha, hc, hsl, parseFloatOr_num _ hd0,
    parseFloatOr_num _ ha0, parseFloatOr_num _ hc0, parseFloatOr_num _ hs0]
  rfl

/-- Example scenario 1: distance 10 km, attenuation 0.2 dB/km, connector loss 0.4 dB and splice
loss 0.1 dB give the loss 2.5 dB. -/
theorem optical_loss_formula_witness :
    ∃ r, calculateDirectLinkBudget sampleHost (paramNode "A" []) (paramNode "B" [])
        (scenario1Edge 0.1) = Except.ok r ∧
      r.loss = Num.fin (1 / 5 * 10 + 2 / 5 + 1 / 10) :=
  optical_loss_formula sampleHost (paramNode "A" []) (paramNode "B" []) (scenario1Edge 0.1)
    10 (1 / 5) (2 / 5) (1 / 10) ⟨_, _, rfl, rfl⟩ ⟨_, _, rfl, rfl⟩ (by decide!) (by decide!)
    (by decide!) (by decide!) (by decide!) (by decide!) (by decide!) (by decide!) (by decide!)

/-- Claim C12 (counterexample): on the twisted-pair edge of example scenario 2 with the
attenuation declared as 0 dB/100m (0.05 km) the returned loss is 9.9 dB, the value for the
default attenuation 19.8 dB/100m, and not `0 * (1000 * 0.05) / 100 = 0` dB. -/
theorem rj45_zero_attenuation :
    directLossAndCoverage (calculateDirectLinkBudget sampleHost (paramNode "A" [])
      (paramNode "B" []) (scenario2Edge 0)) = some (9.9, 0.1) ∧
    (9.9 : Num) ≠ Num.fin (0 * (1000 * 0.05) / 100) := by
  constructor
  · decide!
  · decide!

/-- Claim C12 (amended): for a twisted-pair edge between two nodes that carry a parameter map,
`calculateDirectLinkBudget` returns a result with coverage 0.1 km, whatever the edge declares;
when the edge declares non-zero numbers for the distance `d` (km) and the attenuation `a`
(dB/100m), the loss is `a * (1000 * d) / 100`. -/
theorem rj45_loss_formula (host : Host) (sourceNode targetNode : Node) (edge : Edge)
    (hsource : sourceNode.WellFormed) (htarget : targetNode.WellFormed)
    (htype : edge.param "Type liaison" = JsVal.str "RJ45") :
    ∃ r, calculateDirectLinkBudget host sourceNode targetNode edge = Except.ok r ∧
      r.coverage = 0.1 ∧
      ∀ d a : ℚ, edge.param "Portée (km)" = JsVal.num (Num.fin d) → d ≠ 0 →
        edge.param "Atténuation (dB/100m)" = JsVal.num (Num.fin a) → a ≠ 0 →
        r.loss = Num.fin (a * (1000 * d) / 100) := by
  obtain ⟨sd, sp, hsd, hsp⟩ := hsource
  obtain ⟨td, tp, htd, htp⟩ := htarget
  obtain ⟨vars, hres, _, _, hrj, _⟩ := calculateDirectLinkBudget_result host sourceNode
    targetNode edge sd td sp tp hsd hsp htd htp
  have hv := hrj (linkTypeOf_of_str edge "RJ45" htype (by decide))
  refine ⟨_, hres, ?_, ?_⟩
  · show vars.coverage = _
    rw [hv]
    rfl
  · intro d a hd hd0 ha ha0
    show vars.loss = _
    rw [hv]
    simp only [rj45Branch, linkDistance, hd, ha, parseFloatOr_num _ hd0, parseFloatOr_num _ ha0]
    show Num.fin (a * (d * 1000) / 100) = _
    congr 1
    ring

/-- Example scenario 2: distance 0.05 km and attenuation 19.8 dB/100m give the loss 9.9 dB and
the coverage 0.1 km. -/
theorem rj45_loss_formula_witness :
    ∃ r, calculateDirectLinkBudget sampleHost (paramNode "A" []) (paramNode "B" [])
        (scenario2Edge 19.8) = Except.ok r ∧
      r.coverage = 0.1 ∧ r.loss = 9.9 := by
  obtain ⟨r, h1, h2, h3⟩ := rj45_loss_formula sampleHost (paramNode "A" []) (paramNode "B" [])
    (scenario2Edge 19.8) ⟨_, _, rfl, rfl⟩ ⟨_, _, rfl, rfl⟩ (by decide!)
  refine ⟨r, h1, h2, ?_⟩
  rw [h3 (1 / 20) (99 / 5) (by decide!) (by decide!) (by decide!) (by decide!)]
  decide!

/-- Claim C21 (counterexample): an optical edge of 10 km with connector loss 0.4 dB and splice
loss 0.1 dB that declares the attenuation 0 dB/km has the loss 2.5 dB, computed with the default
0.2 dB/km, and not the connector loss plus the splice loss, 0.5 dB; it is the loss of the same
edge declaring 0.2 dB/km. -/
theorem declared_zero_attenuation_replaced :
    directLoss (calculateDirectLinkBudget sampleHost (paramNode "A" []) (paramNode "B" [])
      (attenuationEdge 0)) = some 2.5 ∧
    directLoss (calculateDirectLinkBudget sampleHost (paramNode "A" []) (paramNode "B" [])
      (attenuationEdge 0.2)) = some 2.5 ∧
    (2.5 : Num) ≠ Num.fin (0 * 10 + 0.4 + 0.1) := by
  refine ⟨?_, ?_, ?_⟩
  · decide!
  · decide!
  · decide!

/-- Claim C21 (amended): the default attenuation is substituted when the key is absent and also
when the declared value is the number 0.  For an optical edge between two nodes that carry a
parameter map, a declared non-zero attenuation `a` is used as declared, so that the loss is
`a * distance + connector loss + splice loss`; an edge that declares no attenuation or the
attenuation 0 has the loss `0.2 * distance + connector loss + splice loss`. -/
theorem attenuation_default (host : Host) (sourceNode targetNode : Node) (edge : Edge)
    (hsource : sourceNode.WellFormed) (htarget : targetNode.WellFormed)
    (htype : edge.param "Type liaison" = JsVal.str "Optique") :
    ∃ r, calculateDirectLinkBudget host sourceNode targetNode edge = Except.ok r ∧
      (∀ a : ℚ, edge.param "Atténuation (dB/km)" = JsVal.num (Num.fin a) → a ≠ 0 →
        r.loss = Num.fin a * linkDistance edge +
          parseFloatOr (edge.param "Perte connecteurs (dB)") 0.4 +
          parseFloatOr (edge.param "Perte épissures (dB)") 0.1) ∧
      (edge.param "Atténuation (dB/km)" = JsVal.undefined ∨
          edge.param "Atténuation (dB/km)" = JsVal.num 0 →
        r.loss = 0.2 * linkDistance edge +
          parseFloatOr (edge.param "Perte connecteurs (dB)") 0.4 +
          parseFloatOr (edge.param "Perte épissures (dB)") 0.1) := by
  obtain ⟨sd, sp, hsd, hsp⟩ := hsource
  obtain ⟨td, tp, htd, htp⟩ := htarget
  obtain ⟨vars, hres, _, hopt, _, _⟩ := calculateDirectLinkBudget_result host sourceNode
    targetNode edge sd td sp tp hsd hsp htd htp
  have hv := hopt (linkTypeOf_of_str edge "Optique" htype (by decide))
  refine ⟨_, hres, ?_, ?_⟩
  · intro a ha ha0
    show vars.loss = _
    rw [hv]
    simp only [opticalBranch, ha, parseFloatOr_num _ ha0]
  · intro h
    show vars.loss = _
    rw [hv]
    rcases h with h | h
    · simp only [opticalBranch, h, parseFloatOr_undefined]
    · simp only [opticalBranch, h, parseFloatOr_zero]

/-- The declared attenuation 0.3 dB/km is used, the declared attenuation 0 is not: over 10 km
with connector loss 0.4 dB and splice loss 0.1 dB the losses are 3.5 dB and 2.5 dB. -/
theorem attenuation_default_witness :
    (∃ r, calculateDirectLinkBudget sampleHost (paramNode "A" []) (paramNode "B" [])
        (attenuationEdge 0.3) = Except.ok r ∧ r.loss = 3.5) ∧
    (∃ r, calculateDirectLinkBudget sampleHost (paramNode "A" []) (paramNode "B" [])
        (attenuationEdge 0) = Except.ok r ∧ r.loss = 2.5) := by
  constructor
  · obtain ⟨r, h1, h2, _⟩ := attenuation_default sampleHost (paramNode "A" [])
      (paramNode "B" []) (attenuationEdge 0.3) ⟨_, _, rfl, rfl⟩ ⟨_, _, rfl, rfl⟩ (by decide!)
    refine ⟨r, h1, ?_⟩
    rw [h2 (3 / 10) (by decide!) (by decide!)]
    decide!
  · obtain ⟨r, h1, _, h3⟩ := attenuation_default sampleHost (paramNode "A" [])
      (paramNode "B" []) (attenuationEdge 0) ⟨_, _, rfl, rfl⟩ ⟨_, _, rfl, rfl⟩ (by decide!)
    refine ⟨r, h1, ?_⟩
    rw [h3 (Or.inr (by decide!))]
    decide!

/-! ## Defaults of missing parameters -/

set_option maxRecDepth 100000 in
/-- Claim C13: between two nodes that carry a parameter map the direct model returns a result
whatever the edge leaves out, and an optical edge without an attenuation gives the result of the
edge declaring 0.2 dB/km.  The result for a missing parameter is not always the result for its
default, because one key is read with different defaults.  A 5G mmWave edge without
`Bande passante (MHz)` gets the cellular capacity of the edge declaring 400 MHz and the
numerology block of the edge declaring 100 MHz: 3333 subcarriers where the edge declaring the
mmWave default 400 MHz reports 13333.  A UMTS edge without `Portée (km)` gets the loss of the
distance 0.1 km and the reuse distance of the cell radius 2 km. -/
theorem missing_parameter_defaults (host : Host) :
    (∀ (sourceNode targetNode : Node) (edge : Edge),
      sourceNode.WellFormed → targetNode.WellFormed →
      ∃ r, calculateDirectLinkBudget host sourceNode targetNode edge = Except.ok r) ∧
    calculateDirectLinkBudget host (paramNode "A" []) (paramNode "B" []) (fibreEdge []) =
      calculateDirectLinkBudget host (paramNode "A" []) (paramNode "B" [])
        (fibreEdge [("Atténuation (dB/km)", JsVal.num 0.2)]) ∧
    directNumerology (calculateDirectLinkBudget host (paramNode "A" []) (paramNode "B" [])
        (fiveGEdge "mmWave" [])) =
      some { subcarrierSpacing := 30, numberOfSubcarriers := 3333, slotDuration := 0.5,
             numerology := 1 } ∧
    directNumerology (calculateDirectLinkBudget host (paramNode "A" []) (paramNode "B" [])
        (fiveGEdge "mmWave" [("Bande passante (MHz)", JsVal.num 400)])) =
      some { subcarrierSpacing := 30, numberOfSubcarriers := 13333, slotDuration := 0.5,
             numerology := 1 } ∧
    directNumerology (calculateDirectLinkBudget host (paramNode "A" []) (paramNode "B" [])
        (fiveGEdge "mmWave" [("Bande passante (MHz)", JsVal.num 100)])) =
      some { subcarrierSpacing := 30, numberOfSubcarriers := 3333, slotDuration := 0.5,
             numerology := 1 } ∧
    directCellularCapacity (calculateDirectLinkBudget host (paramNode "A" []) (paramNode "B" [])
        (fiveGEdge "mmWave" [])) =
      directCellularCapacity (calculateDirectLinkBudget host (paramNode "A" [])
        (paramNode "B" []) (fiveGEdge "mmWave" [("Bande passante (MHz)", JsVal.num 400)])) ∧
    directLoss (calculateDirectLinkBudget host (paramNode "A" []) (paramNode "B" [])
        (umtsEdge [])) =
      some (32.4 + 20 * host.math.jsLog10 0.1 + 20 * host.math.jsLog10 (2100 / 1000)
        + 2 - 15 - 15) ∧
    directReuseDistance (calculateDirectLinkBudget host (paramNode "A" []) (paramNode "B" [])
        (umtsEdge [])) = whenTruthy (some (2 * host.math.jsSqrt 3)) ∧
    directReuseDistance (calculateDirectLinkBudget host (paramNode "A" []) (paramNode "B" [])
        (umtsEdge [("Portée (km)", JsVal.num 0.1)])) =
      whenTruthy (some (0.1 * host.math.jsSqrt 3)) ∧
    directLoss (calculateDirectLinkBudget host (paramNode "A" []) (paramNode "B" [])
        (umtsEdge [("Portée (km)", JsVal.num 2)])) =
      some (32.4 + 20 * host.math.jsLog10 2 + 20 * host.math.jsLog10 (2100 / 1000)
        + 2 - 15 - 15) := by
  refine ⟨?_, ?_, ?_, ?_, ?_, ?_, ?_, ?_, ?_, ?_⟩
  · intro sourceNode targetNode edge hs ht
    exact calculateDirectLinkBudget_total host sourceNode targetNode edge hs ht
  · with_unfolding_all rfl
  · with_unfolding_all rfl
  · with_unfolding_all rfl
  · with_unfolding_all rfl
  · with_unfolding_all rfl
  · with_unfolding_all rfl
  · with_unfolding_all rfl
  · with_unfolding_all rfl
  · with_unfolding_all rfl

/-- A 5G mmWave edge that declares nothing else is evaluated without an error. -/
theorem missing_parameter_defaults_witness :
    ∃ r, calculateDirectLinkBudget sampleHost (paramNode "A" []) (paramNode "B" [])
      (fiveGEdge "mmWave" []) = Except.ok r :=
  (missing_parameter_defaults sampleHost).1 (paramNode "A" []) (paramNode "B" [])
    (fiveGEdge "mmWave" []) ⟨_, _, rfl, rfl⟩ ⟨_, _, rfl, rfl⟩

/-! ## The request handler: worked examples -/

theorem wellFormed_sampleNode (id type : String) (power : ℚ) :
    (sampleNode id type power).WellFormed :=
  ⟨_, _, rfl, rfl⟩

theorem wellFormed_paramNode (id : String) (params : Params) : (paramNode id params).WellFormed :=
  ⟨_, _, rfl, rfl⟩

theorem wellFormed_passiveNodes : ∀ n ∈ passiveNodes, n.WellFormed := by
  intro n hn
  simp only [passiveNodes, List.mem_cons, List.mem_singleton, List.not_mem_nil, or_false] at hn
  rcases hn with h | h | h <;> rw [h] <;> exact wellFormed_sampleNode _ _ _

theorem wellFormed_costNodes : ∀ n ∈ costNodes, n.WellFormed := by
  intro n hn
  simp only [costNodes, List.mem_cons, List.mem_singleton, List.not_mem_nil, or_false] at hn
  rcases hn with h | h | h | h <;> rw [h] <;> exact wellFormed_paramNode _ _

/-- A request with the three edges of the triangle and an edge to a node id that does not exist
succeeds with one entry per edge. -/
theorem results_per_edge_witness :
    ∃ results totalCost,
      handleCalculate sampleHost (some passiveNodes) (some danglingRequestEdges) =
        Response.success results totalCost ∧
      results.map EdgeEntry.edgeId = danglingRequestEdges.map Edge.id ∧
      ∀ pre bad post, danglingRequestEdges = pre ++ bad :: post → Dangling passiveNodes bad →
        ∃ before after,
          results = before ++
            EdgeEntry.error bad.id "Source or target node not found" :: after ∧
          before.length = pre.length ∧
          handleCalculate sampleHost (some passiveNodes) (some (pre ++ post)) =
            Response.success (before ++ after) totalCost :=
  results_per_edge sampleHost passiveNodes danglingRequestEdges (by decide!)
    wellFormed_passiveNodes

/-- The unit costs 100, `"250.5"`, `"n/a"` and a missing cost add up to 350.5. -/
theorem totalCost_spec_witness :
    ∃ results, handleCalculate sampleHost (some costNodes) (some []) =
      Response.success results (Num.fin (701 / 2)) := by
  obtain ⟨results, h⟩ := (totalCost_spec sampleHost costNodes []).1 (by decide!)
    wellFormed_costNodes
  have e : specTotalCost costNodes = Num.fin (701 / 2) := by decide!
  exact ⟨results, by rw [h, e]⟩

/-! ## `calculateChainLinkBudget` on a path of one segment -/

theorem label_bind_direct (host : Host) (sourceNode targetNode : Node) (edge : Edge) :
    (do
      let _ ← sourceNode.label
      let _ ← targetNode.label
      BudgetResult.direct <$> calculateDirectLinkBudget host sourceNode targetNode edge) =
    BudgetResult.direct <$> calculateDirectLinkBudget host sourceNode targetNode edge := by
  obtain ⟨sid, stype, sdata⟩ := sourceNode
  obtain ⟨tid, ttype, tdata⟩ := targetNode
  cases sdata with
  | none => rfl
  | some sd =>
    cases tdata with
    | none => rfl
    | some td => rfl

/-- Claim C22: when the path found between the source and the target has exactly one segment,
`calculateChainLinkBudget` returns what `calculateDirectLinkBudget` returns (or throws what it
throws) for the source node, the target node and the edge of that segment, in this order
whatever the `reverse` flag of the segment; the value is the plain result of the direct model,
without the chain fields. -/
theorem single_segment_delegates (host : Host) (sourceNode targetNode : Node) (edge : Edge)
    (topologyGraph : TopologyGraph) (connection : Connection)
    (hpath : findChainPath topologyGraph sourceNode.id targetNode.id = some [connection]) :
    calculateChainLinkBudget host sourceNode targetNode edge topologyGraph =
      BudgetResult.direct <$>
        calculateDirectLinkBudget host sourceNode targetNode connection.edge := by
  rw [← label_bind_direct host sourceNode targetNode connection.edge]
  unfold calculateChainLinkBudget chainLinkBudgetIn
  rw [hpath]

/-- From `A` to `B` over the single edge declared from `B` to `A`: the path is the one reverse
connection, and the result is that of the direct model from `A` to `B` on this edge. -/
theorem single_segment_delegates_witness :
    findChainPath (buildTopologyGraph pairNodes [reverseEdge]) "A" "B" =
      some [{ target := "B", edge := reverseEdge, reverse := true }] ∧
    calculateChainLinkBudget sampleHost (sampleNode "A" "Coupleur" 20)
        (sampleNode "B" "Coupleur" 10) (opticalEdge "e9" "A" "B" 40)
        (buildTopologyGraph pairNodes [reverseEdge]) =
      BudgetResult.direct <$> calculateDirectLinkBudget sampleHost
        (sampleNode "A" "Coupleur" 20) (sampleNode "B" "Coupleur" 10) reverseEdge :=
  ⟨by decide!,
   single_segment_delegates sampleHost (sampleNode "A" "Coupleur" 20)
    (sampleNode "B" "Coupleur" 10) (opticalEdge "e9" "A" "B" 40)
    (buildTopologyGraph pairNodes [reverseEdge])
    { target := "B", edge := reverseEdge, reverse := true } (by decide!)⟩

/-! ## Signal-to-noise ratio and Shannon capacity -/

theorem num_ofNat (n : ℕ) : (OfNat.ofNat n : Num) = Num.fin (n : ℚ) := rfl

theorem num_ofScientific (m : ℕ) (s : Bool) (e : ℕ) :
    (OfScientific.ofScientific m s e : Num) = Num.fin (OfScientific.ofScientific m s e) := rfl

theorem num_add_fin (a b : ℚ) : Num.fin a + Num.fin b = Num.fin (a + b) := rfl

theorem num_sub_fin (a b : ℚ) : Num.fin a - Num.fin b = Num.fin (a - b) := by
  show Num.add (Num.fin a) (Num.neg (Num.fin b)) = _
  simp only [Num.neg, Num.add]
  congr 1
  exact (sub_eq_add_neg a b).symm

theorem num_mul_fin (a b : ℚ) : Num.fin a * Num.fin b = Num.fin (a * b) := rfl

theorem num_div_fin (a b : ℚ) (h : b ≠ 0) : Num.fin a / Num.fin b = Num.fin (a / b) := by
  show Num.div (Num.fin a) (Num.fin b) = _
  simp [Num.div, h]

theorem noiseFloor_fin (linkType : JsVal) : ∃ q : ℚ, noiseFloor linkType = Num.fin q := by
  unfold noiseFloor
  split
  · exact ⟨_, rfl⟩
  · split
    · exact ⟨_, rfl⟩
    · split
      · exact ⟨_, rfl⟩
      · split
        · exact ⟨_, rfl⟩
        · split
          · exact ⟨_, rfl⟩
          · exact ⟨_, rfl⟩

/-- With exact functions, a power of 10 with a finite exponent is a positive number whose
decimal logarithm is the exponent. -/
theorem jsPow_ten (m : JsMath) (h : ExactMath m) (e : ℚ) :
    ∃ y : ℚ, m.jsPow 10 (Num.fin e) = Num.fin y ∧ 0 < y ∧ m.log10 y = e := by
  have h10 : (10 : Num) = Num.fin 10 := by rw [num_ofNat]; norm_num
  rw [h10]
  by_cases he : e = 0
  · refine ⟨1, by simp [JsMath.jsPow, he], by norm_num, ?_⟩
    have := h.log10_zpow 0
    simpa [he] using this
  · by_cases hden : e.den = 1
    · refine ⟨(10 : ℚ) ^ e.num, by simp [JsMath.jsPow, he, hden], by positivity, ?_⟩
      rw [h.log10_zpow]
      exact (Rat.den_eq_one_iff e).mp hden
    · refine ⟨m.pow 10 e, by simp [JsMath.jsPow, he, hden], h.pow_pos e, h.log10_pow e⟩

theorem jsLog10_pos (m : JsMath) (y : ℚ) (hy : 0 < y) :
    m.jsLog10 (Num.fin y) = Num.fin (m.log10 y) := by
  simp [JsMath.jsLog10, not_lt.mpr hy.le, hy.ne']

theorem jsLog2_pos (m : JsMath) (y : ℚ) (hy : 0 < y) :
    m.jsLog2 (Num.fin y) = Num.fin (m.log2 y) := by
  simp [JsMath.jsLog2, not_lt.mpr hy.le, hy.ne']

theorem snr_roundtrip (m : JsMath) (h : ExactMath m) (x : ℚ) :
    10 * m.jsLog10 (m.jsPow 10 (Num.fin x / 10)) = Num.fin x := by
  have h10 : (10 : Num) = Num.fin 10 := by rw [num_ofNat]; norm_num
  have hdiv : Num.fin x / 10 = Num.fin (x / 10) := by
    rw [h10, num_div_fin _ _ (by norm_num)]
  rw [hdiv]
  obtain ⟨y, hy, hpos, hlog⟩ := jsPow_ten m h (x / 10)
  rw [hy, jsLog10_pos m y hpos, hlog, h10, num_mul_fin]
  congr 1
  ring

theorem calculateDirectLinkBudget_ok_inv (host : Host) (sourceNode targetNode : Node)
    (edge : Edge) (r : LinkBudgetResult)
    (h : calculateDirectLinkBudget host sourceNode targetNode edge = Except.ok r) :
    ∃ sd sp td, sourceNode.data = some sd ∧ sd.params = some sp ∧ targetNode.data = some td := by
  obtain ⟨sid, stype, sdata⟩ := sourceNode
  obtain ⟨tid, ttype, tdata⟩ := targetNode
  cases sdata with
  | none =>
    have e : calculateDirectLinkBudget host ⟨sid, stype, none⟩ ⟨tid, ttype, tdata⟩ edge =
      Except.error (cannotRead "label") := rfl
    rw [e] at h
    cases h
  | some sd =>
    cases tdata with
    | none =>
      have e : calculateDirectLinkBudget host ⟨sid, stype, some sd⟩ ⟨tid, ttype, none⟩ edge =
        Except.error (cannotRead "label") := rfl
      rw [e] at h
      cases h
    | some td =>
      obtain ⟨slabel, sparams⟩ := sd
      cases sparams with
      | none =>
        have e : calculateDirectLinkBudget host ⟨sid, stype, some ⟨slabel, none⟩⟩
            ⟨tid, ttype, some td⟩ edge = Except.error (cannotRead "Puissance (dBm)") := rfl
        rw [e] at h
        cases h
      | some sp => exact ⟨_, sp, td, rfl, rfl, rfl⟩

theorem calculateDirectLinkBudget_ok_stages (host : Host) (sourceNode targetNode : Node)
    (edge : Edge) (r : LinkBudgetResult)
    (h : calculateDirectLinkBudget host sourceNode targetNode edge = Except.ok r) :
    ∃ sd sp vars, sourceNode.data = some sd ∧ sd.params = some sp ∧
      selectBranch host sourceNode targetNode edge (linkTypeOf edge) (transmitPower sp)
        (linkDistance edge) (rawBitrate host edge) = Except.ok vars ∧
      r = finishResult host sourceNode edge (linkTypeOf edge) (transmitPower sp)
        (rawBitrate host edge) (sp.get "Bande passante (kHz)") vars := by
  obtain ⟨sd, sp, td, hs, hsp, ht⟩ :=
    calculateDirectLinkBudget_ok_inv host sourceNode targetNode edge r h
  rw [calculateDirectLinkBudget_stages host sourceNode targetNode edge sd td sp hs hsp ht] at h
  cases hsel : selectBranch host sourceNode targetNode edge (linkTypeOf edge) (transmitPower sp)
      (linkDistance edge) (rawBitrate host edge) with
  | error err =>
    rw [hsel] at h
    cases h
  | ok vars =>
    rw [hsel] at h
    refine ⟨sd, sp, vars, hs, hsp, hsel, ?_⟩
    have : Except.ok (finishResult host sourceNode edge (linkTypeOf edge) (transmitPower sp)
        (rawBitrate host edge) (sp.get "Bande passante (kHz)") vars) = Except.ok r := h
    cases this
    rfl

theorem cellularBranch_capacity (host : Host) (txNode rxNode : Node) (edge : Edge)
    (s : String) (distance bitrate : Num) (vars : BranchVars)
    (h : cellularBranch host txNode rxNode edge s distance bitrate = Except.ok vars) :
    vars.capacity = 0 := by
  obtain ⟨sid, stype, sdata⟩ := txNode
  obtain ⟨tid, ttype, tdata⟩ := rxNode
  cases sdata with
  | none =>
    have e : cellularBranch host ⟨sid, stype, none⟩ ⟨tid, ttype, tdata⟩ edge s distance
      bitrate = Except.error (cannotRead "params") := rfl
    rw [e] at h
    cases h
  | some sd =>
    obtain ⟨slabel, sparams⟩ := sd
    cases sparams with
    | none =>
      have e : cellularBranch host ⟨sid, stype, some ⟨slabel, none⟩⟩ ⟨tid, ttype, tdata⟩ edge s
        distance bitrate = Except.error (cannotRead "Fréquence (MHz)") := rfl
      rw [e] at h
      cases h
    | some sp =>
      cases tdata with
      | none =>
        have e : cellularBranch host ⟨sid, stype, some ⟨slabel, some sp⟩⟩ ⟨tid, ttype, none⟩
          edge s distance bitrate = Except.error (cannotRead "params") := rfl
        rw [e] at h
        cases h
      | some td =>
        obtain ⟨tlabel, tparams⟩ := td
        cases tparams with
        | none =>
          have e : cellularBranch host ⟨sid, stype, some ⟨slabel, some sp⟩⟩
            ⟨tid, ttype, some ⟨tlabel, none⟩⟩ edge s distance bitrate =
              Except.error (cannotRead "Gain antenne (dBi)") := rfl
          rw [e] at h
          cases h
        | some tp =>
          obtain ⟨vars1, hv, hc⟩ := cellularBranch_ok host
            ⟨sid, stype, some ⟨slabel, some sp⟩⟩ ⟨tid, ttype, some ⟨tlabel, some tp⟩⟩ edge s
            distance bitrate _ _ sp tp rfl rfl rfl rfl
          rw [hv] at h
          cases h
          exact hc

theorem hertzienBranch_capacity (host : Host) (txNode rxNode : Node) (edge : Edge)
    (power distance : Num) (vars : BranchVars)
    (h : hertzienBranch host txNode rxNode edge power distance = Except.ok vars) :
    vars.capacity = 0 := by
  obtain ⟨sid, stype, sdata⟩ := txNode
  obtain ⟨tid, ttype, tdata⟩ := rxNode
  cases sdata with
  | none =>
    have e : hertzienBranch host ⟨sid, stype, none⟩ ⟨tid, ttype, tdata⟩ edge power distance
      = Except.error (cannotRead "params") := rfl
    rw [e] at h
    cases h
  | some sd =>
    obtain ⟨slabel, sparams⟩ := sd
    cases sparams with
    | none =>
      have e : hertzienBranch host ⟨sid, stype, some ⟨slabel, none⟩⟩ ⟨tid, ttype, tdata⟩ edge
        power distance = Except.error (cannotRead "Fréquence (GHz)") := rfl
      rw [e] at h
      cases h
    | some sp =>
      cases tdata with
      | none =>
        have e : hertzienBranch host ⟨sid, stype, some ⟨slabel, some sp⟩⟩ ⟨tid, ttype, none⟩
          edge power distance = Except.error (cannotRead "params") := rfl
        rw [e] at h
        cases h
      | some td =>
        obtain ⟨tlabel, tparams⟩ := td
        cases tparams with
        | none =>
          have e : hertzienBranch host ⟨sid, stype, some ⟨slabel, some sp⟩⟩
            ⟨tid, ttype, some ⟨tlabel, none⟩⟩ edge power distance =
              Except.error (cannotRead "Gain antenne (dBi)") := rfl
          rw [e] at h
          cases h
        | some tp =>
          obtain ⟨vars1, hv, hc⟩ := hertzienBranch_ok host
            ⟨sid, stype, some ⟨slabel, some sp⟩⟩ ⟨tid, ttype, some ⟨tlabel, some tp⟩⟩ edge
            power distance _ _ sp tp rfl rfl rfl rfl
          rw [hv] at h
          cases h
          exact hc

theorem selectBranch_capacity (host : Host) (txNode rxNode : Node) (edge : Edge)
    (linkType : JsVal) (power distance bitrate : Num) (vars : BranchVars)
    (h : selectBranch host txNode rxNode edge linkType power distance bitrate = Except.ok vars) :
    (linkType = JsVal.str "Optique" → vars = opticalBranch edge power distance) ∧
    (linkType = JsVal.str "RJ45" → vars = rj45Branch edge distance) ∧
    (linkType ≠ JsVal.str "Optique" → linkType ≠ JsVal.str "RJ45" → vars.capacity = 0) := by
  unfold selectBranch at h
  by_cases c1 : linkType = JsVal.str "Optique"
  · rw [if_pos c1] at h
    have hv : opticalBranch edge power distance = vars := by
      have : Except.ok (opticalBranch edge power distance) = Except.ok vars := h
      cases this
      rfl
    refine ⟨fun _ => hv.symm, ?_, fun hne => absurd c1 hne⟩
    intro h2
    rw [c1] at h2
    exact absurd h2 (by decide)
  · rw [if_neg c1] at h
    by_cases c2 : linkType = JsVal.str "RJ45"
    · rw [if_pos c2] at h
      have hv : rj45Branch edge distance = vars := by
        have : Except.ok (rj45Branch edge distance) = Except.ok vars := h
        cases this
        rfl
      exact ⟨fun h1 => absurd h1 c1, fun _ => hv.symm, fun _ hne => absurd c2 hne⟩
    · rw [if_neg c2] at h
      refine ⟨fun h1 => absurd h1 c1, fun h2 => absurd h2 c2, fun _ _ => ?_⟩
      split at h
      · split at h
        · exact cellularBranch_capacity _ _ _ _ _ _ _ _ h
        · exact hertzienBranch_capacity _ _ _ _ _ _ _ h
      · exact hertzienBranch_capacity _ _ _ _ _ _ _ h

theorem shannon_positive (m : JsMath) (hexact : ExactMath m) (bandwidth : Num)
    (hbw : Num.lt 0 bandwidth = true) (e : ℚ) :
    Num.lt 0 (bandwidth * m.jsLog2 (1 + m.jsPow 10 (Num.fin e))) = true := by
  obtain ⟨y, hy, hpos, _⟩ := jsPow_ten m hexact e
  have h1 : (1 : Num) = Num.fin 1 := by rw [num_ofNat]; norm_num
  have h0 : (0 : Num) = Num.fin 0 := by rw [num_ofNat]; norm_num
  rw [hy, h1, num_add_fin, jsLog2_pos m (1 + y) (by linarith)]
  have hl : 0 < m.log2 (1 + y) := hexact.log2_pos (1 + y) (by linarith)
  rw [h0] at hbw ⊢
  cases bandwidth with
  | fin b =>
    have hb : 0 < b := by simpa [Num.lt] using hbw
    rw [num_mul_fin]
    simpa [Num.lt] using mul_pos hb hl
  | nan => simp [Num.lt] at hbw
  | posInf =>
    have : Num.posInf * Num.fin (m.log2 (1 + y)) = Num.posInf := by
      show Num.mul _ _ = _
      simp [Num.mul, Num.sign, hl, Num.infOfSign]
    rw [this]
    rfl
  | negInf => simp [Num.lt] at hbw

/-- Claim C14 (amended): with exact powers and logarithms, a result of the direct model whose
received power is finite and whose Shannon bandwidth is positive has a strictly positive
capacity, provided that on a twisted-pair edge the nominal rate is a number that is not
negative; a twisted-pair edge reports its nominal rate as the capacity whenever that rate is
not 0. -/
theorem capacity_positive (host : Host) (hexact : ExactMath host.math)
    (sourceNode targetNode : Node) (edge : Edge) (r : LinkBudgetResult) (txBandwidth : JsVal)
    (h : calculateDirectLinkBudget host sourceNode targetNode edge = Except.ok r)
    (hkHz : sourceNode.param "Bande passante (kHz)" = Except.ok txBandwidth) :
    (linkTypeOf edge = JsVal.str "RJ45" → Num.strictEq (nominalRateOf edge) 0 = false →
      r.capacity = nominalRateOf edge) ∧
    (r.receivedPower.isFinite = true →
      Num.lt 0 (shannonBandwidth edge (linkTypeOf edge) txBandwidth) = true →
      (linkTypeOf edge = JsVal.str "RJ45" → Num.le 0 (nominalRateOf edge) = true) →
      Num.lt 0 r.capacity = true) := by
  obtain ⟨sd, sp, vars, hs, hsp, hsel, hr⟩ :=
    calculateDirectLinkBudget_ok_stages host sourceNode targetNode edge r h
  have hbw : txBandwidth = sp.get "Bande passante (kHz)" := by
    simp only [Node.param, hs, hsp] at hkHz
    cases hkHz
    rfl
  obtain ⟨hopt, hrj, hother⟩ := selectBranch_capacity _ _ _ _ _ _ _ _ _ hsel
  have hcap : r.capacity =
      if Num.strictEq vars.capacity 0 then
        shannonBandwidth edge (linkTypeOf edge) txBandwidth *
          host.math.jsLog2 (1 + snrLinearOf host (linkTypeOf edge) r.receivedPower)
      else vars.capacity := by
    rw [hr, hbw]
    rfl
  constructor
  · intro hlt hrate
    have hv : vars.capacity = nominalRateOf edge := by rw [hrj hlt]; rfl
    rw [hcap, hv, hrate]
    rfl
  · intro hfin hpos hrate
    have hshannon : Num.lt 0 (shannonBandwidth edge (linkTypeOf edge) txBandwidth *
        host.math.jsLog2 (1 + snrLinearOf host (linkTypeOf edge) r.receivedPower)) = true := by
      obtain ⟨nf, hnf⟩ := noiseFloor_fin (linkTypeOf edge)
      cases hp : r.receivedPower with
      | fin p =>
        have h10 : (10 : Num) = Num.fin 10 := by rw [num_ofNat]; norm_num
        simp only [snrLinearOf, hnf, num_sub_fin]
        rw [show Num.fin (p - nf) / 10 = Num.fin ((p - nf) / 10) by
          rw [h10, num_div_fin _ _ (by norm_num)]]
        exact shannon_positive host.math hexact _ hpos _
      | nan => rw [hp] at hfin; cases hfin
      | posInf => rw [hp] at hfin; cases hfin
      | negInf => rw [hp] at hfin; cases hfin
    rw [hcap]
    by_cases hz : Num.strictEq vars.capacity 0 = true
    · rw [if_pos hz]
      exact hshannon
    · rw [if_neg hz]
      by_cases c1 : linkTypeOf edge = JsVal.str "Optique"
      · rw [hopt c1]
        show Num.lt 0 ((1000 : Num) * 8) = true
        decide!
      · by_cases c2 : linkTypeOf edge = JsVal.str "RJ45"
        · have hv : vars.capacity = nominalRateOf edge := by rw [hrj c2]; rfl
          have hle := hrate c2
          rw [hv] at hz ⊢
          cases hn : nominalRateOf edge with
          | fin q =>
            rw [hn] at hz hle
            have h0 : (0 : Num) = Num.fin 0 := by rw [num_ofNat]; norm_num
            rw [h0] at hz hle ⊢
            have hq0 : q ≠ 0 := by
              intro e
              apply hz
              simp [Num.strictEq, e]
            have hq : 0 ≤ q := by simpa [Num.le, Num.lt] using hle
            simpa [Num.lt] using lt_of_le_of_ne hq (Ne.symm hq0)
          | nan => rw [hn] at hle; simp [Num.le] at hle
          | posInf => rfl
          | negInf =>
            rw [hn] at hle
            have h0 : (0 : Num) = Num.fin 0 := by rw [num_ofNat]; norm_num
            rw [h0] at hle
            simp [Num.le, Num.lt] at hle
        · exact absurd (by rw [hother c1 c2]; rfl) hz

/-- Claim C14 (counterexample): a twisted-pair edge of 0.05 km that declares the nominal rate
-100 has the finite received power 10.1 dBm and the positive bandwidth 20, and its capacity is
the declared rate -100, which is not positive. -/
theorem negative_rate_capacity :
    directPowerAndCapacity (calculateDirectLinkBudget interpolatingHost (paramNode "A" [])
      (paramNode "B" []) (ratedEdge (JsVal.num (-100)))) = some (10.1, -100) ∧
    shannonBandwidth (ratedEdge (JsVal.num (-100))) (JsVal.str "RJ45") JsVal.undefined = 20 ∧
    Num.lt 0 (-100) = false := by
  refine ⟨?_, ?_, ?_⟩
  · decide!
  · decide!
  · decide!

/-- A twisted-pair edge that declares the nominal rate `"0"` takes the Shannon fallback, and
its capacity is positive. -/
theorem capacity_positive_witness :
    ∃ r, calculateDirectLinkBudget interpolatingHost (paramNode "A" []) (paramNode "B" [])
        (ratedEdge (JsVal.str "0")) = Except.ok r ∧
      Num.lt 0 r.capacity = true := by
  obtain ⟨r, hr⟩ := calculateDirectLinkBudget_total interpolatingHost (paramNode "A" [])
    (paramNode "B" []) (ratedEdge (JsVal.str "0")) ⟨_, _, rfl, rfl⟩ ⟨_, _, rfl, rfl⟩
  have hp : directReceivedPower (calculateDirectLinkBudget interpolatingHost (paramNode "A" [])
      (paramNode "B" []) (ratedEdge (JsVal.str "0"))) = some 10.1 := by decide!
  rw [hr] at hp
  have hp1 : r.receivedPower = 10.1 := Option.some.inj hp
  exact ⟨r, hr, (capacity_positive interpolatingHost exactMath_interpolating (paramNode "A" [])
    (paramNode "B" []) (ratedEdge (JsVal.str "0")) r JsVal.undefined hr rfl).2
    (by rw [hp1]; rfl) (by decide!) (fun _ => by decide!)⟩

/-! ## Coverage of a cellular link -/

theorem cellularBranch_coverage (host : Host) (txNode rxNode : Node) (edge : Edge)
    (s : String) (distance bitrate : Num) (vars : BranchVars) (declared : JsVal)
    (h : cellularBranch host txNode rxNode edge s distance bitrate = Except.ok vars)
    (hdecl : txNode.param "Fréquence (MHz)" = Except.ok declared) :
    vars.coverage = cellularCoverage host (carrierFrequency declared s) := by
  obtain ⟨sid, stype, sdata⟩ := txNode
  obtain ⟨tid, ttype, tdata⟩ := rxNode
  cases sdata with
  | none => cases hdecl
  | some sd =>
    obtain ⟨slabel, sparams⟩ := sd
    cases sparams with
    | none => cases hdecl
    | some sp =>
      have hd : declared = sp.get "Fréquence (MHz)" := by
        have : Except.ok (sp.get "Fréquence (MHz)") = (Except.ok declared : Except JsError JsVal) :=
          hdecl
        cases this
        rfl
      cases tdata with
      | none =>
        have e : cellularBranch host ⟨sid, stype, some ⟨slabel, some sp⟩⟩ ⟨tid, ttype, none⟩
          edge s distance bitrate = Except.error (cannotRead "params") := rfl
        rw [e] at h
        cases h
      | some td =>
        obtain ⟨tlabel, tparams⟩ := td
        cases tparams with
        | none =>
          have e : cellularBranch host ⟨sid, stype, some ⟨slabel, some sp⟩⟩
            ⟨tid, ttype, some ⟨tlabel, none⟩⟩ edge s distance bitrate =
              Except.error (cannotRead "Gain antenne (dBi)") := rfl
          rw [e] at h
          cases h
        | some tp =>
          have h1 := param_of_wellFormed ⟨sid, stype, some ⟨slabel, some sp⟩⟩ _ sp rfl rfl
          have h2 := param_of_wellFormed ⟨tid, ttype, some ⟨tlabel, some tp⟩⟩ _ tp rfl rfl
          unfold cellularBranch at h
          simp only [h1, h2, except_ok_bind] at h
          rw [hd]
          split at h
          · rename_i c1
            subst c1
            cases h
            rfl
          · rename_i c1
            split at h
            · rename_i c2
              subst c2
              cases h
              rfl
            · rename_i c2
              split at h
              · rename_i c3
                subst c3
                cases h
                rfl
              · rename_i c3
                cases h
                simp only [cellularCoverage, carrierFrequency, if_neg c1, if_neg c2, if_neg c3]

theorem selectBranch_cellular (host : Host) (txNode rxNode : Node) (edge : Edge)
    (s : String) (power distance bitrate : Num)
    (hcell : s ∈ ["GSM", "UMTS", "4G", "5G"]) :
    selectBranch host txNode rxNode edge (JsVal.str s) power distance bitrate =
      cellularBranch host txNode rxNode edge s distance bitrate := by
  simp only [List.mem_cons, List.mem_singleton, List.not_mem_nil, or_false] at hcell
  rcases hcell with e | e | e | e <;> subst e <;> rfl

theorem coverage_equation (host : Host) (hexact : ExactMath host.math) (f : ℚ) (hpos : 0 < f) :
    freeSpaceLoss host (cellularCoverage host (Num.fin f)) (Num.fin f) = 100 := by
  have h1000 : (1000 : Num) = Num.fin 1000 := by rw [num_ofNat]; norm_num
  have h100 : (100 : Num) = Num.fin 100 := by rw [num_ofNat]; norm_num
  have h20 : (20 : Num) = Num.fin 20 := by rw [num_ofNat]; norm_num
  have hdiv : Num.fin f / 1000 = Num.fin (f / 1000) := by
    rw [h1000, num_div_fin _ _ (by norm_num)]
  have hlog : host.math.jsLog10 (Num.fin (f / 1000)) = Num.fin (host.math.log10 (f / 1000)) :=
    jsLog10_pos _ _ (by positivity)
  have hexp : (100 - 32.4 - 20 * Num.fin (host.math.log10 (f / 1000))) / 20 =
      Num.fin ((100 - 32.4 - 20 * host.math.log10 (f / 1000)) / 20) := by
    rw [h100, h20, num_ofScientific, num_mul_fin, num_sub_fin, num_sub_fin,
      num_div_fin _ _ (by norm_num)]
  obtain ⟨y, hy, hypos, hylog⟩ := jsPow_ten host.math hexact
    ((100 - 32.4 - 20 * host.math.log10 (f / 1000)) / 20)
  unfold freeSpaceLoss cellularCoverage
  rw [hdiv, hlog, hexp, hy, jsLog10_pos _ _ hypos, hylog, h20, h100, num_ofScientific,
    num_mul_fin, num_mul_fin, num_add_fin, num_add_fin]
  congr 1
  norm_num
  ring

/-! ## The 4G interference factor -/

theorem interpolatedPow_half (q : ℚ) : interpolatedPow q (1 / 2) = (1 + q) / 2 := by
  have hfloor : Int.floor ((1 : ℚ) / 2) = 0 := by
    rw [Int.floor_eq_iff]
    norm_num
  have hfract : Int.fract ((1 : ℚ) / 2) = 1 / 2 := by
    rw [Int.fract, hfloor]
    norm_num
  unfold interpolatedPow
  rw [hfloor, hfract]
  simp
  ring

theorem interpolatedLog_bounds (b : ℕ) (hb : 1 < b) (x : ℚ) (hx : 0 < x) :
    (Int.log b x : ℚ) ≤ interpolatedLog b x ∧ interpolatedLog b x < (Int.log b x : ℚ) + 1 := by
  have hb1 : (1 : ℚ) < (b : ℚ) := by exact_mod_cast hb
  have hz : (0 : ℚ) < (b : ℚ) ^ Int.log b x := zpow_pos (by linarith) _
  have hlo : (b : ℚ) ^ Int.log b x ≤ x := Int.zpow_log_le_self hb hx
  have hhi : x < (b : ℚ) ^ (Int.log b x + 1) := Int.lt_zpow_succ_log_self hb x
  rw [zpow_add_one₀ (by linarith : (b : ℚ) ≠ 0)] at hhi
  have h1 : 1 ≤ x / (b : ℚ) ^ Int.log b x := by
    rw [le_div_iff₀ hz]
    linarith
  have h2 : x / (b : ℚ) ^ Int.log b x < b := by
    rw [div_lt_iff₀ hz]
    linarith
  unfold interpolatedLog
  rw [if_pos hx]
  have hden : (0 : ℚ) < (b : ℚ) - 1 := by linarith
  constructor
  · have : 0 ≤ (x / (b : ℚ) ^ Int.log b x - 1) / ((b : ℚ) - 1) :=
      div_nonneg (by linarith) hden.le
    linarith
  · have : (x / (b : ℚ) ^ Int.log b x - 1) / ((b : ℚ) - 1) < 1 := by
      rw [div_lt_one hden]
      linarith
    linarith

theorem interpolatedLog_mono (b : ℕ) (hb : 1 < b) (x y : ℚ) (hx : 0 < x) (hxy : x ≤ y) :
    interpolatedLog b x ≤ interpolatedLog b y := by
  have hy : 0 < y := lt_of_lt_of_le hx hxy
  have hlog : Int.log b x ≤ Int.log b y := Int.log_mono_right hx hxy
  rcases eq_or_lt_of_le hlog with e | hlt
  · have hb1 : (1 : ℚ) < (b : ℚ) := by exact_mod_cast hb
    have hz : (0 : ℚ) < (b : ℚ) ^ Int.log b x := zpow_pos (by linarith) _
    have hden : (0 : ℚ) < (b : ℚ) - 1 := by linarith
    unfold interpolatedLog
    rw [if_pos hx, if_pos hy, ← e]
    have h1 : x / (b : ℚ) ^ Int.log b x ≤ y / (b : ℚ) ^ Int.log b x :=
      div_le_div_of_nonneg_right hxy hz.le
    have h2 : (x / (b : ℚ) ^ Int.log b x - 1) / ((b : ℚ) - 1) ≤
        (y / (b : ℚ) ^ Int.log b x - 1) / ((b : ℚ) - 1) :=
      div_le_div_of_nonneg_right (by linarith) hden.le
    linarith
  · have h1 := (interpolatedLog_bounds b hb x hx).2
    have h2 := (interpolatedLog_bounds b hb y hy).1
    have h3 : (Int.log b x : ℚ) + 1 ≤ (Int.log b y : ℚ) := by exact_mod_cast hlt
    linarith

theorem interpolatedLog_pos (b : ℕ) (hb : 1 < b) (a : ℚ) (ha : 1 < a) :
    0 < interpolatedLog b a := by
  have h1 : interpolatedLog b 1 = 0 := by
    have := interpolatedLog_zpow b hb 0
    simpa using this
  have hlog : 0 ≤ Int.log b a := by
    apply (Int.zpow_le_iff_le_log hb (by linarith)).mp
    simpa using le_of_lt ha
  have hb1 : (1 : ℚ) < (b : ℚ) := by exact_mod_cast hb
  have hpos : (0 : ℚ) < a := by linarith
  rcases eq_or_lt_of_le hlog with e | hlt
  · unfold interpolatedLog
    rw [if_pos hpos, ← e]
    simp only [Int.cast_zero, zpow_zero, div_one, zero_add]
    exact div_pos (by linarith) (by linarith)
  · have h2 := (interpolatedLog_bounds b hb a hpos).1
    have h3 : (1 : ℚ) ≤ (Int.log b a : ℚ) := by exact_mod_cast hlt
    linarith

theorem num_le_fin (a b : ℚ) : Num.le (Num.fin a) (Num.fin b) = true ↔ a ≤ b := by
  simp [Num.le, Num.lt]

theorem interferenceReduction4G_of_le_one (host : Host) (n : ℚ) (hn : n ≤ 1) (cellRadius : Num) :
    calculateInterferenceReduction4G host (Num.fin n) cellRadius = 1 := by
  have h1 : (1 : Num) = Num.fin 1 := by rw [num_ofNat]; norm_num
  have hle : Num.le (Num.fin n) 1 = true := by
    rw [h1]
    exact (num_le_fin _ _).mpr hn
  unfold calculateInterferenceReduction4G
  rw [if_pos hle, h1, num_ofScientific]
  congr 1
  norm_num

/-! ## Termination and order of the depth-first search -/

theorem dfsLoop_fuel (call1 call2 : String → List Connection → List String → Option DfsResult)
    (hcall : ∀ n p v r, call1 n p v = some r → call2 n p v = some r)
    (node : String) (path : List Connection) :
    ∀ (cs : List Connection) (v : List String) (r : DfsResult),
      dfsLoop call1 node path cs v = some r → dfsLoop call2 node path cs v = some r := by
  intro cs
  induction cs with
  | nil =>
    intro v r h
    exact h
  | cons c rest ih =>
    intro v r h
    by_cases hc : setHas v c.target = true
    · have e1 : dfsLoop call1 node path (c :: rest) v = dfsLoop call1 node path rest v := by
        simp [dfsLoop, hc]
      have e2 : dfsLoop call2 node path (c :: rest) v = dfsLoop call2 node path rest v := by
        simp [dfsLoop, hc]
      rw [e1] at h
      rw [e2]
      exact ih v r h
    · have hc1 : setHas v c.target = false := by simpa using hc
      cases hres : call1 c.target (path ++ [c]) v with
      | none =>
        have e1 : dfsLoop call1 node path (c :: rest) v = none := by
          simp [dfsLoop, hc1, hres]
        rw [e1] at h
        cases h
      | some r1 =>
        have hres2 := hcall _ _ _ _ hres
        obtain ⟨res, v1⟩ := r1
        cases res with
        | some q =>
          have e1 : dfsLoop call1 node path (c :: rest) v = some (some q, v1) := by
            simp [dfsLoop, hc1, hres]
          have e2 : dfsLoop call2 node path (c :: rest) v = some (some q, v1) := by
            simp [dfsLoop, hc1, hres2]
          rw [e1] at h
          rw [e2]
          exact h
        | none =>
          have e1 : dfsLoop call1 node path (c :: rest) v = dfsLoop call1 node path rest v1 := by
            simp [dfsLoop, hc1, hres]
          have e2 : dfsLoop call2 node path (c :: rest) v = dfsLoop call2 node path rest v1 := by
            simp [dfsLoop, hc1, hres2]
          rw [e1] at h
          rw [e2]
          exact ih v1 r h

theorem dfs_fuel (graph : TopologyGraph) (t : String) :
    ∀ (depth : Nat) (node : String) (path : List Connection) (visited : List String)
      (r : DfsResult),
      dfs graph t depth node path visited = some r →
        dfs graph t (depth + 1) node path visited = some r := by
  intro depth
  induction depth with
  | zero =>
    intro node path visited r h
    simp [dfs] at h
  | succ d ih =>
    intro node path visited r h
    by_cases hnt : node = t
    · simp only [dfs, hnt, if_true] at h ⊢
      exact h
    · by_cases hs : setHas visited node = true
      · simp only [dfs, hnt, if_false, hs, if_true] at h ⊢
        exact h
      · have hs1 : setHas visited node = false := by simpa using hs
        cases hentry : mapGet graph node with
        | none =>
          simp only [dfs, hnt, if_false, hs1, hentry] at h ⊢
          exact h
        | some entry =>
          have e1 : dfs graph t (d + 1) node path visited =
              dfsLoop (dfs graph t d) node path entry.connections (setAdd visited node) := by
            simp [dfs, hnt, hs1, hentry]
          have e2 : dfs graph t (d + 1 + 1) node path visited =
              dfsLoop (dfs graph t (d + 1)) node path entry.connections
                (setAdd visited node) := by
            simp [dfs, hnt, hs1, hentry]
          rw [e1] at h
          rw [e2]
          exact dfsLoop_fuel (dfs graph t d) (dfs graph t (d + 1)) ih node path
            entry.connections (setAdd visited node) r h

theorem dfs_fuel_le (graph : TopologyGraph) (t : String) (node : String)
    (path : List Connection) (visited : List String) (r : DfsResult) (d1 : Nat)
    (h : dfs graph t d1 node path visited = some r) :
    ∀ d2, d1 ≤ d2 → dfs graph t d2 node path visited = some r := by
  intro d2 hle
  induction d2 with
  | zero =>
    have : d1 = 0 := by omega
    rw [← this]
    exact h
  | succ d ih =>
    rcases Nat.lt_or_ge d1 (d + 1) with hlt | hge
    · exact dfs_fuel graph t d node path visited r (ih (by omega))
    · have : d1 = d + 1 := by omega
      rw [← this]
      exact h

/-- Claim C25: on every topology graph, so on every graph `buildTopologyGraph` returns, with
cycles, self-loops and parallel edges or without, the depth-first search of `findChainPath`
returns for every source and target: its recursion nests no deeper than the number of keys of
the graph plus one, and every larger bound on the depth gives the same result. -/
theorem findChainPath_terminates (graph : TopologyGraph) (source target : String) :
    ∃ r, dfs graph target (graph.length + 1) source [] [] = some r ∧
      ∀ depth, graph.length + 1 ≤ depth → dfs graph target depth source [] [] = some r := by
  obtain ⟨r, v1, hres, _⟩ := dfs_returns graph target (graph.length + 1) source [] []
    (Nat.lt_succ_of_le (unvisitedCount_le graph []))
  exact ⟨(r, v1), hres, dfs_fuel_le graph target source [] [] (r, v1) _ hres⟩

theorem mem_of_getElem (cs : List Connection) (i : Nat) (c : Connection)
    (h : cs[i]? = some c) : c ∈ cs := by
  obtain ⟨hi, he⟩ := List.getElem?_eq_some_iff.mp h
  rw [← he]
  exact List.getElem_mem hi

theorem dfsLoop_least (graph : TopologyGraph) (t node : String) (path : List Connection)
    (v : List String)
    (call : String → List Connection → List String → Option DfsResult) :
    ∀ (cs done : List Connection), connectionsOf graph node = done ++ cs →
      (∀ c ∈ cs, c.target ∉ v →
        DfsLeast graph t c.target (path ++ [c]) v (call c.target (path ++ [c]) v)) →
      (∀ c ∈ done, c.target ∉ v → ¬ ∃ q, SimpleWalkAvoiding graph v c.target q t) →
      (∃ i c is q v1, (connectionsOf graph node)[i]? = some c ∧ c.target ∉ v ∧
          dfsLoop call node path cs v = some (some (path ++ c :: q), v1) ∧
          LeastWalk graph v t c.target is q ∧
          ∀ (j : Nat) (c1 : Connection), j < i →
            (connectionsOf graph node)[j]? = some c1 → c1.target ∉ v →
            ¬ ∃ q1, SimpleWalkAvoiding graph v c1.target q1 t) ∨
      (dfsLoop call node path cs v = some (none, setDelete v node) ∧
        ∀ c ∈ connectionsOf graph node, c.target ∉ v →
          ¬ ∃ q, SimpleWalkAvoiding graph v c.target q t) := by
  intro cs
  induction cs with
  | nil =>
    intro done hconn _ hdone
    right
    refine ⟨rfl, ?_⟩
    intro c hc
    rw [hconn, List.append_nil] at hc
    exact hdone c hc
  | cons c rest ih =>
    intro done hconn hcall hdone
    have hconn1 : connectionsOf graph node = (done ++ [c]) ++ rest := by
      rw [hconn]
      simp
    have hcall1 : ∀ c1 ∈ rest, c1.target ∉ v →
        DfsLeast graph t c1.target (path ++ [c1]) v (call c1.target (path ++ [c1]) v) :=
      fun c1 h1 h2 => hcall c1 (List.mem_cons_of_mem _ h1) h2
    by_cases hc : c.target ∈ v
    · have hs : setHas v c.target = true := (setHas_iff _ _).mpr hc
      have hstep : dfsLoop call node path (c :: rest) v = dfsLoop call node path rest v := by
        simp [dfsLoop, hs]
      rw [hstep]
      apply ih (done ++ [c]) hconn1 hcall1
      intro c1 hc1 hn
      rcases List.mem_append.mp hc1 with e | e
      · exact hdone c1 e hn
      · rw [List.mem_singleton] at e
        exact absurd (e ▸ hc) hn
    · have hs : setHas v c.target = false := by
        rw [← Bool.not_eq_true, setHas_iff]
        exact hc
      rcases hcall c (List.mem_cons_self _ _) hc with ⟨is, q, v1, h1, h2⟩ | ⟨h1, h2⟩
      · left
        refine ⟨done.length, c, is, q, v1, ?_, hc, ?_, h2, ?_⟩
        · rw [hconn, List.getElem?_append_right (le_refl _)]
          simp
        · simp [dfsLoop, hs, h1]
        · intro j c1 hj hget hn
          rw [hconn, List.getElem?_append_left hj] at hget
          exact hdone c1 (mem_of_getElem done j c1 hget) hn
      · have hstep : dfsLoop call node path (c :: rest) v = dfsLoop call node path rest v := by
          simp [dfsLoop, hs, h1]
        rw [hstep]
        apply ih (done ++ [c]) hconn1 hcall1
        intro c1 hc1 hn
        rcases List.mem_append.mp hc1 with e | e
        · exact hdone c1 e hn
        · rw [List.mem_singleton] at e
          rw [e]
          exact h2

theorem dfs_least (graph : TopologyGraph) (hclosed : Closed graph) (t : String) :
    ∀ (depth : Nat) (node : String) (path : List Connection) (visited : List String),
      mapHas graph node = true → node ∉ visited → unvisitedCount graph visited < depth →
      DfsLeast graph t node path visited (dfs graph t depth node path visited) := by
  intro depth
  induction depth with
  | zero => intro node path visited _ _ h; exact absurd h (Nat.not_lt_zero _)
  | succ d ih =>
    intro node path visited hkey hnv hcount
    by_cases hnt : node = t
    · left
      refine ⟨[], [], visited, ?_, rfl, ⟨hnt, ?_, ?_⟩, fun _ _ _ _ => rfl⟩
      · simp [dfs, hnt]
      · simp [walkNodes]
      · intro x hx
        simp only [walkNodes, List.map_nil, List.mem_singleton] at hx
        rw [hx]; exact hnv
    · obtain ⟨entry, hentry⟩ := mapGet_isSome_of_mapHas graph node hkey
      have hs : setHas visited node = false := by
        rw [← Bool.not_eq_true, setHas_iff]
        exact hnv
      have hdfs : dfs graph t (d + 1) node path visited =
          dfsLoop (dfs graph t d) node path entry.connections (setAdd visited node) := by
        simp [dfs, hnt, hs, hentry]
      rw [hdfs]
      have hconn := connectionsOf_of_mapGet graph node entry hentry
      have hlt : unvisitedCount graph (setAdd visited node) < d := by
        have := unvisitedCount_setAdd graph visited node hkey hnv
        omega
      -- a simple walk from `node` that avoids `visited` continues, after its first
      -- connection, as a simple walk that also avoids `node`
      have htail : ∀ (c : Connection) (q1 : List Connection),
          SimpleWalkAvoiding graph visited node (c :: q1) t →
          c ∈ connectionsOf graph node ∧ c.target ∉ setAdd visited node ∧
            SimpleWalkAvoiding graph (setAdd visited node) c.target q1 t := by
        rintro c q1 ⟨hwalk, hnodup, havoid⟩
        obtain ⟨hc, hw1⟩ := hwalk
        have hnd : node ∉ walkNodes c.target q1 ∧ (walkNodes c.target q1).Nodup := by
          simpa [walkNodes] using hnodup
        have hav1 : ∀ x ∈ walkNodes c.target q1, x ∉ setAdd visited node := by
          intro x hx hxv
          rcases (mem_setAdd _ _ _).mp hxv with e | e
          · exact havoid x (by
              simp only [walkNodes, List.map_cons, List.mem_cons] at hx ⊢
              exact Or.inr hx) e
          · exact hnd.1 (e ▸ hx)
        exact ⟨hc, hav1 c.target (by simp [walkNodes]), hw1, hnd.2, hav1⟩
      have hloop := dfsLoop_least graph t node path (setAdd visited node) (dfs graph t d)
        entry.connections [] (by rw [hconn]; rfl)
        (fun c hc hcv =>
          ih c.target (path ++ [c]) (setAdd visited node)
            (hclosed node c (hconn ▸ hc)) hcv hlt)
        (fun c hc => absurd hc (List.not_mem_nil c))
      rcases hloop with
        ⟨i, c, is, q, v1, hget, hcv, hres, ⟨hwi, ⟨hwalk, hnodup, havoid⟩, hleast⟩, hearlier⟩ |
        ⟨hres, hnone⟩
      · left
        have hc : c ∈ connectionsOf graph node := mem_of_getElem _ i c hget
        refine ⟨i :: is, c :: q, v1, hres, ?_, ⟨⟨hc, hwalk⟩, ?_, ?_⟩, ?_⟩
        · simp [walkOfIndices, hget, hwi]
        · have : node ∉ walkNodes c.target q := by
            intro hmem
            exact havoid node hmem ((mem_setAdd _ _ _).mpr (Or.inr rfl))
          simpa [walkNodes] using
            ⟨by simpa [walkNodes] using this, by simpa [walkNodes] using hnodup⟩
        · intro x hx
          have hx1 : x = node ∨ x ∈ walkNodes c.target q := by
            simpa [walkNodes] using hx
          rcases hx1 with e | e
          · rw [e]; exact hnv
          · intro hxv
            exact havoid x e ((mem_setAdd _ _ _).mpr (Or.inl hxv))
        · intro js q1 hjs hsimple
          cases js with
          | nil =>
            simp only [walkOfIndices, Option.some.injEq] at hjs
            rw [← hjs] at hsimple
            exact absurd hsimple.1 hnt
          | cons j js1 =>
            simp only [walkOfIndices] at hjs
            cases hgj : (connectionsOf graph node)[j]? with
            | none => simp [hgj] at hjs
            | some c1 =>
              simp only [hgj] at hjs
              cases hw : walkOfIndices graph c1.target js1 with
              | none => simp [hw] at hjs
              | some q3 =>
                simp only [hw, Option.map_some', Option.some.injEq] at hjs
                rw [← hjs] at hsimple
                obtain ⟨_, hct, htl⟩ := htail c1 q3 hsimple
                rcases Nat.lt_trichotomy j i with hlt1 | heq | hgt
                · exact absurd ⟨q3, htl⟩ (hearlier j c1 hlt1 hgj hct)
                · subst heq
                  rw [hget] at hgj
                  cases hgj
                  simp [lexLe, hleast js1 q3 hw htl]
                · simp [lexLe, hgt]
      · right
        refine ⟨by rw [hres, setDelete_setAdd visited node hnv], ?_⟩
        rintro ⟨q, hsimple⟩
        cases q with
        | nil => exact hnt hsimple.1
        | cons c q1 =>
          obtain ⟨hc, hct, htl⟩ := htail c q1 hsimple
          exact hnone c hc hct ⟨q1, htl⟩

/-- Claim C20: on a graph built by `buildTopologyGraph`, the path `findChainPath` returns is
the first simple path in adjacency-list order: written as the list of the indices its
connections have in the adjacency lists along the way, it comes lexicographically before or
equals the index list of every simple walk from the source to the target.  It need not be a
shortest path: in the triangle with the edges `A–B`, `B–C`, `A–C` in this input order,
`findChainPath` returns the two segments through `B` (indices 0, 1) from `A` to `C`, although
the connection with index 1 at `A` leads to `C` directly. -/
theorem findChainPath_first_in_adjacency_order :
    (∀ (nodes : List Node) (edges : List Edge) (source target : String)
        (path : List Connection),
      findChainPath (buildTopologyGraph nodes edges) source target = some path →
      ∃ is, walkOfIndices (buildTopologyGraph nodes edges) source is = some path ∧
        ∀ js q, walkOfIndices (buildTopologyGraph nodes edges) source js = some q →
          IsWalk (buildTopologyGraph nodes edges) source q target →
          (walkNodes source q).Nodup → lexLe is js = true) ∧
    findChainPath (buildTopologyGraph passiveNodes triangleEdges) "A" "C" =
      some [{ target := "B", edge := opticalEdge "e1" "A" "B" (45 / 2), reverse := false },
            { target := "C", edge := opticalEdge "e2" "B" "C" (45 / 2), reverse := false }] ∧
    walkOfIndices (buildTopologyGraph passiveNodes triangleEdges) "A" [0, 1] =
      some [{ target := "B", edge := opticalEdge "e1" "A" "B" (45 / 2), reverse := false },
            { target := "C", edge := opticalEdge "e2" "B" "C" (45 / 2), reverse := false }] ∧
    walkOfIndices (buildTopologyGraph passiveNodes triangleEdges) "A" [1] =
      some [{ target := "C", edge := opticalEdge "e3" "A" "C" 50, reverse := false }] := by
  refine ⟨?_, by decide!, by decide!, by decide!⟩
  intro nodes edges source target path h
  have hclosed := closed_buildTopologyGraph nodes edges
  by_cases hst : source = target
  · have hnil : findChainPath (buildTopologyGraph nodes edges) source target = some [] := by
      simp [findChainPath, dfs, hst]
    rw [hnil] at h
    cases h
    exact ⟨[], rfl, fun _ _ _ _ _ => rfl⟩
  · by_cases hkey : mapHas (buildTopologyGraph nodes edges) source = true
    · have hcount : unvisitedCount (buildTopologyGraph nodes edges) [] <
          (buildTopologyGraph nodes edges).length + 1 :=
        Nat.lt_succ_of_le (unvisitedCount_le _ [])
      rcases dfs_least _ hclosed target _ source [] [] hkey (by simp) hcount with
        ⟨is, q, v1, hres, hwi, _, hleast⟩ | ⟨hres, _⟩
      · have hq : findChainPath (buildTopologyGraph nodes edges) source target = some q := by
          simp [findChainPath, hres]
        rw [hq] at h
        cases h
        exact ⟨is, hwi, fun js q1 hjs hw hn => hleast js q1 hjs ⟨hw, hn, by simp⟩⟩
      · have hq : findChainPath (buildTopologyGraph nodes edges) source target = none := by
          simp [findChainPath, hres]
        rw [hq] at h
        cases h
    · have hget : mapGet (buildTopologyGraph nodes edges) source = none := by
        unfold mapHas at hkey
        simpa using hkey
      have hq : findChainPath (buildTopologyGraph nodes edges) source target = none := by
        simp [findChainPath, dfs, hst, setHas, hget]
      rw [hq] at h
      cases h

/-- In the triangle the path from `A` to `C` has an index list that no simple walk from `A`
to `C` precedes. -/
theorem findChainPath_first_in_adjacency_order_witness :
    ∃ is, walkOfIndices (buildTopologyGraph passiveNodes triangleEdges) "A" is =
        some [{ target := "B", edge := opticalEdge "e1" "A" "B" (45 / 2), reverse := false },
              { target := "C", edge := opticalEdge "e2" "B" "C" (45 / 2), reverse := false }] ∧
      ∀ js q, walkOfIndices (buildTopologyGraph passiveNodes triangleEdges) "A" js = some q →
        IsWalk (buildTopologyGraph passiveNodes triangleEdges) "A" q "C" →
        (walkNodes "A" q).Nodup → lexLe is js = true :=
  findChainPath_first_in_adjacency_order.1 passiveNodes triangleEdges "A" "C" _ (by decide!)

/-! ## The validation gate -/

theorem validationErrors_eq_nil (nodes : List Node) (edges : List Edge) :
    validationErrors nodes edges = [] ↔ ∀ e ∈ edges, validateEdge nodes e = [] := by
  unfold validationErrors
  induction edges with
  | nil => simp
  | cons e rest ih =>
    simp only [List.flatMap_cons, List.append_eq_nil, ih, List.mem_cons, forall_eq_or_imp]

theorem parseInt_of_valid (v : JsVal)
    (h : v ∈ [JsVal.num 0, JsVal.num 1, JsVal.num 2, JsVal.num 3, JsVal.num 4]) :
    isNumerologyValue (parseInt v) = true := by
  simp only [List.mem_cons, List.mem_singleton, List.not_mem_nil, or_false] at h
  rcases h with e | e | e | e | e <;> rw [e] <;> decide!

theorem validateEdge_eq (nodes : List Node) (edge : Edge) :
    validateEdge nodes edge =
      (if edge.param "Type liaison" = JsVal.str "5G" then
        (if !isKnownBand (edge.param "FrequencyBand") then
          ["Edge " ++ edge.id ++ ": FrequencyBand must be 'sub-6' or 'mmWave'"]
        else []) ++
        (if edge.param "Numerology (μ)" ≠ JsVal.undefined ∧
            isNumerologyValue (parseInt (edge.param "Numerology (μ)")) = false then
          ["Edge " ++ edge.id ++ ": Numerology (μ) must be 0, 1, 2, 3, or 4"]
        else []) ++
        (if edge.param "FrequencyBand" = JsVal.str "mmWave" ∧
            Num.lt (gateFrequency nodes edge) 24000 = true then
          ["Edge " ++ edge.id ++ ": mmWave requires frequency >= 24 GHz"]
        else []) ++
        (if edge.param "FrequencyBand" = JsVal.str "sub-6" ∧
            Num.ge (gateFrequency nodes edge) 6000 = true then
          ["Edge " ++ edge.id ++ ": sub-6 requires frequency < 6 GHz"]
        else [])
      else []) ++
      (if edge.param "Type liaison" = JsVal.str "RJ45" then
        (if Num.gt (parseFloatOr (edge.param "Portée (km)") 0.1) 0.1 = true then
          ["Edge " ++ edge.id ++ ": RJ45 maximum distance is 100m (0.1 km)"]
        else [])
      else []) := rfl

theorem validateEdge_sound (nodes : List Node) (edge : Edge)
    (h : validateEdge nodes edge ≠ []) : BreaksRule nodes edge := by
  rw [validateEdge_eq] at h
  by_cases h5 : edge.param "Type liaison" = JsVal.str "5G"
  · left
    refine ⟨h5, ?_⟩
    have hrj : edge.param "Type liaison" ≠ JsVal.str "RJ45" := by
      rw [h5]
      decide
    by_contra hnone
    simp only [not_or, not_and] at hnone
    obtain ⟨hb, hn, hm, hsub⟩ := hnone
    apply h
    have hb1 : ¬ (!isKnownBand (edge.param "FrequencyBand")) = true := by simpa using hb
    have hn1 : ¬ (edge.param "Numerology (μ)" ≠ JsVal.undefined ∧
        isNumerologyValue (parseInt (edge.param "Numerology (μ)")) = false) := by
      rintro ⟨hu, hv⟩
      have := parseInt_of_valid _ (not_not.mp (hn hu))
      rw [this] at hv
      cases hv
    have hm1 : ¬ (edge.param "FrequencyBand" = JsVal.str "mmWave" ∧
        Num.lt (gateFrequency nodes edge) 24000 = true) := fun ⟨a, b⟩ => hm a b
    have hs1 : ¬ (edge.param "FrequencyBand" = JsVal.str "sub-6" ∧
        Num.ge (gateFrequency nodes edge) 6000 = true) := fun ⟨a, b⟩ => hsub a b
    rw [if_pos h5, if_neg hrj, if_neg hb1, if_neg hn1, if_neg hm1, if_neg hs1]
    rfl
  · right
    by_cases hr : edge.param "Type liaison" = JsVal.str "RJ45"
    · refine ⟨hr, ?_⟩
      by_contra hd
      apply h
      rw [if_neg h5, if_pos hr, if_neg hd]
      rfl
    · exact absurd (by rw [if_neg h5, if_neg hr]; rfl) h

theorem validateEdge_complete (nodes : List Node) (edge : Edge)
    (h : BreaksOtherRule nodes edge) : validateEdge nodes edge ≠ [] := by
  rw [validateEdge_eq]
  rcases h with ⟨h5, hb | hm | hs⟩ | ⟨hr, hd⟩
  · have hb1 : (!isKnownBand (edge.param "FrequencyBand")) = true := by simp [hb]
    rw [if_pos h5, if_pos hb1]
    simp
  · rw [if_pos h5, if_pos hm]
    simp
  · rw [if_pos h5, if_pos hs]
    simp
  · rw [if_pos hr, if_pos hd]
    simp

/-- Claim C17: the validation gate rejects only requests in which some edge breaks one of the
five rules, and it rejects every request in which an edge breaks the band rule, one of the two
frequency rules or the distance rule.  The numerology rule is not enforced as stated: the gate
accepts a 5G edge that declares the numerology 1.5, which is not one of 0, 1, 2, 3, 4, because
the declared value goes through `parseInt` before the test (`parseInt(1.5)` is 1); likewise
the string `"2.7"` is accepted.  The numerology 5 and the value `null` are rejected with the
message that the numerology must be 0, 1, 2, 3, or 4, and the numerologies 0 and 1 are
accepted. -/
theorem gate_accepts_fractional_numerology :
    (∀ (nodes : List Node) (edges : List Edge),
      validationErrors nodes edges ≠ [] → ∃ e ∈ edges, BreaksRule nodes e) ∧
    (∀ (nodes : List Node) (edges : List Edge) (e : Edge),
      e ∈ edges → BreaksOtherRule nodes e → validationErrors nodes edges ≠ []) ∧
    parseInt (JsVal.num 1.5) = 1 ∧
    validationErrors plainNodes [fiveGEdge "sub-6" [("Numerology (μ)", JsVal.num 1.5)]] = [] ∧
    BreaksRule plainNodes (fiveGEdge "sub-6" [("Numerology (μ)", JsVal.num 1.5)]) ∧
    validationErrors plainNodes [fiveGEdge "sub-6" [("Numerology (μ)", JsVal.str "2.7")]] = [] ∧
    validationErrors plainNodes [fiveGEdge "sub-6" [("Numerology (μ)", JsVal.num 5)]] =
      ["Edge e1: Numerology (μ) must be 0, 1, 2, 3, or 4"] ∧
    validationErrors plainNodes [fiveGEdge "sub-6" [("Numerology (μ)", JsVal.null)]] =
      ["Edge e1: Numerology (μ) must be 0, 1, 2, 3, or 4"] ∧
    validationErrors plainNodes [fiveGEdge "sub-6" [("Numerology (μ)", JsVal.num 0)]] = [] ∧
    validationErrors plainNodes [fiveGEdge "sub-6" [("Numerology (μ)", JsVal.num 1)]] = [] := by
  refine ⟨?_, ?_, ?_, ?_, ?_, ?_, ?_, ?_, ?_, ?_⟩
  · intro nodes edges h
    by_contra hnone
    apply h
    rw [validationErrors_eq_nil]
    intro e he
    by_contra hne
    exact hnone ⟨e, he, validateEdge_sound nodes e hne⟩
  · intro nodes edges e he hb hnil
    exact validateEdge_complete nodes e hb ((validationErrors_eq_nil nodes edges).mp hnil e he)
  · decide!
  · decide!
  · left
    refine ⟨by decide!, Or.inr (Or.inl ⟨by decide!, by decide!⟩)⟩
  · decide!
  · decide!
  · decide!
  · decide!
  · decide!

/-- A request with a 5G edge in an unknown band is rejected. -/
theorem gate_accepts_fractional_numerology_witness :
    validationErrors plainNodes [fiveGEdge "Ka" []] ≠ [] :=
  gate_accepts_fractional_numerology.2.1 plainNodes [fiveGEdge "Ka" []] (fiveGEdge "Ka" [])
    (List.mem_singleton.mpr rfl) (Or.inl ⟨by decide!, Or.inl (by decide!)⟩)

/-! ## The numerology block -/

theorem numerology_of_declared (host : Host) (frequency bandwidth : Num) (k : ℕ)
    (h1 : 1 ≤ k) (h4 : k ≤ 4) :
    (calculate5GNumerology host frequency bandwidth (Num.fin k)).numerology = Num.fin k ∧
    (calculate5GNumerology host frequency bandwidth (Num.fin k)).subcarrierSpacing =
      Num.fin (15 * 2 ^ k) ∧
    (calculate5GNumerology host frequency bandwidth (Num.fin k)).slotDuration =
      Num.fin (1 / 2 ^ k) := by
  refine ⟨rfl, ?_, ?_⟩
  · show subcarrierSpacing (Num.fin k) = _
    interval_cases k <;> decide!
  · show 1 / host.math.jsPow 2 (Num.fin k) = _
    interval_cases k <;> with_unfolding_all rfl

set_option maxRecDepth 100000 in
/-- Claim C18: for a 5G edge that declares one of the numbers 1, 2, 3, 4 as numerology μ, the
numerology block of every result reports numerology μ, subcarrier spacing `15 * 2 ^ μ` kHz
and slot duration `1 / 2 ^ μ` ms.  For the declared number 0, which the validation gate
admits, the block is that of μ = 1 (numerology 1, 30 kHz, 0.5 ms) and not numerology 0 with
15 kHz and 1 ms; the table entry for 0 is reached only by the string `"0"`. -/
theorem numerology_block :
    (∀ (host : Host) (sourceNode targetNode : Node) (edge : Edge) (r : LinkBudgetResult),
      calculateDirectLinkBudget host sourceNode targetNode edge = Except.ok r →
      linkTypeOf edge = JsVal.str "5G" →
      ∃ info, r.numerologyInfo = some info ∧
        (∀ k : ℕ, edge.param "Numerology (μ)" = JsVal.num (Num.fin k) → 1 ≤ k → k ≤ 4 →
          info.numerology = Num.fin k ∧ info.subcarrierSpacing = Num.fin (15 * 2 ^ k) ∧
            info.slotDuration = Num.fin (1 / 2 ^ k)) ∧
        (edge.param "Numerology (μ)" = JsVal.num 0 →
          info.numerology = 1 ∧ info.subcarrierSpacing = 30 ∧ info.slotDuration = 0.5)) ∧
    validationErrors plainNodes [fiveGEdge "sub-6" [("Numerology (μ)", JsVal.num 0)]] = [] ∧
    (∀ host : Host,
      directNumerology (calculateDirectLinkBudget host (paramNode "A" []) (paramNode "B" [])
          (fiveGEdge "sub-6" [("Numerology (μ)", JsVal.num 0)])) =
        some { subcarrierSpacing := 30, numberOfSubcarriers := 3333, slotDuration := 0.5,
               numerology := 1 }) ∧
    (∀ host : Host,
      directNumerology (calculateDirectLinkBudget host (paramNode "A" []) (paramNode "B" [])
          (fiveGEdge "sub-6" [("Numerology (μ)", JsVal.str "0")])) =
        some { subcarrierSpacing := 15, numberOfSubcarriers := 6666, slotDuration := 1,
               numerology := 0 }) := by
  refine ⟨?_, by decide!, fun host => by with_unfolding_all rfl,
    fun host => by with_unfolding_all rfl⟩
  intro host sourceNode targetNode edge r h htype
  obtain ⟨sd, sp, vars, _, _, _, hr⟩ :=
    calculateDirectLinkBudget_ok_stages host sourceNode targetNode edge r h
  have hinfo : r.numerologyInfo = some (calculate5GNumerology host
      (parseFloatOr (sourceNode.paramOpt "Fréquence (GHz)") 3500)
      (parseFloatOr (edge.param "Bande passante (MHz)") 100)
      (parseFloatOr (edge.param "Numerology (μ)") 1)) := by
    rw [hr]
    show (if linkTypeOf edge = JsVal.str "5G" then _ else none) = _
    rw [if_pos htype]
  refine ⟨_, hinfo, ?_, ?_⟩
  · intro k hk h1 h4
    rw [hk, parseFloatOr_num _ (by exact_mod_cast (by omega : k ≠ 0))]
    exact numerology_of_declared host _ _ k h1 h4
  · intro h0
    rw [h0, parseFloatOr_zero]
    refine ⟨rfl, ?_, by with_unfolding_all rfl⟩
    show subcarrierSpacing 1 = 30
    decide!

/-- The declared numerology 3 on the sample edge: 120 kHz and 0.125 ms. -/
theorem numerology_block_witness :
    ∃ r info, calculateDirectLinkBudget sampleHost (paramNode "A" []) (paramNode "B" [])
        (fiveGEdge "sub-6" [("Numerology (μ)", JsVal.num 3)]) = Except.ok r ∧
      r.numerologyInfo = some info ∧ info.numerology = 3 ∧ info.subcarrierSpacing = 120 ∧
      info.slotDuration = 0.125 := by
  obtain ⟨r, hr⟩ := calculateDirectLinkBudget_total sampleHost (paramNode "A" [])
    (paramNode "B" []) (fiveGEdge "sub-6" [("Numerology (μ)", JsVal.num 3)])
    ⟨_, _, rfl, rfl⟩ ⟨_, _, rfl, rfl⟩
  obtain ⟨info, hinfo, hk, _⟩ := numerology_block.1 sampleHost (paramNode "A" [])
    (paramNode "B" []) (fiveGEdge "sub-6" [("Numerology (μ)", JsVal.num 3)]) r hr (by decide!)
  obtain ⟨h1, h2, h3⟩ := hk 3 (by decide!) (by norm_num) (by norm_num)
  refine ⟨r, info, hr, hinfo, ?_, ?_, ?_⟩
  · rw [h1]; decide!
  · rw [h2]; decide!
  · rw [h3]; decide!

/-! ## Signal-to-noise ratio, coverage and interference factor: the statements -/

/-- Claim C15 (amended): every result of the direct model reports the link type of the edge, a
received power equal to the transmit power of the source node minus the returned loss, and an
`snr_dB` equal to `10 * log10(10 ^ ((receivedPower - noiseFloor) / 10))` for the noise floor
of the link type: -100 dBm for `Optique`, -80 for `RJ45`, -90 for `GSM`, -92 for `UMTS`, -94
for `4G` and -95 for every other type.  With exact powers and logarithms this round trip is
the identity: when the received power is finite, `snr_dB` is the received power minus the
noise floor. -/
theorem snr_dB_spec (host : Host) (sourceNode targetNode : Node)
    (edge : Edge) (r : LinkBudgetResult)
    (h : calculateDirectLinkBudget host sourceNode targetNode edge = Except.ok r) :
    r.linkType = linkTypeOf edge ∧
    (∃ power, sourceNode.param "Puissance (dBm)" = Except.ok power ∧
      r.receivedPower = parseFloatOr power 20 - r.loss) ∧
    r.snr_dB = 10 * host.math.jsLog10
      (host.math.jsPow 10 ((r.receivedPower - noiseFloor r.linkType) / 10)) ∧
    (ExactMath host.math → r.receivedPower.isFinite = true →
      r.snr_dB = r.receivedPower - noiseFloor r.linkType) ∧
    noiseFloor (JsVal.str "Optique") = -100 ∧ noiseFloor (JsVal.str "RJ45") = -80 ∧
    noiseFloor (JsVal.str "GSM") = -90 ∧ noiseFloor (JsVal.str "UMTS") = -92 ∧
    noiseFloor (JsVal.str "4G") = -94 ∧
    ∀ linkType, linkType ∉ [JsVal.str "Optique", JsVal.str "RJ45", JsVal.str "GSM",
      JsVal.str "UMTS", JsVal.str "4G"] → noiseFloor linkType = -95 := by
  obtain ⟨sd, sp, vars, hs, hsp, _, hr⟩ :=
    calculateDirectLinkBudget_ok_stages host sourceNode targetNode edge r h
  refine ⟨by rw [hr]; rfl, ⟨sp.get "Puissance (dBm)", ?_, by rw [hr]; rfl⟩, by rw [hr]; rfl, ?_,
    by decide, by decide, by decide, by decide, by decide, ?_⟩
  · simp [Node.param, hs, hsp]
  · intro hexact hfin
    rw [hr] at hfin ⊢
    show 10 * host.math.jsLog10 (snrLinearOf host (linkTypeOf edge) (transmitPower sp - vars.loss))
      = (transmitPower sp - vars.loss) - noiseFloor (linkTypeOf edge)
    have hfin1 : (transmitPower sp - vars.loss).isFinite = true := hfin
    obtain ⟨nf, hnf⟩ := noiseFloor_fin (linkTypeOf edge)
    cases hp : transmitPower sp - vars.loss with
    | fin p =>
      simp only [snrLinearOf, hnf, num_sub_fin]
      exact snr_roundtrip host.math hexact (p - nf)
    | nan => rw [hp] at hfin1; cases hfin1
    | posInf => rw [hp] at hfin1; cases hfin1
    | negInf => rw [hp] at hfin1; cases hfin1
  · intro linkType hl
    simp only [List.mem_cons, List.mem_singleton, List.not_mem_nil, or_false, not_or] at hl
    simp [noiseFloor, hl]

/-- An optical link of example scenario 1 on the interpolating host, whose powers and
logarithms are exact: received power `20 - 2.5 = 17.5` dBm and
`snr_dB = 17.5 - (-100) = 117.5`. -/
theorem snr_dB_spec_witness :
    ∃ r, calculateDirectLinkBudget interpolatingHost (paramNode "A" []) (paramNode "B" [])
        (scenario1Edge 0.1) = Except.ok r ∧
      r.receivedPower = 17.5 ∧ r.snr_dB = 117.5 := by
  obtain ⟨r, hr⟩ := calculateDirectLinkBudget_total interpolatingHost (paramNode "A" [])
    (paramNode "B" []) (scenario1Edge 0.1) ⟨_, _, rfl, rfl⟩ ⟨_, _, rfl, rfl⟩
  have hp : directReceivedPower (calculateDirectLinkBudget interpolatingHost (paramNode "A" [])
      (paramNode "B" []) (scenario1Edge 0.1)) = some 17.5 := by decide!
  rw [hr] at hp
  have hp1 : r.receivedPower = 17.5 := Option.some.inj hp
  obtain ⟨hlt, _, _, hsnr, _⟩ := snr_dB_spec interpolatingHost
    (paramNode "A" []) (paramNode "B" []) (scenario1Edge 0.1) r hr
  refine ⟨r, hr, hp1, ?_⟩
  rw [hsnr exactMath_interpolating (by rw [hp1]; rfl), hp1, hlt]
  decide!

/-- Claim C15 (counterexample): on a host whose power underflows as a double does, an optical
edge of 25000 km fed with 20 dBm has the finite received power `20 - 5000.5 = -4980.5` dBm;
the linear ratio `10 ^ (-488.05)` underflows to 0, so `snr_dB` is `-Infinity` and not the
received power minus the noise floor, `-4980.5 - (-100) = -4880.5`. -/
theorem snr_underflow :
    directReceivedPower (calculateDirectLinkBudget underflowHost (paramNode "A" [])
      (paramNode "B" []) (opticalEdge "e1" "A" "B" 25000)) = some (-4980.5) ∧
    Num.isFinite (-4980.5) = true ∧
    directSnr (calculateDirectLinkBudget underflowHost (paramNode "A" [])
      (paramNode "B" []) (opticalEdge "e1" "A" "B" 25000)) = some Num.negInf ∧
    (-4980.5 : Num) - noiseFloor (JsVal.str "Optique") = -4880.5 ∧
    Num.negInf ≠ (-4880.5 : Num) := by
  refine ⟨?_, ?_, ?_, ?_, ?_⟩
  · decide!
  · decide!
  · decide!
  · decide!
  · decide!

/-- Claim C23 (amended): the coverage returned for a cellular link (GSM, UMTS, 4G or 5G) is
`10 ^ ((100 - 32.4 - 20 * log10(f / 1000)) / 20)` for the carrier frequency `f` in MHz, a
function of `f` alone, whatever the distance of the edge and the transmit power are.  With
exact powers and logarithms and a finite positive `f` it is the distance at which the
free-space path loss `32.4 + 20 * log10(c) + 20 * log10(f / 1000)` equals 100 dB. -/
theorem cellular_coverage (host : Host)
    (sourceNode targetNode : Node) (edge : Edge) (r : LinkBudgetResult) (linkType : String)
    (declared : JsVal)
    (h : calculateDirectLinkBudget host sourceNode targetNode edge = Except.ok r)
    (htype : linkTypeOf edge = JsVal.str linkType)
    (hcell : linkType ∈ ["GSM", "UMTS", "4G", "5G"])
    (hdecl : sourceNode.param "Fréquence (MHz)" = Except.ok declared) :
    r.coverage = cellularCoverage host (carrierFrequency declared linkType) ∧
    ∀ f : ℚ, carrierFrequency declared linkType = Num.fin f → 0 < f → ExactMath host.math →
      freeSpaceLoss host r.coverage (Num.fin f) = 100 := by
  obtain ⟨sd, sp, vars, hs, hsp, hsel, hr⟩ :=
    calculateDirectLinkBudget_ok_stages host sourceNode targetNode edge r h
  rw [htype, selectBranch_cellular _ _ _ _ _ _ _ _ hcell] at hsel
  have hcov : r.coverage = cellularCoverage host (carrierFrequency declared linkType) := by
    rw [← cellularBranch_coverage _ _ _ _ _ _ _ _ _ hsel hdecl, hr]
    rfl
  refine ⟨hcov, ?_⟩
  intro f hf hpos hexact
  rw [hcov, hf]
  exact coverage_equation host hexact f hpos

/-- A GSM link from a node that declares the carrier frequency 1000 MHz, on the interpolating
host, whose powers and logarithms are exact. -/
theorem cellular_coverage_witness :
    ∃ r, calculateDirectLinkBudget interpolatingHost
        (paramNode "A" [("Fréquence (MHz)", JsVal.num 1000)]) (paramNode "B" []) gsmEdge =
          Except.ok r ∧
      r.coverage = cellularCoverage interpolatingHost (Num.fin 1000) ∧
      freeSpaceLoss interpolatingHost r.coverage (Num.fin 1000) = 100 := by
  obtain ⟨r, hr⟩ := calculateDirectLinkBudget_total interpolatingHost
    (paramNode "A" [("Fréquence (MHz)", JsVal.num 1000)]) (paramNode "B" []) gsmEdge
    ⟨_, _, rfl, rfl⟩ ⟨_, _, rfl, rfl⟩
  obtain ⟨hcov, heq⟩ := cellular_coverage interpolatingHost
    (paramNode "A" [("Fréquence (MHz)", JsVal.num 1000)]) (paramNode "B" []) gsmEdge r "GSM"
    (JsVal.num 1000) hr (by decide!) (by decide) rfl
  have hf : carrierFrequency (JsVal.num 1000) "GSM" = Num.fin 1000 := by decide!
  exact ⟨r, hr, by rw [hcov, hf], heq 1000 hf (by norm_num) exactMath_interpolating⟩

/-- Claim C23 (counterexample): a GSM link whose source node declares the carrier frequency
`Infinity` MHz (the JSON number `1e999`), which is positive, gets the coverage 0, and at this
coverage the free-space path loss is `NaN`, not 100 dB. -/
theorem coverage_at_infinite_frequency :
    carrierFrequency (JsVal.num Num.posInf) "GSM" = Num.posInf ∧
    Num.lt 0 Num.posInf = true ∧
    directCoverage (calculateDirectLinkBudget interpolatingHost
      (paramNode "A" [("Fréquence (MHz)", JsVal.num Num.posInf)]) (paramNode "B" []) gsmEdge) =
        some 0 ∧
    freeSpaceLoss interpolatingHost 0 Num.posInf = Num.nan ∧
    Num.nan ≠ (100 : Num) := by
  refine ⟨?_, ?_, ?_, ?_, ?_⟩
  · decide!
  · decide!
  · decide!
  · decide!
  · decide!

theorem monotoneMath_interpolating : MonotoneMath interpolatingMath where
  sqrt_ge_one := fun a ha => by
    show 1 ≤ interpolatedPow a (1 / 2)
    rw [interpolatedPow_half]
    linarith
  sqrt_mono := fun a b _ hab => by
    show interpolatedPow a (1 / 2) ≤ interpolatedPow b (1 / 2)
    rw [interpolatedPow_half, interpolatedPow_half]
    linarith
  log10_nonneg := fun a ha => by
    have h1 : interpolatedLog 10 1 = 0 := by
      have := interpolatedLog_zpow 10 (by norm_num) 0
      simpa using this
    have := interpolatedLog_mono 10 (by norm_num) 1 a (by norm_num) ha
    show 0 ≤ interpolatedLog 10 a
    linarith
  log10_mono := fun a b ha hab => interpolatedLog_mono 10 (by norm_num) a b (by linarith) hab

theorem interferenceReduction4G_value (host : Host) (hmono : MonotoneMath host.math)
    (n : ℚ) (hn : 1 < n) (cellRadius : Num) :
    calculateInterferenceReduction4G host (Num.fin n) cellRadius =
      Num.fin (min 1 (6 / 5 / (1 + 3 / 10 * host.math.log10 (host.math.sqrt n)))) := by
  have h1 : (1 : Num) = Num.fin 1 := by rw [num_ofNat]; norm_num
  have hle : ¬ Num.le (Num.fin n) 1 = true := by
    rw [h1, num_le_fin]
    exact not_le.mpr hn
  have hs : 1 ≤ host.math.sqrt n := hmono.sqrt_ge_one n hn
  have hl : 0 ≤ host.math.log10 (host.math.sqrt n) := hmono.log10_nonneg _ hs
  have hsqrt : host.math.jsSqrt (Num.fin n) = Num.fin (host.math.sqrt n) := by
    simp [JsMath.jsSqrt, not_lt.mpr (by linarith : (0 : ℚ) ≤ n), (by linarith : n ≠ 0)]
  have hd : (1 : ℚ) + 3 / 10 * host.math.log10 (host.math.sqrt n) ≠ 0 := by
    have : 0 < (1 : ℚ) + 3 / 10 * host.math.log10 (host.math.sqrt n) := by nlinarith
    exact this.ne'
  unfold calculateInterferenceReduction4G
  rw [if_neg hle, hsqrt]
  dsimp only
  rw [jsLog10_pos _ _ (by linarith : (0 : ℚ) < host.math.sqrt n), h1]
  simp only [num_ofScientific, num_mul_fin, num_add_fin]
  rw [show (OfScientific.ofScientific 3 true 1 : ℚ) = 3 / 10 by norm_num,
    show (OfScientific.ofScientific 12 true 1 : ℚ) = 6 / 5 by norm_num,
    show (OfScientific.ofScientific 10 true 1 : ℚ) = 1 by norm_num,
    num_div_fin _ _ hd, num_mul_fin]
  have hy : 1 / (1 + 3 / 10 * host.math.log10 (host.math.sqrt n)) * (6 / 5) =
      6 / 5 / (1 + 3 / 10 * host.math.log10 (host.math.sqrt n)) := by
    field_simp
    ring
  rw [hy]
  by_cases hlt : 6 / 5 / (1 + 3 / 10 * host.math.log10 (host.math.sqrt n)) < 1
  · simp [Num.min, Num.lt, hlt, min_eq_right hlt.le]
  · simp [Num.min, Num.lt, hlt, min_eq_left (not_lt.mp hlt)]

theorem interferenceReduction4G_posInf (host : Host) (cellRadius : Num) :
    calculateInterferenceReduction4G host Num.posInf cellRadius = 0 := by
  with_unfolding_all rfl

/-- Claim C24 (amended): with a square root and a decimal logarithm that are monotone from 1 on
and not below 1 and 0 there, for every finite number of cells `n` and every cell radius
`calculateInterferenceReduction4G` returns 1 when `n ≤ 1`, a number in the interval (0, 1]
when `n ≥ 0`, and a value that does not increase when `n` grows; a theoretical capacity per
cell `c ≥ 0` multiplied by the factor does not exceed `c`.  For the number of cells
`Infinity` the factor is 0, on every host. -/
theorem interference_reduction_4G (host : Host) (cellRadius : Num) :
    (MonotoneMath host.math →
      (∀ n : ℚ, n ≤ 1 → calculateInterferenceReduction4G host (Num.fin n) cellRadius = 1) ∧
      (∀ n : ℚ, 0 ≤ n → ∃ x : ℚ,
        calculateInterferenceReduction4G host (Num.fin n) cellRadius = Num.fin x ∧
          0 < x ∧ x ≤ 1) ∧
      (∀ n1 n2 : ℚ, 0 ≤ n1 → n1 ≤ n2 →
        Num.le (calculateInterferenceReduction4G host (Num.fin n2) cellRadius)
          (calculateInterferenceReduction4G host (Num.fin n1) cellRadius) = true) ∧
      (∀ n c : ℚ, 0 ≤ n → 0 ≤ c →
        Num.le (Num.fin c * calculateInterferenceReduction4G host (Num.fin n) cellRadius)
          (Num.fin c) = true)) ∧
    calculateInterferenceReduction4G host Num.posInf cellRadius = 0 := by
  refine ⟨?_, interferenceReduction4G_posInf host cellRadius⟩
  intro hmono
  have h1 : (1 : Num) = Num.fin 1 := by rw [num_ofNat]; norm_num
  have hrange : ∀ n : ℚ, ∃ x : ℚ,
      calculateInterferenceReduction4G host (Num.fin n) cellRadius = Num.fin x ∧
        0 < x ∧ x ≤ 1 := by
    intro n
    by_cases hn : n ≤ 1
    · exact ⟨1, by rw [interferenceReduction4G_of_le_one host n hn, h1], by norm_num, le_refl _⟩
    · have hn1 : 1 < n := not_le.mp hn
      have hs : 1 ≤ host.math.sqrt n := hmono.sqrt_ge_one n hn1
      have hl : 0 ≤ host.math.log10 (host.math.sqrt n) := hmono.log10_nonneg _ hs
      refine ⟨_, interferenceReduction4G_value host hmono n hn1 cellRadius, ?_,
        min_le_left _ _⟩
      apply lt_min (by norm_num)
      apply div_pos (by norm_num)
      nlinarith
  refine ⟨fun n hn => interferenceReduction4G_of_le_one host n hn cellRadius,
    fun n _ => hrange n, ?_, ?_⟩
  · intro n1 n2 _ h12
    by_cases hn : n1 ≤ 1
    · obtain ⟨x, hx, _, hx1⟩ := hrange n2
      rw [interferenceReduction4G_of_le_one host n1 hn, hx, h1]
      exact (num_le_fin _ _).mpr hx1
    · have hn1 : 1 < n1 := not_le.mp hn
      have hn2 : 1 < n2 := lt_of_lt_of_le hn1 h12
      have hs1 : 1 ≤ host.math.sqrt n1 := hmono.sqrt_ge_one n1 hn1
      have hl1 : 0 ≤ host.math.log10 (host.math.sqrt n1) := hmono.log10_nonneg _ hs1
      have hs : host.math.sqrt n1 ≤ host.math.sqrt n2 := hmono.sqrt_mono n1 n2 hn1 h12
      have hl : host.math.log10 (host.math.sqrt n1) ≤ host.math.log10 (host.math.sqrt n2) :=
        hmono.log10_mono _ _ hs1 hs
      rw [interferenceReduction4G_value host hmono n1 hn1,
        interferenceReduction4G_value host hmono n2 hn2]
      have hdiv : 6 / 5 / (1 + 3 / 10 * host.math.log10 (host.math.sqrt n2)) ≤
          6 / 5 / (1 + 3 / 10 * host.math.log10 (host.math.sqrt n1)) := by
        apply div_le_div_of_nonneg_left (by norm_num) (by nlinarith) (by nlinarith)
      exact (num_le_fin _ _).mpr (min_le_min (le_refl (1 : ℚ)) hdiv)
  · intro n c _ hc
    obtain ⟨x, hx, hx0, hx1⟩ := hrange n
    rw [hx, num_mul_fin]
    have : c * x ≤ c := by nlinarith
    exact (num_le_fin _ _).mpr this

/-- On the interpolating host the factor for 400 cells lies in the interval (0, 1]. -/
theorem interference_reduction_4G_witness :
    ∃ x : ℚ, calculateInterferenceReduction4G interpolatingHost (Num.fin 400) 1 = Num.fin x ∧
      0 < x ∧ x ≤ 1 :=
  ((interference_reduction_4G interpolatingHost 1).1 monotoneMath_interpolating).2.1 400
    (by norm_num)

/-- Claim C24 (counterexample): for the number of cells `Infinity`, which is at least 0 and
which a total area of `1e999` or a cell area of 0 produces, the factor is 0 and so not in the
interval (0, 1]; and for 400 cells the factor is below 1, so that the negative theoretical
capacity -540 (a declared bandwidth of -20 MHz) multiplied by it exceeds -540. -/
theorem interference_factor_at_infinity :
    Num.ge Num.posInf 0 = true ∧
    calculateInterferenceReduction4G interpolatingHost Num.posInf 1 = 0 ∧
    Num.lt 0 (0 : Num) = false ∧
    Num.lt (Num.fin (-540))
      (Num.fin (-540) * calculateInterferenceReduction4G interpolatingHost (Num.fin 400) 1)
        = true := by
  refine ⟨by decide!, by decide!, by decide!, ?_⟩
  have hs : interpolatingHost.math.sqrt 400 = 401 / 2 := by
    show interpolatedPow 400 (1 / 2) = 401 / 2
    rw [interpolatedPow_half]
    norm_num
  have hlog : (2 : ℚ) ≤ interpolatingHost.math.log10 (401 / 2) := by
    have hb := (interpolatedLog_bounds 10 (by norm_num) (401 / 2) (by norm_num)).1
    have hi : Int.log 10 ((401 : ℚ) / 2) = 2 :=
      intLog_of_bounds 10 (by norm_num) _ 2 (by norm_num) (by norm_num) (by norm_num)
    rw [hi] at hb
    exact_mod_cast hb
  rw [interferenceReduction4G_value interpolatingHost monotoneMath_interpolating 400
    (by norm_num) 1, hs, num_mul_fin]
  have hx : min (1 : ℚ) (6 / 5 / (1 + 3 / 10 * interpolatingHost.math.log10 (401 / 2))) ≤
      3 / 4 := by
    apply le_trans (min_le_right _ _)
    rw [div_le_iff₀ (by linarith)]
    linarith
  have : (-540 : ℚ) < -540 *
      min (1 : ℚ) (6 / 5 / (1 + 3 / 10 * interpolatingHost.math.log10 (401 / 2))) := by
    linarith
  simpa [Num.lt] using this

end RTS
